import Mathlib

/-!
# md4c-html: the HTML renderer of MD4C

A shallow embedding of `src/md4c-html.c` and theorems about it.

Conventions of the embedding

* A byte (`MD_CHAR`, a C `char` seen through `(unsigned char)`) is a `Fin 256`;
  a buffer `(const MD_CHAR* data, MD_SIZE size)` is a `List MD_CHAR`, the size
  being the length of the list.
* The output sink `process_output` is represented by the trace of its calls:
  `MD_HTML.output` is the list of chunks handed to the sink, oldest first.
* A link hook is code of the caller, for which `MD_HTML` is an opaque type: it
  can act on the renderer only through the `render` function it is handed.  It
  is represented by the texts it passes to `render`, in order, and the code it
  returns, both of which may depend on the renderer and on its argument.
* A C function `int f(MD_HTML* r, ...)` becomes
  `f : MD_HTML → ... → Option (Int × MD_HTML)`: the returned code and the
  renderer afterwards.  `none` is used for a `while` loop that ran out of the
  fuel it was given, and for a read `data[i]` with `i` not below the size of
  the buffer; the theorems show the fuel given is always enough.
* A size (`MD_SIZE`) or offset (`MD_OFFSET`) is an `unsigned` of 32 bits
  (`md4c.h`), so a buffer has fewer than `2 ^ 32` bytes.  Offsets satisfy
  `off ≤ size` throughout, and the increments `off++` cannot wrap.  The one
  sum that can, `off + 3` in the unrolled loop of `render_html_escaped`, is
  taken modulo `2 ^ 32`: it wraps at the end of a buffer of `2 ^ 32 - 3` bytes
  or more.
  The code point accumulated by `render_entity` is `unsigned`, and is reduced
  modulo `2 ^ 32` at every step.
-/

namespace Md4cHtml

/-! ## Data model -/

/-- A byte of text, as its value under `(unsigned char)`. -/
abbrev MD_CHAR := Fin 256

/-- The bytes of a C string literal (without the terminating NUL). -/
def cstr (s : String) : List MD_CHAR :=
  s.toList.map (fun c => ⟨c.toNat % 256, Nat.mod_lt _ (by decide)⟩)

/-- The three link hooks of `MD_HTML_CALLBACKS`. -/
inductive HookKind where
  | render_self_link
  | record_self_link
  | render_code_link
  deriving DecidableEq, Repr

/-- The record of one invocation of a link hook: which hook, the text it was
given, the code it returned, and the number of chunks the sink had received
when it returned. -/
structure HookCall where
  hook : HookKind
  data : List MD_CHAR
  ret : Int
  written : Nat
  deriving DecidableEq, Repr

/-- The renderer context `struct MD_HTML_tag`: the sink (as the trace of the
chunks passed to `process_output`), the renderer flags, the image nesting
level and the escape map (`char escape_map[256]`).  The link hooks are kept
apart, in `MD_HTML_CALLBACKS`; `hook_calls` is the trace of their invocations,
oldest first, which the code does not store. -/
structure MD_HTML where
  output : List (List MD_CHAR)
  flags : Nat
  image_nesting_level : Int
  escape_map : List Nat
  hook_calls : List HookCall := []
  deriving DecidableEq, Repr

/-- The type of `int (*fn_append)(MD_HTML*, const MD_CHAR*, MD_SIZE)`. -/
abbrev AppendFn := MD_HTML → List MD_CHAR → Option (Int × MD_HTML)

def NEED_HTML_ESC_FLAG : Nat := 0x1
def NEED_URL_ESC_FLAG : Nat := 0x2

def MD_HTML_FLAG_DEBUG : Nat := 0x0001
def MD_HTML_FLAG_VERBATIM_ENTITIES : Nat := 0x0002
def MD_HTML_FLAG_SKIP_UTF8_BOM : Nat := 0x0004
def MD_HTML_FLAG_XHTML : Nat := 0x0008

/-- The macro `ISDIGIT(ch)`. -/
def ISDIGIT (ch : Nat) : Bool := 0x30 ≤ ch && ch ≤ 0x39
/-- The macro `ISLOWER(ch)`. -/
def ISLOWER (ch : Nat) : Bool := 0x61 ≤ ch && ch ≤ 0x7A
/-- The macro `ISUPPER(ch)`. -/
def ISUPPER (ch : Nat) : Bool := 0x41 ≤ ch && ch ≤ 0x5A
/-- The macro `ISALNUM(ch)`. -/
def ISALNUM (ch : Nat) : Bool := ISLOWER ch || ISUPPER ch || ISDIGIT ch

/-- The C library function `strchr(s, c)` on a string literal `s`: the index of
the first occurrence of the byte `c` in `s`, where the terminating NUL counts
as part of the string (so `strchr(s, 0)` finds the terminator and is not
`NULL`); `none` stands for `NULL`. -/
def strchr (s : List MD_CHAR) (c : MD_CHAR) : Option Nat :=
  let i := (s ++ [0]).indexOf c
  if i < (s ++ [0]).length then some i else none

/-! ## The escape map built by `md_html` -/

/-- The body of the loop `for(i = 0; i < 256; i++)` of `md_html` for one `i`. -/
def escape_map_step (m : List Nat) (i : Nat) : List Nat :=
  let ch : MD_CHAR := ⟨i % 256, Nat.mod_lt _ (by decide)⟩
  let m1 :=
    if (strchr (cstr "\"&<>") ch).isSome then
      m.set i (m.getD i 0 ||| NEED_HTML_ESC_FLAG)
    else m
  if !ISALNUM ch.val && (strchr (cstr "~-_.+!*(),%#@?=;:/,+$") ch).isNone then
    m1.set i (m1.getD i 0 ||| NEED_URL_ESC_FLAG)
  else m1

/-- The escape map after the loop of `md_html`, started from the zeroed array
`{ 0 }` of the initialiser of `render`. -/
def md_html_escape_map : List Nat :=
  (List.range 256).foldl escape_map_step (List.replicate 256 0)

/-! ## Control flow helpers -/

/-- The macro `MD_HTML_TRY(ret, expr)` followed by the rest of the function
body: `ret = expr; if(ret != 0) return ret;` and then `rest`, which runs with
`ret == 0`. -/
def MD_HTML_TRY (expr : Option (Int × MD_HTML))
    (rest : MD_HTML → Option (Int × MD_HTML)) : Option (Int × MD_HTML) :=
  match expr with
  | none => none
  | some (ret, r) => if ret ≠ 0 then some (ret, r) else rest r

/-- A call whose result code is dropped (`RENDER_VERBATIM(r, "...");`),
followed by the rest of the function body. -/
def IGNORE_RET (expr : Option (Int × MD_HTML))
    (rest : MD_HTML → Option (Int × MD_HTML)) : Option (Int × MD_HTML) :=
  match expr with
  | none => none
  | some (_, r) => rest r

/-! ## Rendering helpers -/

/-- `render_verbatim`: hands the bytes to the sink and returns 0. -/
def render_verbatim : AppendFn := fun r text =>
  some (0, { r with output := r.output ++ [text] })

/-- The macro `RENDER_VERBATIM(r, verbatim)` for a C string. -/
def RENDER_VERBATIM (r : MD_HTML) (verbatim : String) : Option (Int × MD_HTML) :=
  render_verbatim r (cstr verbatim)

/-- The macro `NEED_HTML_ESC(ch)`, as a truth value. -/
def NEED_HTML_ESC (r : MD_HTML) (ch : MD_CHAR) : Bool :=
  (r.escape_map.getD ch.val 0) &&& NEED_HTML_ESC_FLAG != 0

/-- The macro `NEED_URL_ESC(ch)`, as a truth value. -/
def NEED_URL_ESC (r : MD_HTML) (ch : MD_CHAR) : Bool :=
  (r.escape_map.getD ch.val 0) &&& NEED_URL_ESC_FLAG != 0

/-- The bytes `data + beg` of size `off - beg`. -/
def slice (data : List MD_CHAR) (beg off : Nat) : List MD_CHAR :=
  (data.drop beg).take (off - beg)

/-- The value of `!NEED_HTML_ESC(data[i])` for an index `i` that the code
computes as an `MD_OFFSET` sum, so modulo `2 ^ 32`; `none` for a read outside
the buffer. -/
def html_unflagged_at (r : MD_HTML) (data : List MD_CHAR) (i : Nat) : Option Bool :=
  match data[i % 2 ^ 32]? with
  | some ch => some (!NEED_HTML_ESC r ch)
  | none => none

/-- The unrolled loop of `render_html_escaped`:
`while(off + 3 < size && !NEED_HTML_ESC(data[off+0]) && ... ) off += 4;`
The result is the value of `off` after the loop.  `off` is an `MD_OFFSET`,
which `md4c.h` (not among the sources at hand) defines as `unsigned`, here of
32 bits: the sum `off + 3`, the four indices and `off += 4` are taken modulo
`2 ^ 32`.  The operands of `&&` are evaluated from left to right,
up to the first one that is false; a read outside the buffer gives `none`. -/
def html_scan4 (r : MD_HTML) (data : List MD_CHAR) : Nat → Nat → Option Nat
  | 0, _ => none
  | fuel + 1, off =>
    if (off + 3) % 2 ^ 32 < data.length then
      match html_unflagged_at r data (off + 0) with
      | none => none
      | some false => some off
      | some true =>
        match html_unflagged_at r data (off + 1) with
        | none => none
        | some false => some off
        | some true =>
          match html_unflagged_at r data (off + 2) with
          | none => none
          | some false => some off
          | some true =>
            match html_unflagged_at r data (off + 3) with
            | none => none
            | some false => some off
            | some true => html_scan4 r data fuel ((off + 4) % 2 ^ 32)
    else some off

/-- The loop `while(off < size && !NEED_HTML_ESC(data[off])) off++;`. -/
def html_scan1 (r : MD_HTML) (data : List MD_CHAR) : Nat → Nat → Option Nat
  | 0, _ => none
  | fuel + 1, off =>
    if off < data.length && !NEED_HTML_ESC r (data.getD off 0) then
      html_scan1 r data fuel (off + 1)
    else some off

/-- The `switch(data[off])` of `render_html_escaped`; it has no `default`. -/
def html_escape_switch (r : MD_HTML) (ch : MD_CHAR) : Option (Int × MD_HTML) :=
  if ch = 0x26 then RENDER_VERBATIM r "&amp;"
  else if ch = 0x3C then RENDER_VERBATIM r "&lt;"
  else if ch = 0x3E then RENDER_VERBATIM r "&gt;"
  else if ch = 0x22 then RENDER_VERBATIM r "&quot;"
  else some (0, r)

/-- The loop `while(1)` of `render_html_escaped`, from the state
`(r, beg, off)` at the head of an iteration. -/
def render_html_escaped_loop (data : List MD_CHAR) :
    Nat → MD_HTML → Nat → Nat → Option (Int × MD_HTML)
  | 0, _, _, _ => none
  | fuel + 1, r, beg, off =>
    match html_scan4 r data (data.length + 1) off with
    | none => none
    | some off4 =>
      match html_scan1 r data (data.length + 1) off4 with
      | none => none
      | some off1 =>
        MD_HTML_TRY
          (if off1 > beg then render_verbatim r (slice data beg off1) else some (0, r))
          fun r =>
            if off1 < data.length then
              IGNORE_RET (html_escape_switch r (data.getD off1 0)) fun r =>
                render_html_escaped_loop data fuel r (off1 + 1) (off1 + 1)
            else some (0, r)

/-- `render_html_escaped`. -/
def render_html_escaped : AppendFn := fun r data =>
  render_html_escaped_loop data (data.length + 1) r 0 0

/-- The value of a plain `char` holding the byte `ch`, with `char` signed. -/
def char_val (ch : MD_CHAR) : Int :=
  if ch.val < 128 then (ch.val : Int) else (ch.val : Int) - 256

/-- Conversion of an `int` to `unsigned` (32 bits). -/
def to_unsigned (x : Int) : Nat := (x % 2 ^ 32).toNat

/-- The byte stored by an assignment to an `unsigned char` or `char`. -/
def to_byte (n : Nat) : MD_CHAR := ⟨n % 256, Nat.mod_lt _ (by decide)⟩

/-- The array `hex_chars` of `render_url_escaped`. -/
def hex_chars : List MD_CHAR := cstr "0123456789ABCDEF"

/-- The loop `while(off < size && !NEED_URL_ESC(data[off])) off++;`. -/
def url_scan1 (r : MD_HTML) (data : List MD_CHAR) : Nat → Nat → Option Nat
  | 0, _ => none
  | fuel + 1, off =>
    if off < data.length && !NEED_URL_ESC r (data.getD off 0) then
      url_scan1 r data fuel (off + 1)
    else some off

/-- The `switch(data[off])` of `render_url_escaped`, up to its `break`. -/
def url_escape_switch (r : MD_HTML) (ch : MD_CHAR)
    (rest : MD_HTML → Option (Int × MD_HTML)) : Option (Int × MD_HTML) :=
  if ch = 0x26 then IGNORE_RET (RENDER_VERBATIM r "&amp;") rest
  else
    let hex : List MD_CHAR :=
      [0x25,
       hex_chars.getD ((to_unsigned (char_val ch) >>> 4) &&& 0xf) 0,
       hex_chars.getD ((to_unsigned (char_val ch) >>> 0) &&& 0xf) 0]
    MD_HTML_TRY (render_verbatim r hex) rest

/-- The loop `while(1)` of `render_url_escaped`. -/
def render_url_escaped_loop (data : List MD_CHAR) :
    Nat → MD_HTML → Nat → Nat → Option (Int × MD_HTML)
  | 0, _, _, _ => none
  | fuel + 1, r, beg, off =>
    match url_scan1 r data (data.length + 1) off with
    | none => none
    | some off1 =>
      MD_HTML_TRY
        (if off1 > beg then render_verbatim r (slice data beg off1) else some (0, r))
        fun r =>
          if off1 < data.length then
            url_escape_switch r (data.getD off1 0) fun r =>
              render_url_escaped_loop data fuel r (off1 + 1) (off1 + 1)
          else some (0, r)

/-- `render_url_escaped`. -/
def render_url_escaped : AppendFn := fun r data =>
  render_url_escaped_loop data (data.length + 1) r 0 0

/-- `hex_val`; the `int` it computes is returned as `unsigned`. -/
def hex_val (ch : MD_CHAR) : Nat :=
  if 0x30 ≤ char_val ch ∧ char_val ch ≤ 0x39 then to_unsigned (char_val ch - 0x30)
  else if 0x41 ≤ char_val ch ∧ char_val ch ≤ 0x5A then to_unsigned (char_val ch - 0x41 + 10)
  else to_unsigned (char_val ch - 0x61 + 10)

/-- The array `utf8_replacement_char`. -/
def utf8_replacement_char : List MD_CHAR := [0xef, 0xbf, 0xbd]

/-- The array `utf8` filled by `render_utf8_codepoint`, cut to its `n` bytes. -/
def utf8_bytes (codepoint : Nat) : List MD_CHAR :=
  if codepoint ≤ 0x7f then
    [to_byte codepoint]
  else if codepoint ≤ 0x7ff then
    [to_byte (0xc0 ||| ((codepoint >>> 6) &&& 0x1f)),
     to_byte (0x80 + ((codepoint >>> 0) &&& 0x3f))]
  else if codepoint ≤ 0xffff then
    [to_byte (0xe0 ||| ((codepoint >>> 12) &&& 0xf)),
     to_byte (0x80 + ((codepoint >>> 6) &&& 0x3f)),
     to_byte (0x80 + ((codepoint >>> 0) &&& 0x3f))]
  else
    [to_byte (0xf0 ||| ((codepoint >>> 18) &&& 0x7)),
     to_byte (0x80 + ((codepoint >>> 12) &&& 0x3f)),
     to_byte (0x80 + ((codepoint >>> 6) &&& 0x3f)),
     to_byte (0x80 + ((codepoint >>> 0) &&& 0x3f))]

/-- `render_utf8_codepoint`; `codepoint` is an `unsigned`. -/
def render_utf8_codepoint (r : MD_HTML) (codepoint : Nat) (fn_append : AppendFn) :
    Option (Int × MD_HTML) :=
  if 0 < codepoint ∧ codepoint ≤ 0x10ffff then
    MD_HTML_TRY (fn_append r (utf8_bytes codepoint)) fun r => some (0, r)
  else
    MD_HTML_TRY (fn_append r utf8_replacement_char) fun r => some (0, r)

/-- The result of `entity_lookup` (declared in `entity.h`, which is not among
the sources): `none` for `NULL`, else the array `codepoints[2]` of the entity
found.  The lookup is a parameter of the functions that call it. -/
abbrev EntityLookup := List MD_CHAR → Option (Nat × Nat)

/-- The loop `for(i = 3; i < size-1; i++) codepoint = 16 * codepoint +
hex_val(text[i]);` of `render_entity`, in `unsigned` arithmetic. -/
def entity_hex_codepoint (text : List MD_CHAR) : Nat :=
  ((text.take (text.length - 1)).drop 3).foldl
    (fun codepoint ch => (16 * codepoint + hex_val ch) % 2 ^ 32) 0

/-- The loop `for(i = 2; i < size-1; i++) codepoint = 10 * codepoint +
(text[i] - '0');` of `render_entity`, in `unsigned` arithmetic. -/
def entity_dec_codepoint (text : List MD_CHAR) : Nat :=
  ((text.take (text.length - 1)).drop 2).foldl
    (fun codepoint ch => (10 * codepoint + to_unsigned (char_val ch - 0x30)) % 2 ^ 32) 0

/-- `render_entity`. -/
def render_entity (entity_lookup : EntityLookup) (r : MD_HTML) (text : List MD_CHAR)
    (fn_append : AppendFn) : Option (Int × MD_HTML) :=
  if r.flags &&& MD_HTML_FLAG_VERBATIM_ENTITIES ≠ 0 then
    MD_HTML_TRY (render_verbatim r text) fun r => some (0, r)
  else if text.length > 3 ∧ text.getD 1 0 = 0x23 then
    let codepoint :=
      if text.getD 2 0 = 0x78 ∨ text.getD 2 0 = 0x58 then entity_hex_codepoint text
      else entity_dec_codepoint text
    MD_HTML_TRY (render_utf8_codepoint r codepoint fn_append) fun r => some (0, r)
  else
    match entity_lookup text with
    | some ent =>
      MD_HTML_TRY (render_utf8_codepoint r ent.1 fn_append) fun r =>
        if ent.2 ≠ 0 then
          MD_HTML_TRY (render_utf8_codepoint r ent.2 fn_append) fun r => some (0, r)
        else some (0, r)
    | none => MD_HTML_TRY (fn_append r text) fun r => some (0, r)

/-! ## The text callback -/

/-- Modelled from the spec: the enumeration `MD_TEXTTYPE` of `md4c.h`, which is
not among the sources.  `text_callback` names five of its values (null
character, hard break, soft break, raw HTML, entity) and treats every other
one (normal text, code, LaTeX math) alike, in its `default` case. -/
inductive MD_TEXTTYPE where
  | MD_TEXT_NORMAL
  | MD_TEXT_NULLCHAR
  | MD_TEXT_BR
  | MD_TEXT_SOFTBR
  | MD_TEXT_ENTITY
  | MD_TEXT_CODE
  | MD_TEXT_HTML
  | MD_TEXT_LATEXMATH
  deriving DecidableEq, Repr

/-- `text_callback`; the renderer is its `userdata`. -/
def text_callback (entity_lookup : EntityLookup) (type : MD_TEXTTYPE)
    (text : List MD_CHAR) (r : MD_HTML) : Option (Int × MD_HTML) :=
  match type with
  | .MD_TEXT_NULLCHAR => render_utf8_codepoint r 0x0000 render_verbatim
  | .MD_TEXT_BR =>
    IGNORE_RET
      (RENDER_VERBATIM r
        (if r.image_nesting_level = 0 then
          (if r.flags &&& MD_HTML_FLAG_XHTML ≠ 0 then "<br />\n" else "<br>\n")
         else " "))
      fun r => some (0, r)
  | .MD_TEXT_SOFTBR =>
    IGNORE_RET (RENDER_VERBATIM r (if r.image_nesting_level = 0 then "\n" else " "))
      fun r => some (0, r)
  | .MD_TEXT_HTML => render_verbatim r text
  | .MD_TEXT_ENTITY => render_entity entity_lookup r text render_html_escaped
  | _ => render_html_escaped r text

/-! ## Link hooks -/

/-- What one invocation of a rendering hook does: the texts it passes, in
order, to the `render` function it was handed (`render_url_escaped`), and the
code it returns. -/
structure HookResult where
  rendered : List (List MD_CHAR)
  ret : Int
  deriving DecidableEq, Repr

/-- The three optional link hooks of `MD_HTML_CALLBACKS` (`none` for `NULL`).
The fourth callback, `process_output`, is the sink, represented by
`MD_HTML.output`. -/
structure MD_HTML_CALLBACKS where
  render_self_link : Option (MD_HTML → List MD_CHAR → HookResult) := none
  record_self_link : Option (MD_HTML → List MD_CHAR → Int) := none
  render_code_link : Option (MD_HTML → List MD_CHAR → HookResult) := none

/-- The calls `render(html, data, size)` made by a hook, in order. -/
def hook_renders : List (List MD_CHAR) → MD_HTML → Option MD_HTML
  | [], r => some r
  | data :: rest, r =>
    match render_url_escaped r data with
    | none => none
    | some (_, r1) => hook_renders rest r1

/-- The call of a rendering hook: `hook(data, size, r->userdata, r,
render_url_escaped)`.  The invocation is added to the trace when it returns. -/
def call_render_hook (kind : HookKind) (hook : MD_HTML → List MD_CHAR → HookResult) :
    AppendFn := fun r data =>
  match hook_renders (hook r data).rendered r with
  | none => none
  | some r1 =>
    some ((hook r data).ret,
      { r1 with hook_calls := r1.hook_calls ++
          [{ hook := kind, data := data, ret := (hook r data).ret,
             written := r1.output.length }] })

/-- `render_codelink_url_escaped`. -/
def render_codelink_url_escaped (cb : MD_HTML_CALLBACKS) : AppendFn := fun r data =>
  match cb.render_code_link with
  | some hook => call_render_hook .render_code_link hook r data
  | none => IGNORE_RET (render_url_escaped r data) fun r => some (0, r)

/-- `render_self_url_escaped`. -/
def render_self_url_escaped (cb : MD_HTML_CALLBACKS) : AppendFn := fun r data =>
  match cb.render_self_link with
  | some hook => call_render_hook .render_self_link hook r data
  | none => IGNORE_RET (render_url_escaped r data) fun r => some (0, r)

/-- `record_self_url`. -/
def record_self_url (cb : MD_HTML_CALLBACKS) : AppendFn := fun r data =>
  match cb.record_self_link with
  | some hook =>
    some (hook r data,
      { r with hook_calls := r.hook_calls ++
          [{ hook := .record_self_link, data := data, ret := hook r data,
             written := r.output.length }] })
  | none => some (0, r)

/-! ## Attributes -/

/-- Modelled from the spec: the structure `MD_ATTRIBUTE` of `md4c.h`, which is
not among the sources: the text (`none` for a `NULL` pointer) with its size,
and the sub-spans, given by their types and by their offsets, where the offsets
have one entry more than the types (the end of the last sub-span). -/
structure MD_ATTRIBUTE where
  text : Option (List MD_CHAR)
  size : Nat
  substr_types : List MD_TEXTTYPE
  substr_offsets : List Nat
  deriving DecidableEq, Repr

/-- The loop `for(i = 0; attr->substr_offsets[i] < attr->size; i++)` of
`render_attribute`, from the state `(i, r)` at its test.  A read past the end
of `substr_offsets` or `substr_types` gives `none`.  The size of a sub-span is
`substr_offsets[i+1] - off`, taken without wrap-around. -/
def render_attribute_loop (entity_lookup : EntityLookup) (attr : MD_ATTRIBUTE)
    (fn_append : AppendFn) : Nat → Nat → MD_HTML → Option (Int × MD_HTML)
  | 0, _, _ => none
  | fuel + 1, i, r =>
    match attr.substr_offsets[i]? with
    | none => none
    | some off =>
      if off < attr.size then
        match attr.substr_types[i]?, attr.substr_offsets[i + 1]? with
        | some type, some next =>
          MD_HTML_TRY
            (match type with
             | .MD_TEXT_NULLCHAR => render_utf8_codepoint r 0x0000 render_verbatim
             | .MD_TEXT_ENTITY =>
               render_entity entity_lookup r (slice (attr.text.getD []) off next) fn_append
             | _ => fn_append r (slice (attr.text.getD []) off next))
            fun r => render_attribute_loop entity_lookup attr fn_append fuel (i + 1) r
        | _, _ => none
      else some (0, r)

/-- `render_attribute`. -/
def render_attribute (entity_lookup : EntityLookup) (r : MD_HTML) (attr : MD_ATTRIBUTE)
    (fn_append : AppendFn) : Option (Int × MD_HTML) :=
  render_attribute_loop entity_lookup attr fn_append (attr.substr_offsets.length + 1) 0 r

/-! ## Blocks -/

/-- Modelled from the spec: the ordered-list detail of `md4c.h` (not among the
sources), of which the renderer reads the start number, an `unsigned`. -/
structure MD_BLOCK_OL_DETAIL where
  start : Nat
  deriving DecidableEq, Repr

/-- Modelled from the spec: the list-item detail of `md4c.h` (not among the
sources): whether the item is a task item, and its task mark. -/
structure MD_BLOCK_LI_DETAIL where
  is_task : Int
  task_mark : MD_CHAR
  deriving DecidableEq, Repr

/-- Modelled from the spec: the heading detail of `md4c.h` (not among the
sources): the heading level. -/
structure MD_BLOCK_H_DETAIL where
  level : Nat
  deriving DecidableEq, Repr

/-- Modelled from the spec: the code-block detail of `md4c.h` (not among the
sources), of which the renderer reads the language attribute. -/
structure MD_BLOCK_CODE_DETAIL where
  lang : MD_ATTRIBUTE
  deriving DecidableEq, Repr

/-- Modelled from the spec: the 4-way alignment enumeration of `md4c.h` (not
among the sources). -/
inductive MD_ALIGN where
  | MD_ALIGN_DEFAULT
  | MD_ALIGN_LEFT
  | MD_ALIGN_CENTER
  | MD_ALIGN_RIGHT
  deriving DecidableEq, Repr

/-- Modelled from the spec: the table-cell detail of `md4c.h` (not among the
sources): the alignment. -/
structure MD_BLOCK_TD_DETAIL where
  align : MD_ALIGN
  deriving DecidableEq, Repr

/-- Modelled from the spec: a block event of the parser, that is a value of
the enumeration `MD_BLOCKTYPE` of `md4c.h` (not among the sources) together
with the detail structure that the handlers cast `detail` to for that type. -/
inductive MD_BLOCK where
  | MD_BLOCK_DOC
  | MD_BLOCK_QUOTE
  | MD_BLOCK_UL
  | MD_BLOCK_OL (det : MD_BLOCK_OL_DETAIL)
  | MD_BLOCK_LI (det : MD_BLOCK_LI_DETAIL)
  | MD_BLOCK_HR
  | MD_BLOCK_H (det : MD_BLOCK_H_DETAIL)
  | MD_BLOCK_CODE (det : MD_BLOCK_CODE_DETAIL)
  | MD_BLOCK_HTML
  | MD_BLOCK_P
  | MD_BLOCK_TABLE
  | MD_BLOCK_THEAD
  | MD_BLOCK_TBODY
  | MD_BLOCK_TR
  | MD_BLOCK_TH (det : MD_BLOCK_TD_DETAIL)
  | MD_BLOCK_TD (det : MD_BLOCK_TD_DETAIL)
  deriving DecidableEq, Repr

/-- The digits written by the conversion `%u` of the C library, by repeated
division by 10: decimal, most significant digit first, a single `0` for zero. -/
def format_unsigned_loop : Nat → Nat → List MD_CHAR → List MD_CHAR
  | 0, _, acc => acc
  | fuel + 1, n, acc =>
    if n / 10 = 0 then to_byte (0x30 + n % 10) :: acc
    else format_unsigned_loop fuel (n / 10) (to_byte (0x30 + n % 10) :: acc)

/-- The conversion `%u` of the C library. -/
def format_unsigned (n : Nat) : List MD_CHAR := format_unsigned_loop (n + 1) n []

/-- The string left in `buf` by `snprintf(buf, sizeof(buf), "<ol start=\"%u\">\n",
start)`: the formatted text, cut to `sizeof(buf) - 1` bytes. -/
def snprintf_ol_start (sizeof_buf : Nat) (start : Nat) : List MD_CHAR :=
  (cstr "<ol start=\"" ++ format_unsigned start ++ cstr "\">\n").take (sizeof_buf - 1)

/-- The bytes of the C string held in a buffer: `strlen(buf)` of them. -/
def c_string (buf : List MD_CHAR) : List MD_CHAR := buf.takeWhile (fun ch => ch ≠ 0)

/-- `render_open_ol_block`. -/
def render_open_ol_block (r : MD_HTML) (det : MD_BLOCK_OL_DETAIL) : Option (Int × MD_HTML) :=
  if det.start = 1 then
    IGNORE_RET (RENDER_VERBATIM r "<ol>\n") fun r => some (0, r)
  else
    IGNORE_RET (render_verbatim r (c_string (snprintf_ol_start 64 det.start)))
      fun r => some (0, r)

/-- `render_open_li_block`. -/
def render_open_li_block (r : MD_HTML) (det : MD_BLOCK_LI_DETAIL) : Option (Int × MD_HTML) :=
  if det.is_task ≠ 0 then
    IGNORE_RET
      (RENDER_VERBATIM r
        ("<li class=\"task-list-item\">" ++
          "<input type=\"checkbox\" class=\"task-list-item-checkbox\" disabled"))
      fun r =>
        IGNORE_RET
          (if det.task_mark = 0x78 ∨ det.task_mark = 0x58 then RENDER_VERBATIM r " checked"
           else some (0, r))
          fun r => IGNORE_RET (RENDER_VERBATIM r ">") fun r => some (0, r)
  else
    IGNORE_RET (RENDER_VERBATIM r "<li>") fun r => some (0, r)

/-- The block `if(attr.text != NULL) { RENDER_VERBATIM(r, opening);
MD_HTML_TRY(ret, render_attribute(r, &attr, render_html_escaped)); ... }` that
several functions use for an optional attribute; `closing` is the text written
after the attribute inside the block, if any. -/
def render_optional_attribute (entity_lookup : EntityLookup) (r : MD_HTML)
    (attr : MD_ATTRIBUTE) (opening : String) (closing : Option String) :
    Option (Int × MD_HTML) :=
  if attr.text ≠ none then
    IGNORE_RET (RENDER_VERBATIM r opening) fun r =>
      MD_HTML_TRY (render_attribute entity_lookup r attr render_html_escaped) fun r =>
        match closing with
        | some s => IGNORE_RET (RENDER_VERBATIM r s) fun r => some (0, r)
        | none => some (0, r)
  else some (0, r)

/-- `render_open_code_block`. -/
def render_open_code_block (entity_lookup : EntityLookup) (r : MD_HTML)
    (det : MD_BLOCK_CODE_DETAIL) : Option (Int × MD_HTML) :=
  IGNORE_RET (RENDER_VERBATIM r "<pre><code") fun r =>
    MD_HTML_TRY
      (render_optional_attribute entity_lookup r det.lang " class=\"language-" (some "\""))
      fun r => IGNORE_RET (RENDER_VERBATIM r ">") fun r => some (0, r)

/-- `render_open_td_block`. -/
def render_open_td_block (r : MD_HTML) (cell_type : String) (det : MD_BLOCK_TD_DETAIL) :
    Option (Int × MD_HTML) :=
  IGNORE_RET (RENDER_VERBATIM r "<") fun r =>
    IGNORE_RET (RENDER_VERBATIM r cell_type) fun r =>
      IGNORE_RET
        (match det.align with
         | .MD_ALIGN_LEFT => RENDER_VERBATIM r " align=\"left\">"
         | .MD_ALIGN_CENTER => RENDER_VERBATIM r " align=\"center\">"
         | .MD_ALIGN_RIGHT => RENDER_VERBATIM r " align=\"right\">"
         | _ => RENDER_VERBATIM r ">")
        fun r => some (0, r)

/-- The array `head` of `enter_block_callback`. -/
def enter_head : List String := ["<h1>", "<h2>", "<h3>", "<h4>", "<h5>", "<h6>"]

/-- The array `head` of `leave_block_callback`. -/
def leave_head : List String :=
  ["</h1>\n", "</h2>\n", "</h3>\n", "</h4>\n", "</h5>\n", "</h6>\n"]

/-- The statement `RENDER_VERBATIM(r, head[level - 1])` of the block callbacks;
an index outside the array gives `none`. -/
def render_head (r : MD_HTML) (head : List String) (level : Nat) : Option (Int × MD_HTML) :=
  if level = 0 then none
  else
    match head[level - 1]? with
    | some s => RENDER_VERBATIM r s
    | none => none

/-- `enter_block_callback`; the renderer is its `userdata`. -/
def enter_block_callback (entity_lookup : EntityLookup) (block : MD_BLOCK) (r : MD_HTML) :
    Option (Int × MD_HTML) :=
  match block with
  | .MD_BLOCK_DOC => some (0, r)
  | .MD_BLOCK_QUOTE => IGNORE_RET (RENDER_VERBATIM r "<blockquote>\n") fun r => some (0, r)
  | .MD_BLOCK_UL => IGNORE_RET (RENDER_VERBATIM r "<ul>\n") fun r => some (0, r)
  | .MD_BLOCK_OL det => render_open_ol_block r det
  | .MD_BLOCK_LI det => render_open_li_block r det
  | .MD_BLOCK_HR =>
    IGNORE_RET
      (RENDER_VERBATIM r (if r.flags &&& MD_HTML_FLAG_XHTML ≠ 0 then "<hr />\n" else "<hr>\n"))
      fun r => some (0, r)
  | .MD_BLOCK_H det => IGNORE_RET (render_head r enter_head det.level) fun r => some (0, r)
  | .MD_BLOCK_CODE det => render_open_code_block entity_lookup r det
  | .MD_BLOCK_HTML => some (0, r)
  | .MD_BLOCK_P => IGNORE_RET (RENDER_VERBATIM r "<p>") fun r => some (0, r)
  | .MD_BLOCK_TABLE => IGNORE_RET (RENDER_VERBATIM r "<table>\n") fun r => some (0, r)
  | .MD_BLOCK_THEAD => IGNORE_RET (RENDER_VERBATIM r "<thead>\n") fun r => some (0, r)
  | .MD_BLOCK_TBODY => IGNORE_RET (RENDER_VERBATIM r "<tbody>\n") fun r => some (0, r)
  | .MD_BLOCK_TR => IGNORE_RET (RENDER_VERBATIM r "<tr>\n") fun r => some (0, r)
  | .MD_BLOCK_TH det => render_open_td_block r "th" det
  | .MD_BLOCK_TD det => render_open_td_block r "td" det

/-- `leave_block_callback`; the renderer is its `userdata`. -/
def leave_block_callback (block : MD_BLOCK) (r : MD_HTML) : Option (Int × MD_HTML) :=
  match block with
  | .MD_BLOCK_DOC => some (0, r)
  | .MD_BLOCK_QUOTE => IGNORE_RET (RENDER_VERBATIM r "</blockquote>\n") fun r => some (0, r)
  | .MD_BLOCK_UL => IGNORE_RET (RENDER_VERBATIM r "</ul>\n") fun r => some (0, r)
  | .MD_BLOCK_OL _ => IGNORE_RET (RENDER_VERBATIM r "</ol>\n") fun r => some (0, r)
  | .MD_BLOCK_LI _ => IGNORE_RET (RENDER_VERBATIM r "</li>\n") fun r => some (0, r)
  | .MD_BLOCK_HR => some (0, r)
  | .MD_BLOCK_H det => IGNORE_RET (render_head r leave_head det.level) fun r => some (0, r)
  | .MD_BLOCK_CODE _ => IGNORE_RET (RENDER_VERBATIM r "</code></pre>\n") fun r => some (0, r)
  | .MD_BLOCK_HTML => some (0, r)
  | .MD_BLOCK_P => IGNORE_RET (RENDER_VERBATIM r "</p>\n") fun r => some (0, r)
  | .MD_BLOCK_TABLE => IGNORE_RET (RENDER_VERBATIM r "</table>\n") fun r => some (0, r)
  | .MD_BLOCK_THEAD => IGNORE_RET (RENDER_VERBATIM r "</thead>\n") fun r => some (0, r)
  | .MD_BLOCK_TBODY => IGNORE_RET (RENDER_VERBATIM r "</tbody>\n") fun r => some (0, r)
  | .MD_BLOCK_TR => IGNORE_RET (RENDER_VERBATIM r "</tr>\n") fun r => some (0, r)
  | .MD_BLOCK_TH _ => IGNORE_RET (RENDER_VERBATIM r "</th>\n") fun r => some (0, r)
  | .MD_BLOCK_TD _ => IGNORE_RET (RENDER_VERBATIM r "</td>\n") fun r => some (0, r)

/-! ## Spans -/

/-- Modelled from the spec: the link detail of `md4c.h` (not among the
sources): the target and the title, which is absent when its text is `NULL`. -/
structure MD_SPAN_A_DETAIL where
  href : MD_ATTRIBUTE
  title : MD_ATTRIBUTE
  deriving DecidableEq, Repr

/-- Modelled from the spec: the image detail of `md4c.h` (not among the
sources): the source and the title, which is absent when its text is `NULL`. -/
structure MD_SPAN_IMG_DETAIL where
  src : MD_ATTRIBUTE
  title : MD_ATTRIBUTE
  deriving DecidableEq, Repr

/-- Modelled from the spec: the wikilink detail of `md4c.h` (not among the
sources): the target. -/
structure MD_SPAN_WIKILINK_DETAIL where
  target : MD_ATTRIBUTE
  deriving DecidableEq, Repr

/-- Modelled from the spec: a span event of the parser, that is a value of the
enumeration `MD_SPANTYPE` of `md4c.h` (not among the sources) together with
the detail structure that the handlers cast `detail` to for that type. -/
inductive MD_SPAN where
  | MD_SPAN_EM
  | MD_SPAN_STRONG
  | MD_SPAN_U
  | MD_SPAN_A (det : MD_SPAN_A_DETAIL)
  | MD_SPAN_A_CODELINK (det : MD_SPAN_A_DETAIL)
  | MD_SPAN_A_SELF (det : MD_SPAN_A_DETAIL)
  | MD_SPAN_IMG (det : MD_SPAN_IMG_DETAIL)
  | MD_SPAN_CODE
  | MD_SPAN_DEL
  | MD_SPAN_LATEXMATH
  | MD_SPAN_LATEXMATH_DISPLAY
  | MD_SPAN_WIKILINK (det : MD_SPAN_WIKILINK_DETAIL)
  deriving DecidableEq, Repr

/-- `render_open_a_span`. -/
def render_open_a_span (entity_lookup : EntityLookup) (r : MD_HTML) (det : MD_SPAN_A_DETAIL) :
    Option (Int × MD_HTML) :=
  IGNORE_RET (RENDER_VERBATIM r "<a href=\"") fun r =>
    MD_HTML_TRY (render_attribute entity_lookup r det.href render_url_escaped) fun r =>
      MD_HTML_TRY (render_optional_attribute entity_lookup r det.title "\" title=\"" none)
        fun r => IGNORE_RET (RENDER_VERBATIM r "\">") fun r => some (0, r)

/-- `render_open_a_codelink_span`. -/
def render_open_a_codelink_span (cb : MD_HTML_CALLBACKS) (entity_lookup : EntityLookup)
    (r : MD_HTML) (det : MD_SPAN_A_DETAIL) : Option (Int × MD_HTML) :=
  IGNORE_RET (RENDER_VERBATIM r "<a href=\"") fun r =>
    MD_HTML_TRY (render_attribute entity_lookup r det.href (render_codelink_url_escaped cb))
      fun r =>
        MD_HTML_TRY (render_optional_attribute entity_lookup r det.title "\" title=\"" none)
          fun r => IGNORE_RET (RENDER_VERBATIM r "\">") fun r => some (0, r)

/-- `render_open_a_self_span`. -/
def render_open_a_self_span (cb : MD_HTML_CALLBACKS) (entity_lookup : EntityLookup)
    (r : MD_HTML) (det : MD_SPAN_A_DETAIL) : Option (Int × MD_HTML) :=
  IGNORE_RET (RENDER_VERBATIM r "<a name=\"") fun r =>
    MD_HTML_TRY (render_attribute entity_lookup r det.href (render_self_url_escaped cb))
      fun r =>
        IGNORE_RET (RENDER_VERBATIM r "\" href=\"#") fun r =>
          MD_HTML_TRY
            (render_attribute entity_lookup r det.href (render_self_url_escaped cb))
            fun r =>
              MD_HTML_TRY (render_attribute entity_lookup r det.href (record_self_url cb))
                fun r =>
                  MD_HTML_TRY
                    (render_optional_attribute entity_lookup r det.title "\" title=\"" none)
                    fun r => IGNORE_RET (RENDER_VERBATIM r "\">") fun r => some (0, r)

/-- `render_open_img_span`. -/
def render_open_img_span (entity_lookup : EntityLookup) (r : MD_HTML)
    (det : MD_SPAN_IMG_DETAIL) : Option (Int × MD_HTML) :=
  IGNORE_RET (RENDER_VERBATIM r "<img src=\"") fun r =>
    MD_HTML_TRY (render_attribute entity_lookup r det.src render_url_escaped) fun r =>
      IGNORE_RET (RENDER_VERBATIM r "\" alt=\"") fun r =>
        some (0, { r with image_nesting_level := r.image_nesting_level + 1 })

/-- `render_close_img_span`. -/
def render_close_img_span (entity_lookup : EntityLookup) (r : MD_HTML)
    (det : MD_SPAN_IMG_DETAIL) : Option (Int × MD_HTML) :=
  MD_HTML_TRY (render_optional_attribute entity_lookup r det.title "\" title=\"" none)
    fun r =>
      IGNORE_RET
        (RENDER_VERBATIM r (if r.flags &&& MD_HTML_FLAG_XHTML ≠ 0 then "\" />" else "\">"))
        fun r => some (0, { r with image_nesting_level := r.image_nesting_level - 1 })

/-- `render_open_wikilink_span`. -/
def render_open_wikilink_span (entity_lookup : EntityLookup) (r : MD_HTML)
    (det : MD_SPAN_WIKILINK_DETAIL) : Option (Int × MD_HTML) :=
  IGNORE_RET (RENDER_VERBATIM r "<x-wikilink data-target=\"") fun r =>
    MD_HTML_TRY (render_attribute entity_lookup r det.target render_html_escaped) fun r =>
      IGNORE_RET (RENDER_VERBATIM r "\">") fun r => some (0, r)

/-- `enter_span_callback`; the renderer is its `userdata`. -/
def enter_span_callback (cb : MD_HTML_CALLBACKS) (entity_lookup : EntityLookup)
    (span : MD_SPAN) (r : MD_HTML) : Option (Int × MD_HTML) :=
  if r.image_nesting_level > 0 then some (0, r)
  else
    match span with
    | .MD_SPAN_EM => IGNORE_RET (RENDER_VERBATIM r "<em>") fun r => some (0, r)
    | .MD_SPAN_STRONG => IGNORE_RET (RENDER_VERBATIM r "<strong>") fun r => some (0, r)
    | .MD_SPAN_U => IGNORE_RET (RENDER_VERBATIM r "<u>") fun r => some (0, r)
    | .MD_SPAN_A det => render_open_a_span entity_lookup r det
    | .MD_SPAN_A_CODELINK det => render_open_a_codelink_span cb entity_lookup r det
    | .MD_SPAN_A_SELF det => render_open_a_self_span cb entity_lookup r det
    | .MD_SPAN_IMG det => render_open_img_span entity_lookup r det
    | .MD_SPAN_CODE => IGNORE_RET (RENDER_VERBATIM r "<code>") fun r => some (0, r)
    | .MD_SPAN_DEL => IGNORE_RET (RENDER_VERBATIM r "<del>") fun r => some (0, r)
    | .MD_SPAN_LATEXMATH => IGNORE_RET (RENDER_VERBATIM r "<x-equation>") fun r => some (0, r)
    | .MD_SPAN_LATEXMATH_DISPLAY =>
      IGNORE_RET (RENDER_VERBATIM r "<x-equation type=\"display\">") fun r => some (0, r)
    | .MD_SPAN_WIKILINK det => render_open_wikilink_span entity_lookup r det

/-- `leave_span_callback`; the renderer is its `userdata`. -/
def leave_span_callback (entity_lookup : EntityLookup) (span : MD_SPAN) (r : MD_HTML) :
    Option (Int × MD_HTML) :=
  if r.image_nesting_level > 0 then
    match span with
    | .MD_SPAN_IMG det =>
      if r.image_nesting_level = 1 then
        MD_HTML_TRY (render_close_img_span entity_lookup r det) fun r => some (0, r)
      else some (0, r)
    | _ => some (0, r)
  else
    match span with
    | .MD_SPAN_EM => IGNORE_RET (RENDER_VERBATIM r "</em>") fun r => some (0, r)
    | .MD_SPAN_STRONG => IGNORE_RET (RENDER_VERBATIM r "</strong>") fun r => some (0, r)
    | .MD_SPAN_U => IGNORE_RET (RENDER_VERBATIM r "</u>") fun r => some (0, r)
    | .MD_SPAN_A _ => IGNORE_RET (RENDER_VERBATIM r "</a>") fun r => some (0, r)
    | .MD_SPAN_A_CODELINK _ => IGNORE_RET (RENDER_VERBATIM r "</a>") fun r => some (0, r)
    | .MD_SPAN_A_SELF _ => IGNORE_RET (RENDER_VERBATIM r "</a>") fun r => some (0, r)
    | .MD_SPAN_IMG _ => some (0, r)
    | .MD_SPAN_CODE => IGNORE_RET (RENDER_VERBATIM r "</code>") fun r => some (0, r)
    | .MD_SPAN_DEL => IGNORE_RET (RENDER_VERBATIM r "</del>") fun r => some (0, r)
    | .MD_SPAN_LATEXMATH => IGNORE_RET (RENDER_VERBATIM r "</x-equation>") fun r => some (0, r)
    | .MD_SPAN_LATEXMATH_DISPLAY =>
      IGNORE_RET (RENDER_VERBATIM r "</x-equation>") fun r => some (0, r)
    | .MD_SPAN_WIKILINK _ => IGNORE_RET (RENDER_VERBATIM r "</x-wikilink>") fun r => some (0, r)

/-! ## The session driver -/

/-- Modelled from the spec: an event of the parser `md_parse` (`md4c.c` is not
among the sources): the call of one of the five handlers. -/
inductive MD_EVENT where
  | enter_block (block : MD_BLOCK)
  | leave_block (block : MD_BLOCK)
  | enter_span (span : MD_SPAN)
  | leave_span (span : MD_SPAN)
  | text (type : MD_TEXTTYPE) (text : List MD_CHAR)
  deriving DecidableEq, Repr

/-- The handler that the parser calls for an event, as `md_html` registers
them in `MD_PARSER`. -/
def handle_event (cb : MD_HTML_CALLBACKS) (entity_lookup : EntityLookup) (event : MD_EVENT)
    (r : MD_HTML) : Option (Int × MD_HTML) :=
  match event with
  | .enter_block block => enter_block_callback entity_lookup block r
  | .leave_block block => leave_block_callback block r
  | .enter_span span => enter_span_callback cb entity_lookup span r
  | .leave_span span => leave_span_callback entity_lookup span r
  | .text type text => text_callback entity_lookup type text r

/-- Modelled from the spec: the way `md_parse` (`md4c.c` is not among the
sources) drives the handlers: it calls them for the events in order, and a
handler that returns a nonzero code stops the parse, which returns that code. -/
def run_events (cb : MD_HTML_CALLBACKS) (entity_lookup : EntityLookup) :
    List MD_EVENT → MD_HTML → Option (Int × MD_HTML)
  | [], r => some (0, r)
  | event :: rest, r =>
    MD_HTML_TRY (handle_event cb entity_lookup event r) (run_events cb entity_lookup rest)

/-- The value of `sizeof(MD_CHAR)`: `MD_CHAR` is `char`. -/
def sizeof_MD_CHAR : Nat := 1

/-- The array `bom` of `md_html`. -/
def bom : List MD_CHAR := [0xef, 0xbb, 0xbf]

/-- `md_html`.  The parser `md_parse` (`md4c.c` is not among the sources) is a
parameter: it is called with the input, the parser flags, the callbacks and
the renderer, and `md_html` returns its result. -/
def md_html (md_parse : List MD_CHAR → Nat → MD_HTML_CALLBACKS → MD_HTML → Int)
    (input : List MD_CHAR) (callbacks : MD_HTML_CALLBACKS)
    (parser_flags renderer_flags : Nat) : Int :=
  let render : MD_HTML :=
    { output := [], flags := renderer_flags, image_nesting_level := 0,
      escape_map := md_html_escape_map }
  let input1 :=
    if renderer_flags &&& MD_HTML_FLAG_SKIP_UTF8_BOM ≠ 0 ∧ sizeof_MD_CHAR = 1 then
      if input.length ≥ bom.length ∧ input.take bom.length = bom then input.drop bom.length
      else input
    else input
  md_parse input1 parser_flags callbacks render

/-! ## Reference descriptions used by the theorems -/

/-- The renderer as `md_html` sets it up: nothing written yet, image nesting
level 0, and the escape map built by its loop. -/
def md_html_render (renderer_flags : Nat) : MD_HTML :=
  { output := [], flags := renderer_flags, image_nesting_level := 0,
    escape_map := md_html_escape_map }

/-- The renderer `r` after the chunks `chunks` have been handed to the sink. -/
def emit (r : MD_HTML) (chunks : List (List MD_CHAR)) : MD_HTML :=
  { r with output := r.output ++ chunks }

/-- The bytes `render_html_escaped` writes for one byte of its input: the byte
itself when its HTML flag is clear; when the flag is set, the entity chosen by
the `switch`, which writes nothing for a byte other than `&`, `<`, `>`, `"`. -/
def html_byte_output (r : MD_HTML) (ch : MD_CHAR) : List MD_CHAR :=
  if NEED_HTML_ESC r ch then
    if ch = 0x26 then cstr "&amp;"
    else if ch = 0x3C then cstr "&lt;"
    else if ch = 0x3E then cstr "&gt;"
    else if ch = 0x22 then cstr "&quot;"
    else []
  else [ch]

/-- A continuation byte of UTF-8: `10xxxxxx`. -/
def utf8_is_continuation (b : Nat) : Bool := 0x80 ≤ b && b < 0xC0

/-- Reference decoder of the UTF-8 encoding of one scalar value, as UTF-8 is
defined in RFC 3629: the lead byte fixes the length, each further byte is a
continuation byte carrying six bits, and overlong forms, surrogates and values
above 0x10FFFF are rejected. -/
def reference_utf8_decode (bytes : List MD_CHAR) : Option Nat :=
  match bytes.map Fin.val with
  | [b0] => if b0 < 0x80 then some b0 else none
  | [b0, b1] =>
    if 0xC0 ≤ b0 ∧ b0 < 0xE0 ∧ utf8_is_continuation b1 then
      let c := (b0 - 0xC0) * 0x40 + (b1 - 0x80)
      if 0x80 ≤ c then some c else none
    else none
  | [b0, b1, b2] =>
    if 0xE0 ≤ b0 ∧ b0 < 0xF0 ∧ utf8_is_continuation b1 ∧ utf8_is_continuation b2 then
      let c := (b0 - 0xE0) * 0x1000 + (b1 - 0x80) * 0x40 + (b2 - 0x80)
      if 0x800 ≤ c ∧ ¬ (0xD800 ≤ c ∧ c ≤ 0xDFFF) then some c else none
    else none
  | [b0, b1, b2, b3] =>
    if 0xF0 ≤ b0 ∧ b0 < 0xF8 ∧ utf8_is_continuation b1 ∧ utf8_is_continuation b2
        ∧ utf8_is_continuation b3 then
      let c := (b0 - 0xF0) * 0x40000 + (b1 - 0x80) * 0x1000 + (b2 - 0x80) * 0x40 + (b3 - 0x80)
      if 0x10000 ≤ c ∧ c ≤ 0x10FFFF then some c else none
    else none
  | _ => none

/-- A decimal digit character. -/
def is_dec_digit (ch : MD_CHAR) : Bool := 0x30 ≤ ch.val && ch.val ≤ 0x39

/-- A hexadecimal digit character, of either letter case. -/
def is_hex_digit (ch : MD_CHAR) : Bool :=
  is_dec_digit ch || (0x41 ≤ ch.val && ch.val ≤ 0x46) || (0x61 ≤ ch.val && ch.val ≤ 0x66)

/-- The value of a digit character: `0`..`9` are 0..9, `A`..`F` and `a`..`f`
are 10..15. -/
def digit_value (ch : MD_CHAR) : Nat :=
  if 0x30 ≤ ch.val ∧ ch.val ≤ 0x39 then ch.val - 0x30
  else if 0x41 ≤ ch.val ∧ ch.val ≤ 0x46 then ch.val - 0x41 + 10
  else if 0x61 ≤ ch.val ∧ ch.val ≤ 0x66 then ch.val - 0x61 + 10
  else 0

/-- The number that a string of digits denotes in the given base, most
significant digit first. -/
def denoted_number (base : Nat) (digits : List MD_CHAR) : Nat :=
  Nat.ofDigits base (digits.reverse.map digit_value)

/-- A numeric entity token: `&#D;` with decimal digits `D`, or `&#xH;` / `&#XH;`
with the marker byte `x` or `X` and hexadecimal digits `H`. -/
inductive NumericEntity where
  | dec (digits : List MD_CHAR)
  | hex (marker : MD_CHAR) (digits : List MD_CHAR)
  deriving DecidableEq, Repr

/-- The bytes of a numeric entity token, delimiters included. -/
def NumericEntity.text : NumericEntity → List MD_CHAR
  | .dec digits => cstr "&#" ++ digits ++ cstr ";"
  | .hex marker digits => cstr "&#" ++ [marker] ++ digits ++ cstr ";"

/-- A numeric entity token is well formed when it has at least one digit, all
its digits are digits of its base, and the marker of the hexadecimal form is
`x` or `X`. -/
def NumericEntity.well_formed : NumericEntity → Bool
  | .dec digits => !digits.isEmpty && digits.all is_dec_digit
  | .hex marker digits =>
    (marker == 0x78 || marker == 0x58) && !digits.isEmpty && digits.all is_hex_digit

/-- The number the digits of a numeric entity token denote. -/
def NumericEntity.number : NumericEntity → Nat
  | .dec digits => denoted_number 10 digits
  | .hex _ digits => denoted_number 16 digits

/-- The length limits of the numeric entities: at most 7 decimal digits, at
most 6 hexadecimal digits. -/
def NumericEntity.short : NumericEntity → Bool
  | .dec digits => digits.length ≤ 7
  | .hex _ digits => digits.length ≤ 6

/-- The bytes `render_url_escaped` writes for one byte of its input: the byte
itself when its URL flag is clear; when the flag is set, `&amp;` for `&` and
otherwise `%` with the two digits taken from `hex_chars`. -/
def url_byte_output (r : MD_HTML) (ch : MD_CHAR) : List MD_CHAR :=
  if NEED_URL_ESC r ch then
    if ch = 0x26 then cstr "&amp;"
    else
      [0x25,
       hex_chars.getD ((to_unsigned (char_val ch) >>> 4) &&& 0xf) 0,
       hex_chars.getD ((to_unsigned (char_val ch) >>> 0) &&& 0xf) 0]
  else [ch]

/-- The uppercase hexadecimal digit character of a value below 16. -/
def upper_hex_digit (n : Nat) : MD_CHAR :=
  if n < 10 then to_byte (0x30 + n) else to_byte (0x41 + (n - 10))

/-! ## Reference descriptions of attributes and events -/

/-- The attribute invariant of the data model: the size is the length of the
text, there is one offset more than there are sub-spans, the first sub-span
starts at 0, the offsets do not decrease (the end of a sub-span is the start of
the next) and the last end is the size. -/
def MD_ATTRIBUTE.well_formed (attr : MD_ATTRIBUTE) : Bool :=
  decide ((attr.text.getD []).length = attr.size ∧
    attr.substr_offsets.length = attr.substr_types.length + 1 ∧
    attr.substr_offsets.getD 0 0 = 0 ∧
    (∀ i, i < attr.substr_types.length →
      attr.substr_offsets.getD i 0 ≤ attr.substr_offsets.getD (i + 1) 0) ∧
    attr.substr_offsets.getD attr.substr_types.length 0 = attr.size)

/-- The sub-span number `i` of an attribute: its type and its bytes. -/
def MD_ATTRIBUTE.substr (attr : MD_ATTRIBUTE) (i : Nat) : MD_TEXTTYPE × List MD_CHAR :=
  (attr.substr_types.getD i .MD_TEXT_NORMAL,
   slice (attr.text.getD []) (attr.substr_offsets.getD i 0) (attr.substr_offsets.getD (i + 1) 0))

/-- The sub-spans of an attribute, in order. -/
def MD_ATTRIBUTE.substrs (attr : MD_ATTRIBUTE) : List (MD_TEXTTYPE × List MD_CHAR) :=
  (List.range attr.substr_types.length).map attr.substr

/-- The sub-spans of an attribute that start before the end of the text, in
order: all of them, except empty sub-spans at the very end. -/
def MD_ATTRIBUTE.processed_substrs (attr : MD_ATTRIBUTE) :
    List (MD_TEXTTYPE × List MD_CHAR) :=
  ((List.range attr.substr_types.length).filter
    (fun i => attr.substr_offsets.getD i 0 < attr.size)).map attr.substr

/-- The rendering of one sub-span, in the words of the specification: the
three bytes of U+FFFD written verbatim for a null character, the entity
decoder with the given strategy for an entity, the given strategy for any
other sub-span. -/
def render_substr (entity_lookup : EntityLookup) (fn_append : AppendFn) (r : MD_HTML)
    (s : MD_TEXTTYPE × List MD_CHAR) : Option (Int × MD_HTML) :=
  match s.1 with
  | .MD_TEXT_NULLCHAR => render_verbatim r [0xef, 0xbf, 0xbd]
  | .MD_TEXT_ENTITY => render_entity entity_lookup r s.2 fn_append
  | _ => fn_append r s.2

/-- The rendering of a list of sub-spans, one after the other, which stops at
the first nonzero code and returns it. -/
def render_substrs (entity_lookup : EntityLookup) (fn_append : AppendFn) :
    List (MD_TEXTTYPE × List MD_CHAR) → MD_HTML → Option (Int × MD_HTML)
  | [], r => some (0, r)
  | s :: rest, r =>
    match render_substr entity_lookup fn_append r s with
    | none => none
    | some (ret, r1) =>
      if ret ≠ 0 then some (ret, r1) else render_substrs entity_lookup fn_append rest r1

/-- The bytes `render_html_escaped` writes for a text: `html_byte_output` of
each byte, one after the other. -/
def html_escaped (r : MD_HTML) (data : List MD_CHAR) : List MD_CHAR :=
  data.flatMap (html_byte_output r)

/-- The bytes `render_url_escaped` writes for a text: `url_byte_output` of
each byte, one after the other. -/
def url_escaped (r : MD_HTML) (data : List MD_CHAR) : List MD_CHAR :=
  data.flatMap (url_byte_output r)

/-- The bytes that `render_utf8_codepoint` passes to the append function. -/
def codepoint_bytes (codepoint : Nat) : List MD_CHAR :=
  if 0 < codepoint ∧ codepoint ≤ 0x10ffff then utf8_bytes codepoint else utf8_replacement_char

/-- The bytes that reach the sink for an entity sub-span, when the append
strategy writes `esc data` for the bytes `data` it is given. -/
def entity_output (entity_lookup : EntityLookup) (flags : Nat)
    (esc : List MD_CHAR → List MD_CHAR) (text : List MD_CHAR) : List MD_CHAR :=
  if flags &&& MD_HTML_FLAG_VERBATIM_ENTITIES ≠ 0 then text
  else if text.length > 3 ∧ text.getD 1 0 = 0x23 then
    esc (codepoint_bytes
      (if text.getD 2 0 = 0x78 ∨ text.getD 2 0 = 0x58 then entity_hex_codepoint text
       else entity_dec_codepoint text))
  else
    match entity_lookup text with
    | some ent =>
      esc (codepoint_bytes ent.1) ++ (if ent.2 ≠ 0 then esc (codepoint_bytes ent.2) else [])
    | none => esc text

/-- The bytes that reach the sink for one sub-span of an attribute, when the
append strategy writes `esc data` for the bytes `data` it is given. -/
def substr_output (entity_lookup : EntityLookup) (flags : Nat)
    (esc : List MD_CHAR → List MD_CHAR) (s : MD_TEXTTYPE × List MD_CHAR) : List MD_CHAR :=
  match s.1 with
  | .MD_TEXT_NULLCHAR => [0xef, 0xbf, 0xbd]
  | .MD_TEXT_ENTITY => entity_output entity_lookup flags esc s.2
  | _ => esc s.2

/-- The bytes that reach the sink for an attribute, when the append strategy
writes `esc data` for the bytes `data` it is given. -/
def attribute_output (entity_lookup : EntityLookup) (flags : Nat)
    (esc : List MD_CHAR → List MD_CHAR) (attr : MD_ATTRIBUTE) : List MD_CHAR :=
  attr.processed_substrs.flatMap (substr_output entity_lookup flags esc)

/-- From `r` to `r1` the bytes `bytes` were handed to the sink, in some
number of chunks, and nothing else of the renderer changed. -/
def Wrote (r r1 : MD_HTML) (bytes : List MD_CHAR) : Prop :=
  r1.flags = r.flags ∧ r1.escape_map = r.escape_map ∧ r1.hook_calls = r.hook_calls ∧
    r1.image_nesting_level = r.image_nesting_level ∧
    r1.output.flatten = r.output.flatten ++ bytes

/-- For every renderer with the flags and the escape map of `r0`, the append
strategy `fn_append` returns 0 and writes `esc data` for the bytes `data`. -/
def Emits (fn_append : AppendFn) (r0 : MD_HTML) (esc : List MD_CHAR → List MD_CHAR) : Prop :=
  ∀ (r : MD_HTML) (data : List MD_CHAR), r.flags = r0.flags → r.escape_map = r0.escape_map →
    ∃ r1, fn_append r data = some (0, r1) ∧ Wrote r r1 (esc data)

/-- For every renderer with the flags and the escape map of `r0` and every
buffer `data` that satisfies `dom`, the append strategy `fn_append` returns 0
and writes `esc data`. -/
def EmitsOn (dom : List MD_CHAR → Prop) (fn_append : AppendFn) (r0 : MD_HTML)
    (esc : List MD_CHAR → List MD_CHAR) : Prop :=
  ∀ (r : MD_HTML) (data : List MD_CHAR), dom data → r.flags = r0.flags →
    r.escape_map = r0.escape_map →
    ∃ r1, fn_append r data = some (0, r1) ∧ Wrote r r1 (esc data)

/-- The buffer has fewer than `2 ^ 32 - 3` bytes, so that the sum `off + 3` of
`render_html_escaped` does not wrap on it. -/
def short_buffer (data : List MD_CHAR) : Bool := decide (data.length + 3 < 2 ^ 32)

/-- An attribute that is absent or has fewer than `2 ^ 32 - 3` bytes. -/
def MD_ATTRIBUTE.html_fits (attr : MD_ATTRIBUTE) : Bool :=
  attr.text.isNone || decide (attr.size + 3 < 2 ^ 32)

/-- The attribute that a block enter renders with `render_html_escaped` (the
language of a code block) has fewer than `2 ^ 32 - 3` bytes. -/
def MD_BLOCK.html_fits : MD_BLOCK → Bool
  | .MD_BLOCK_CODE det => det.lang.html_fits
  | _ => true

/-- The attribute of a span that is rendered with `render_html_escaped` (the
title of a link or of an image, the target of a wiki link) has fewer than
`2 ^ 32 - 3` bytes. -/
def MD_SPAN.html_fits : MD_SPAN → Bool
  | .MD_SPAN_A det => det.title.html_fits
  | .MD_SPAN_A_CODELINK det => det.title.html_fits
  | .MD_SPAN_A_SELF det => det.title.html_fits
  | .MD_SPAN_IMG det => det.title.html_fits
  | .MD_SPAN_WIKILINK det => det.target.html_fits
  | _ => true

/-- What the handler of the event passes to `render_html_escaped` has fewer
than `2 ^ 32 - 3` bytes: the language of a code block at its enter, the title
of a link or the target of a wiki link at its enter, the title of an image at
its leave, and the bytes of a text unit other than a null character, a break
or raw HTML. -/
def MD_EVENT.html_fits : MD_EVENT → Bool
  | .enter_block block => block.html_fits
  | .leave_block _ => true
  | .enter_span (.MD_SPAN_IMG _) => true
  | .enter_span span => span.html_fits
  | .leave_span (.MD_SPAN_IMG det) => det.title.html_fits
  | .leave_span _ => true
  | .text .MD_TEXT_NULLCHAR _ => true
  | .text .MD_TEXT_BR _ => true
  | .text .MD_TEXT_SOFTBR _ => true
  | .text .MD_TEXT_HTML _ => true
  | .text _ bytes => short_buffer bytes

/-- An attribute that is absent (its text is `NULL`) or well formed. -/
def MD_ATTRIBUTE.optional_well_formed (attr : MD_ATTRIBUTE) : Bool :=
  attr.text.isNone || attr.well_formed

/-- A block event is well formed when its attributes are, and its heading
level is from 1 to 6. -/
def MD_BLOCK.well_formed : MD_BLOCK → Bool
  | .MD_BLOCK_H det => decide (1 ≤ det.level ∧ det.level ≤ 6)
  | .MD_BLOCK_CODE det => det.lang.optional_well_formed
  | _ => true

/-- A span event is well formed when its attributes are. -/
def MD_SPAN.well_formed : MD_SPAN → Bool
  | .MD_SPAN_A det => det.href.well_formed && det.title.optional_well_formed
  | .MD_SPAN_A_CODELINK det => det.href.well_formed && det.title.optional_well_formed
  | .MD_SPAN_A_SELF det => det.href.well_formed && det.title.optional_well_formed
  | .MD_SPAN_IMG det => det.src.well_formed && det.title.optional_well_formed
  | .MD_SPAN_WIKILINK det => det.target.well_formed
  | _ => true

/-- An event is well formed when its detail is. -/
def MD_EVENT.well_formed : MD_EVENT → Bool
  | .enter_block block => block.well_formed
  | .leave_block block => block.well_formed
  | .enter_span span => span.well_formed
  | .leave_span span => span.well_formed
  | .text _ _ => true

/-- The result `x` of a renderer function is a return with code 0, to a
renderer that has the flags and the escape map of `r0`. -/
def Good (r0 : MD_HTML) (x : Option (Int × MD_HTML)) : Prop :=
  ∃ r1, x = some (0, r1) ∧ r1.flags = r0.flags ∧ r1.escape_map = r0.escape_map

/-- An image span event. -/
def MD_SPAN.is_image : MD_SPAN → Bool
  | .MD_SPAN_IMG _ => true
  | _ => false

/-- An event that is the enter or the leave of a span other than an image, or
a unit of normal text. -/
def MD_EVENT.is_plain_inline : MD_EVENT → Bool
  | .enter_span span => !span.is_image
  | .leave_span span => !span.is_image
  | .text type _ => type == .MD_TEXT_NORMAL
  | _ => false

/-- The bytes of a text event, and no bytes for any other event. -/
def MD_EVENT.text_bytes : MD_EVENT → List MD_CHAR
  | .text _ bytes => bytes
  | _ => []

/-- The bytes that `render_optional_attribute` writes without a closing text:
nothing for an absent attribute, else the opening text and the HTML-escaped
attribute. -/
def optional_attribute_output (entity_lookup : EntityLookup) (r0 : MD_HTML)
    (attr : MD_ATTRIBUTE) (opening : String) : List MD_CHAR :=
  if attr.text ≠ none then
    cstr opening ++ attribute_output entity_lookup r0.flags (html_escaped r0) attr
  else []

/-- Among the hook calls `new` made by a run that returned the code `ret` and
left `written` chunks in the sink, a call that returned a nonzero code is the
last call, its code is `ret`, and the sink received nothing after it. -/
def FailLast (new : List HookCall) (ret : Int) (written : Nat) : Prop :=
  ∀ (i : Nat) (call : HookCall), new[i]? = some call → call.ret ≠ 0 →
    i + 1 = new.length ∧ ret = call.ret ∧ call.written = written

/-- The result `x` of a renderer function started from `r` is a return, and
the hook calls added to the trace satisfy `FailLast`. -/
def Traced (r : MD_HTML) (x : Option (Int × MD_HTML)) : Prop :=
  ∃ ret r1 new, x = some (ret, r1) ∧ r1.hook_calls = r.hook_calls ++ new ∧
    FailLast new ret r1.output.length

/-- The result `x` of a renderer function started from `r` is a return, to a
renderer with the image nesting level of `r`. -/
def KeepsLevel (r : MD_HTML) (x : Option (Int × MD_HTML)) : Prop :=
  ∃ ret r1, x = some (ret, r1) ∧ r1.image_nesting_level = r.image_nesting_level

/-- If the renderer function started from `r` has returned, it has returned to
a renderer with the image nesting level of `r`. -/
def LevelKept (r : MD_HTML) (x : Option (Int × MD_HTML)) : Prop :=
  ∀ (ret : Int) (r1 : MD_HTML), x = some (ret, r1) →
    r1.image_nesting_level = r.image_nesting_level

/-- The image nesting level after an event handled at the level `level`, in
the words of the specification: an image enter at level 0 increments it, an
image leave at level 1 decrements it, and nothing else changes it. -/
def MD_EVENT.level_after (event : MD_EVENT) (level : Int) : Int :=
  match event with
  | .enter_span (.MD_SPAN_IMG _) => if level = 0 then level + 1 else level
  | .leave_span (.MD_SPAN_IMG _) => if level = 1 then level - 1 else level
  | _ => level

/-! ## Basic facts -/

theorem emit_nil (r : MD_HTML) : emit r [] = r := by
  cases r; simp [emit]

theorem emit_emit (r : MD_HTML) (a b : List (List MD_CHAR)) :
    emit (emit r a) b = emit r (a ++ b) := by
  simp [emit, List.append_assoc]

theorem render_verbatim_eq (r : MD_HTML) (text : List MD_CHAR) :
    render_verbatim r text = some (0, emit r [text]) := rfl

theorem MD_HTML_TRY_id (expr : Option (Int × MD_HTML)) :
    MD_HTML_TRY expr (fun r => some (0, r)) = expr := by
  unfold MD_HTML_TRY
  cases expr with
  | none => rfl
  | some p =>
    obtain ⟨ret, r⟩ := p
    by_cases h : ret = 0 <;> simp [h]

theorem NEED_HTML_ESC_emit (r : MD_HTML) (c : List (List MD_CHAR)) (ch : MD_CHAR) :
    NEED_HTML_ESC (emit r c) ch = NEED_HTML_ESC r ch := rfl

theorem html_byte_output_emit (r : MD_HTML) (c : List (List MD_CHAR)) :
    html_byte_output (emit r c) = html_byte_output r := rfl

theorem html_unflagged_at_emit (r : MD_HTML) (c : List (List MD_CHAR)) (data : List MD_CHAR)
    (i : Nat) : html_unflagged_at (emit r c) data i = html_unflagged_at r data i := rfl

theorem html_scan4_emit (r : MD_HTML) (c : List (List MD_CHAR)) (data : List MD_CHAR)
    (fuel off : Nat) : html_scan4 (emit r c) data fuel off = html_scan4 r data fuel off := by
  induction fuel generalizing off with
  | zero => rfl
  | succ n ih => simp only [html_scan4, html_unflagged_at_emit, ih]

theorem html_scan1_emit (r : MD_HTML) (c : List (List MD_CHAR)) (data : List MD_CHAR)
    (fuel off : Nat) : html_scan1 (emit r c) data fuel off = html_scan1 r data fuel off := by
  induction fuel generalizing off with
  | zero => rfl
  | succ n ih => simp only [html_scan1, NEED_HTML_ESC_emit, ih]

/-! ## The scanning loops of `render_html_escaped` -/

theorem html_unflagged_at_lt (r : MD_HTML) (data : List MD_CHAR) (i : Nat)
    (hi : i < data.length) (h32 : i < 2 ^ 32) :
    html_unflagged_at r data i = some (!NEED_HTML_ESC r (data.getD i 0)) := by
  unfold html_unflagged_at
  rw [Nat.mod_eq_of_lt h32, List.getElem?_eq_getElem hi, List.getD_eq_getElem _ _ hi]

/-- One step of `html_scan4` at an offset where `off + 3` does not wrap. -/
theorem html_scan4_step (r : MD_HTML) (data : List MD_CHAR) (fuel off : Nat)
    (h32 : off + 3 < 2 ^ 32) :
    html_scan4 r data (fuel + 1) off =
      if off + 3 < data.length ∧ NEED_HTML_ESC r (data.getD (off + 0) 0) = false
          ∧ NEED_HTML_ESC r (data.getD (off + 1) 0) = false
          ∧ NEED_HTML_ESC r (data.getD (off + 2) 0) = false
          ∧ NEED_HTML_ESC r (data.getD (off + 3) 0) = false then
        html_scan4 r data fuel ((off + 4) % 2 ^ 32)
      else some off := by
  rw [html_scan4, Nat.mod_eq_of_lt h32]
  by_cases hlt : off + 3 < data.length
  · rw [if_pos hlt, html_unflagged_at_lt r data (off + 0) (by omega) (by omega),
      html_unflagged_at_lt r data (off + 1) (by omega) (by omega),
      html_unflagged_at_lt r data (off + 2) (by omega) (by omega),
      html_unflagged_at_lt r data (off + 3) (by omega) (by omega)]
    cases NEED_HTML_ESC r (data.getD (off + 0) 0) <;>
      cases NEED_HTML_ESC r (data.getD (off + 1) 0) <;>
      cases NEED_HTML_ESC r (data.getD (off + 2) 0) <;>
      cases NEED_HTML_ESC r (data.getD (off + 3) 0) <;>
      simp [hlt]
  · simp [hlt]

theorem html_scan4_spec (r : MD_HTML) (data : List MD_CHAR)
    (hfit : data.length + 3 < 2 ^ 32) :
    ∀ (fuel off : Nat), off ≤ data.length → data.length < off + fuel →
      ∃ off4, html_scan4 r data fuel off = some off4 ∧ off ≤ off4 ∧ off4 ≤ data.length ∧
        ∀ i, off ≤ i → i < off4 → NEED_HTML_ESC r (data.getD i 0) = false := by
  intro fuel
  induction fuel with
  | zero => intro off h1 h2; omega
  | succ n ih =>
    intro off h1 h2
    rw [html_scan4_step r data n off (by omega)]
    split
    · rename_i hc
      obtain ⟨hlt, h0, h1', h2', h3'⟩ := hc
      rw [Nat.mod_eq_of_lt (by omega)]
      obtain ⟨off4, he, hle, hle2, hall⟩ := ih (off + 4) (by omega) (by omega)
      refine ⟨off4, he, by omega, hle2, ?_⟩
      intro i hi1 hi2
      by_cases hi : off + 4 ≤ i
      · exact hall i hi hi2
      · have : i = off + 0 ∨ i = off + 1 ∨ i = off + 2 ∨ i = off + 3 := by omega
        rcases this with h | h | h | h <;> rw [h] <;> assumption
    · exact ⟨off, rfl, le_refl _, h1, fun i hi1 hi2 => by omega⟩

theorem html_scan1_spec (r : MD_HTML) (data : List MD_CHAR) :
    ∀ (fuel off : Nat), off ≤ data.length → data.length < off + fuel →
      ∃ off1, html_scan1 r data fuel off = some off1 ∧ off ≤ off1 ∧ off1 ≤ data.length ∧
        (∀ i, off ≤ i → i < off1 → NEED_HTML_ESC r (data.getD i 0) = false) ∧
        (off1 < data.length → NEED_HTML_ESC r (data.getD off1 0) = true) := by
  intro fuel
  induction fuel with
  | zero => intro off h1 h2; omega
  | succ n ih =>
    intro off h1 h2
    unfold html_scan1
    split
    · rename_i hc
      simp only [Bool.and_eq_true, decide_eq_true_eq, Bool.not_eq_true'] at hc
      obtain ⟨hlt, h0⟩ := hc
      obtain ⟨off1, he, hle, hle2, hall, hex⟩ := ih (off + 1) (by omega) (by omega)
      refine ⟨off1, he, by omega, hle2, ?_, hex⟩
      intro i hi1 hi2
      by_cases hi : off + 1 ≤ i
      · exact hall i hi hi2
      · have : i = off := by omega
        rw [this]; exact h0
    · rename_i hc
      simp only [Bool.and_eq_true, decide_eq_true_eq, Bool.not_eq_true', not_and,
        Bool.not_eq_false] at hc
      exact ⟨off, rfl, le_refl _, h1, fun i hi1 hi2 => by omega, hc⟩

/-! ## Slices of the input -/

theorem drop_eq_slice_append (data : List MD_CHAR) (beg off : Nat) (h : beg ≤ off) :
    data.drop beg = slice data beg off ++ data.drop off := by
  have h1 := (List.take_append_drop (off - beg) (data.drop beg)).symm
  rw [List.drop_drop] at h1
  have h2 : beg + (off - beg) = off := by omega
  rw [h2] at h1
  exact h1

theorem mem_slice (data : List MD_CHAR) (beg off : Nat) (x : MD_CHAR)
    (hx : x ∈ slice data beg off) :
    ∃ i, beg ≤ i ∧ i < off ∧ x = data.getD i 0 := by
  unfold slice at hx
  obtain ⟨n, hn, rfl⟩ := List.mem_iff_getElem.mp hx
  have hlen : n < off - beg ∧ n < data.length - beg := by
    simpa [List.length_take, List.length_drop] using hn
  refine ⟨beg + n, by omega, by omega, ?_⟩
  rw [List.getElem_take, List.getElem_drop, List.getD_eq_getElem]

theorem drop_eq_getD_cons (data : List MD_CHAR) (off : Nat) (h : off < data.length) :
    data.drop off = data.getD off 0 :: data.drop (off + 1) := by
  rw [List.getD_eq_getElem _ _ h]
  exact List.drop_eq_getElem_cons h

theorem html_flatMap_unflagged (r : MD_HTML) (l : List MD_CHAR)
    (h : ∀ x ∈ l, NEED_HTML_ESC r x = false) : l.flatMap (html_byte_output r) = l := by
  induction l with
  | nil => rfl
  | cons a t ih =>
    have ha : NEED_HTML_ESC r a = false := h a (List.mem_cons_self _ _)
    have ht := ih (fun x hx => h x (List.mem_cons_of_mem _ hx))
    simp [List.flatMap_cons, html_byte_output, ha, ht]

theorem html_escape_switch_spec (r : MD_HTML) (ch : MD_CHAR)
    (h : NEED_HTML_ESC r ch = true) :
    ∃ chunks, html_escape_switch r ch = some (0, emit r chunks) ∧
      chunks.flatten = html_byte_output r ch := by
  unfold html_escape_switch html_byte_output RENDER_VERBATIM
  simp only [h, if_true, render_verbatim_eq]
  split
  · exact ⟨_, rfl, by simp⟩
  split
  · exact ⟨_, rfl, by simp⟩
  split
  · exact ⟨_, rfl, by simp⟩
  split
  · exact ⟨_, rfl, by simp⟩
  · exact ⟨[], by rw [emit_nil], by simp⟩

/-! ## The main loop of `render_html_escaped` -/

theorem render_html_escaped_loop_spec (data : List MD_CHAR)
    (hfit : data.length + 3 < 2 ^ 32) :
    ∀ (fuel : Nat) (r : MD_HTML) (off : Nat), off ≤ data.length → data.length < off + fuel →
      ∃ chunks, render_html_escaped_loop data fuel r off off = some (0, emit r chunks) ∧
        chunks.flatten = (data.drop off).flatMap (html_byte_output r) := by
  intro fuel
  induction fuel with
  | zero => intro r off h1 h2; omega
  | succ n ih =>
    intro r off h1 h2
    obtain ⟨off4, he4, hle4, hlen4, hall4⟩ :=
      html_scan4_spec r data hfit (data.length + 1) off h1 (by omega)
    obtain ⟨off1, he1, hle1, hlen1, hall1, hex1⟩ :=
      html_scan1_spec r data (data.length + 1) off4 hlen4 (by omega)
    have hrun : (slice data off off1).flatMap (html_byte_output r) = slice data off off1 := by
      apply html_flatMap_unflagged
      intro x hx
      obtain ⟨i, hi1, hi2, rfl⟩ := mem_slice data off off1 x hx
      by_cases hi : i < off4
      · exact hall4 i hi1 hi
      · exact hall1 i (by omega) hi2
    have hsplit := drop_eq_slice_append data off off1 (by omega)
    unfold render_html_escaped_loop
    simp only [he4, he1]
    -- the chunk for the run of unflagged bytes
    have hfirst : ∃ c1, (if off1 > off then render_verbatim r (slice data off off1)
          else some (0, r)) = some (0, emit r c1) ∧ c1.flatten = slice data off off1 := by
      by_cases hgt : off1 > off
      · exact ⟨[slice data off off1], by simp [hgt, render_verbatim_eq], by simp⟩
      · refine ⟨[], by simp [hgt, emit_nil], ?_⟩
        have : off1 - off = 0 := by omega
        simp [slice, this]
    obtain ⟨c1, hc1, hc1f⟩ := hfirst
    rw [hc1]
    simp only [MD_HTML_TRY, ne_eq, not_true_eq_false, if_false]
    by_cases hlt : off1 < data.length
    · simp only [hlt, if_true]
      have hflag := hex1 hlt
      obtain ⟨c2, hc2, hc2f⟩ := html_escape_switch_spec (emit r c1) (data.getD off1 0) hflag
      obtain ⟨c3, hc3, hc3f⟩ := ih (emit (emit r c1) c2) (off1 + 1) (by omega) (by omega)
      refine ⟨c1 ++ c2 ++ c3, ?_, ?_⟩
      · rw [hc2]
        simp only [IGNORE_RET]
        rw [hc3, emit_emit, emit_emit, List.append_assoc]
      · rw [hsplit, drop_eq_getD_cons data off1 hlt]
        simp only [List.flatten_append, List.flatMap_append, List.flatMap_cons, hrun, hc1f,
          hc2f, hc3f, html_byte_output_emit, List.append_assoc]
    · simp only [hlt, if_false]
      refine ⟨c1, rfl, ?_⟩
      have hend : off1 = data.length := by omega
      rw [hsplit, hc1f, hend]
      simp only [List.drop_length, List.append_nil]
      rw [← hend]; exact hrun.symm

/-- What `render_html_escaped` does on every buffer of fewer than
`2 ^ 32 - 3` bytes: it returns 0, and the chunks it hands to the sink spell,
one after the other, `html_byte_output` of each input byte. -/
theorem render_html_escaped_spec (r : MD_HTML) (data : List MD_CHAR)
    (hfit : data.length + 3 < 2 ^ 32) :
    ∃ chunks, render_html_escaped r data = some (0, emit r chunks) ∧
      chunks.flatten = data.flatMap (html_byte_output r) := by
  have h := render_html_escaped_loop_spec data hfit (data.length + 1) r 0 (Nat.zero_le _)
    (by omega)
  simpa [render_html_escaped] using h

theorem NEED_URL_ESC_emit (r : MD_HTML) (c : List (List MD_CHAR)) (ch : MD_CHAR) :
    NEED_URL_ESC (emit r c) ch = NEED_URL_ESC r ch := rfl

theorem url_byte_output_emit (r : MD_HTML) (c : List (List MD_CHAR)) :
    url_byte_output (emit r c) = url_byte_output r := rfl

theorem url_scan1_spec (r : MD_HTML) (data : List MD_CHAR) :
    ∀ (fuel off : Nat), off ≤ data.length → data.length < off + fuel →
      ∃ off1, url_scan1 r data fuel off = some off1 ∧ off ≤ off1 ∧ off1 ≤ data.length ∧
        (∀ i, off ≤ i → i < off1 → NEED_URL_ESC r (data.getD i 0) = false) ∧
        (off1 < data.length → NEED_URL_ESC r (data.getD off1 0) = true) := by
  intro fuel
  induction fuel with
  | zero => intro off h1 h2; omega
  | succ n ih =>
    intro off h1 h2
    unfold url_scan1
    split
    · rename_i hc
      simp only [Bool.and_eq_true, decide_eq_true_eq, Bool.not_eq_true'] at hc
      obtain ⟨hlt, h0⟩ := hc
      obtain ⟨off1, he, hle, hle2, hall, hex⟩ := ih (off + 1) (by omega) (by omega)
      refine ⟨off1, he, by omega, hle2, ?_, hex⟩
      intro i hi1 hi2
      by_cases hi : off + 1 ≤ i
      · exact hall i hi hi2
      · have : i = off := by omega
        rw [this]; exact h0
    · rename_i hc
      simp only [Bool.and_eq_true, decide_eq_true_eq, Bool.not_eq_true', not_and,
        Bool.not_eq_false] at hc
      exact ⟨off, rfl, le_refl _, h1, fun i hi1 hi2 => by omega, hc⟩

theorem url_flatMap_unflagged (r : MD_HTML) (l : List MD_CHAR)
    (h : ∀ x ∈ l, NEED_URL_ESC r x = false) : l.flatMap (url_byte_output r) = l := by
  induction l with
  | nil => rfl
  | cons a t ih =>
    have ha : NEED_URL_ESC r a = false := h a (List.mem_cons_self _ _)
    have ht := ih (fun x hx => h x (List.mem_cons_of_mem _ hx))
    simp [List.flatMap_cons, url_byte_output, ha, ht]

theorem url_escape_switch_spec (r : MD_HTML) (ch : MD_CHAR)
    (h : NEED_URL_ESC r ch = true) :
    ∃ chunks, (∀ rest, url_escape_switch r ch rest = rest (emit r chunks)) ∧
      chunks.flatten = url_byte_output r ch := by
  unfold url_escape_switch url_byte_output RENDER_VERBATIM
  simp only [h, if_true, render_verbatim_eq]
  split
  · exact ⟨_, fun rest => rfl, by simp⟩
  · exact ⟨[[0x25,
        hex_chars.getD ((to_unsigned (char_val ch) >>> 4) &&& 0xf) 0,
        hex_chars.getD ((to_unsigned (char_val ch) >>> 0) &&& 0xf) 0]],
      fun rest => by simp [MD_HTML_TRY], by simp⟩

theorem render_url_escaped_loop_spec (data : List MD_CHAR) :
    ∀ (fuel : Nat) (r : MD_HTML) (off : Nat), off ≤ data.length → data.length < off + fuel →
      ∃ chunks, render_url_escaped_loop data fuel r off off = some (0, emit r chunks) ∧
        chunks.flatten = (data.drop off).flatMap (url_byte_output r) := by
  intro fuel
  induction fuel with
  | zero => intro r off h1 h2; omega
  | succ n ih =>
    intro r off h1 h2
    obtain ⟨off1, he1, hle1, hlen1, hall1, hex1⟩ :=
      url_scan1_spec r data (data.length + 1) off h1 (by omega)
    have hrun : (slice data off off1).flatMap (url_byte_output r) = slice data off off1 := by
      apply url_flatMap_unflagged
      intro x hx
      obtain ⟨i, hi1, hi2, rfl⟩ := mem_slice data off off1 x hx
      exact hall1 i hi1 hi2
    have hsplit := drop_eq_slice_append data off off1 hle1
    unfold render_url_escaped_loop
    simp only [he1]
    have hfirst : ∃ c1, (if off1 > off then render_verbatim r (slice data off off1)
          else some (0, r)) = some (0, emit r c1) ∧ c1.flatten = slice data off off1 := by
      by_cases hgt : off1 > off
      · exact ⟨[slice data off off1], by simp [hgt, render_verbatim_eq], by simp⟩
      · refine ⟨[], by simp [hgt, emit_nil], ?_⟩
        have : off1 - off = 0 := by omega
        simp [slice, this]
    obtain ⟨c1, hc1, hc1f⟩ := hfirst
    rw [hc1]
    simp only [MD_HTML_TRY, ne_eq, not_true_eq_false, if_false]
    by_cases hlt : off1 < data.length
    · simp only [hlt, if_true]
      have hflag := hex1 hlt
      obtain ⟨c2, hc2, hc2f⟩ := url_escape_switch_spec (emit r c1) (data.getD off1 0) hflag
      obtain ⟨c3, hc3, hc3f⟩ := ih (emit (emit r c1) c2) (off1 + 1) (by omega) (by omega)
      refine ⟨c1 ++ c2 ++ c3, ?_, ?_⟩
      · rw [hc2, hc3, emit_emit, emit_emit, List.append_assoc]
      · rw [hsplit, drop_eq_getD_cons data off1 hlt]
        simp only [List.flatten_append, List.flatMap_append, List.flatMap_cons, hrun, hc1f,
          hc2f, hc3f, url_byte_output_emit, List.append_assoc]
    · simp only [hlt, if_false]
      refine ⟨c1, rfl, ?_⟩
      have hend : off1 = data.length := by omega
      rw [hsplit, hc1f, hend]
      simp only [List.drop_length, List.append_nil]
      rw [← hend]; exact hrun.symm

/-- What `render_url_escaped` does on every input: it returns 0, and the
chunks it hands to the sink spell, one after the other, `url_byte_output` of
each input byte. -/
theorem render_url_escaped_spec (r : MD_HTML) (data : List MD_CHAR) :
    ∃ chunks, render_url_escaped r data = some (0, emit r chunks) ∧
      chunks.flatten = data.flatMap (url_byte_output r) := by
  have h := render_url_escaped_loop_spec data (data.length + 1) r 0 (Nat.zero_le _) (by omega)
  simpa [render_url_escaped] using h

/-! ## The escape map -/

set_option maxRecDepth 1000000 in
/-- The 256 entries of the escape map built by `md_html`. -/
theorem md_html_escape_map_eq : md_html_escape_map =
    [1, 2, 2, 2, 2, 2, 2, 2, 2, 2, 2, 2, 2, 2, 2, 2, 2, 2, 2, 2, 2, 2, 2, 2, 2, 2, 2, 2, 2, 2, 2, 2,
     2, 0, 3, 0, 0, 0, 3, 2, 0, 0, 0, 0, 0, 0, 0, 0, 0, 0, 0, 0, 0, 0, 0, 0, 0, 0, 0, 0, 3, 0, 3, 0,
     0, 0, 0, 0, 0, 0, 0, 0, 0, 0, 0, 0, 0, 0, 0, 0, 0, 0, 0, 0, 0, 0, 0, 0, 0, 0, 0, 2, 2, 2, 2, 0,
     2, 0, 0, 0, 0, 0, 0, 0, 0, 0, 0, 0, 0, 0, 0, 0, 0, 0, 0, 0, 0, 0, 0, 0, 0, 0, 0, 2, 2, 2, 0, 2,
     2, 2, 2, 2, 2, 2, 2, 2, 2, 2, 2, 2, 2, 2, 2, 2, 2, 2, 2, 2, 2, 2, 2, 2, 2, 2, 2, 2, 2, 2, 2, 2,
     2, 2, 2, 2, 2, 2, 2, 2, 2, 2, 2, 2, 2, 2, 2, 2, 2, 2, 2, 2, 2, 2, 2, 2, 2, 2, 2, 2, 2, 2, 2, 2,
     2, 2, 2, 2, 2, 2, 2, 2, 2, 2, 2, 2, 2, 2, 2, 2, 2, 2, 2, 2, 2, 2, 2, 2, 2, 2, 2, 2, 2, 2, 2, 2,
     2, 2, 2, 2, 2, 2, 2, 2, 2, 2, 2, 2, 2, 2, 2, 2, 2, 2, 2, 2, 2, 2, 2, 2, 2, 2, 2, 2, 2, 2, 2, 2] := by
  decide!

set_option maxRecDepth 1000000 in
/-- The HTML flag of the escape map is set for the four bytes `&`, `<`, `>`,
`"`, and for the byte 0. -/
theorem escape_map_html_flag :
    ∀ b : MD_CHAR, (md_html_escape_map.getD b.val 0 &&& NEED_HTML_ESC_FLAG ≠ 0) ↔
      (b = 0 ∨ b ∈ cstr "&<>\"") := by
  rw [md_html_escape_map_eq]
  decide!

set_option maxRecDepth 1000000 in
/-- The URL flag of the escape map is set for the bytes that are neither
alphanumeric nor in the safe set, except for the byte 0. -/
theorem escape_map_url_flag :
    ∀ b : MD_CHAR, (md_html_escape_map.getD b.val 0 &&& NEED_URL_ESC_FLAG ≠ 0) ↔
      (b ≠ 0 ∧ ISALNUM b.val = false ∧ b ∉ cstr "~-_.+!*(),%#@?=;:/,+$") := by
  rw [md_html_escape_map_eq]
  decide!

/-! ## The UTF-8 encoder -/

theorem and_0x3f (x : Nat) : x &&& 0x3f = x % 64 := Nat.and_pow_two_sub_one_eq_mod x 6
theorem and_0x1f (x : Nat) : x &&& 0x1f = x % 32 := Nat.and_pow_two_sub_one_eq_mod x 5
theorem and_0xf (x : Nat) : x &&& 0xf = x % 16 := Nat.and_pow_two_sub_one_eq_mod x 4
theorem and_0x7 (x : Nat) : x &&& 0x7 = x % 8 := Nat.and_pow_two_sub_one_eq_mod x 3

theorem lor_0xc0 : ∀ y, y < 32 → 0xc0 ||| y = 0xc0 + y := by decide
theorem lor_0xe0 : ∀ y, y < 16 → 0xe0 ||| y = 0xe0 + y := by decide
theorem lor_0xf0 : ∀ y, y < 8 → 0xf0 ||| y = 0xf0 + y := by decide

theorem to_byte_val (n : Nat) : (to_byte n).val = n % 256 := rfl

theorem utf8_bytes_decode (c : Nat) (h1 : 1 ≤ c) (h2 : c ≤ 0x10ffff)
    (h3 : ¬ (0xD800 ≤ c ∧ c ≤ 0xDFFF)) :
    reference_utf8_decode (utf8_bytes c) = some c := by
  unfold utf8_bytes
  simp only [Nat.shiftRight_eq_div_pow, and_0x3f, and_0x1f, and_0xf, and_0x7]
  split
  · rename_i h
    simp only [reference_utf8_decode, List.map, to_byte_val]
    have : c % 256 = c := by omega
    simp only [this]
    rw [if_pos (by omega)]
  split
  · rename_i h h'
    rw [lor_0xc0 _ (by omega)]
    simp only [reference_utf8_decode, List.map, to_byte_val, utf8_is_continuation]
    have e0 : (0xc0 + c / 2 ^ 6 % 32) % 256 = 192 + c / 64 := by omega
    have e1 : (0x80 + c / 2 ^ 0 % 64) % 256 = 128 + c % 64 := by omega
    simp only [e0, e1]
    rw [if_pos (by simp; omega)]
    rw [if_pos (by omega)]
    exact congrArg some (by omega)
  split
  · rename_i h h' h''
    rw [lor_0xe0 _ (by omega)]
    simp only [reference_utf8_decode, List.map, to_byte_val, utf8_is_continuation]
    have e0 : (0xe0 + c / 2 ^ 12 % 16) % 256 = 224 + c / 4096 := by omega
    have e1 : (0x80 + c / 2 ^ 6 % 64) % 256 = 128 + c / 64 % 64 := by omega
    have e2 : (0x80 + c / 2 ^ 0 % 64) % 256 = 128 + c % 64 := by omega
    simp only [e0, e1, e2]
    rw [if_pos (by simp; omega)]
    rw [if_pos (by omega)]
    exact congrArg some (by omega)
  · rename_i h h' h''
    rw [lor_0xf0 _ (by omega)]
    simp only [reference_utf8_decode, List.map, to_byte_val, utf8_is_continuation]
    have e0 : (0xf0 + c / 2 ^ 18 % 8) % 256 = 240 + c / 262144 := by omega
    have e1 : (0x80 + c / 2 ^ 12 % 64) % 256 = 128 + c / 4096 % 64 := by omega
    have e2 : (0x80 + c / 2 ^ 6 % 64) % 256 = 128 + c / 64 % 64 := by omega
    have e3 : (0x80 + c / 2 ^ 0 % 64) % 256 = 128 + c % 64 := by omega
    simp only [e0, e1, e2, e3]
    rw [if_pos (by simp; omega)]
    rw [if_pos (by omega)]
    exact congrArg some (by omega)

theorem utf8_bytes_length (c : Nat) :
    (utf8_bytes c).length =
      if c ≤ 0x7f then 1 else if c ≤ 0x7ff then 2 else if c ≤ 0xffff then 3 else 4 := by
  unfold utf8_bytes
  split
  · rfl
  split
  · rfl
  split <;> rfl

/-! ## Numeric entities -/

set_option maxRecDepth 1000000 in
theorem dec_digit_value : ∀ ch : MD_CHAR, is_dec_digit ch = true →
    to_unsigned (char_val ch - 0x30) = digit_value ch ∧ digit_value ch < 10 ∧
      ch ≠ 0x78 ∧ ch ≠ 0x58 := by
  decide!

set_option maxRecDepth 1000000 in
theorem hex_digit_value : ∀ ch : MD_CHAR, is_hex_digit ch = true →
    hex_val ch = digit_value ch ∧ digit_value ch < 16 := by
  decide!

/-- The accumulation of digits without reduction. -/
theorem foldl_digits (base : Nat) (digits : List MD_CHAR) (acc : Nat) :
    digits.foldl (fun n ch => base * n + digit_value ch) acc
      = acc * base ^ digits.length + denoted_number base digits := by
  induction digits generalizing acc with
  | nil => simp [denoted_number]
  | cons d ds ih =>
    rw [List.foldl_cons, ih]
    simp only [denoted_number, List.reverse_cons, List.map_append, List.map_cons, List.map_nil,
      Nat.ofDigits_append, Nat.ofDigits_singleton, List.length_map, List.length_reverse,
      List.length_cons]
    ring

theorem foldl_digits_mod (base : Nat) (v : MD_CHAR → Nat) (digits : List MD_CHAR)
    (hv : ∀ d ∈ digits, v d = digit_value d) (acc : Nat) :
    digits.foldl (fun n ch => (base * n + v ch) % 2 ^ 32) (acc % 2 ^ 32)
      = (digits.foldl (fun n ch => base * n + digit_value ch) acc) % 2 ^ 32 := by
  induction digits generalizing acc with
  | nil => rfl
  | cons d ds ih =>
    have hd : v d = digit_value d := hv d (List.mem_cons_self _ _)
    have hstep : (base * (acc % 2 ^ 32) + v d) % 2 ^ 32
        = (base * acc + digit_value d) % 2 ^ 32 := by
      rw [hd, Nat.add_mod, Nat.mul_mod, Nat.mod_mod, ← Nat.mul_mod, ← Nat.add_mod]
    rw [List.foldl_cons, List.foldl_cons, hstep]
    exact ih (fun x hx => hv x (List.mem_cons_of_mem _ hx)) _

theorem entity_dec_codepoint_eq (digits : List MD_CHAR)
    (h : digits.all is_dec_digit = true) :
    entity_dec_codepoint (cstr "&#" ++ digits ++ cstr ";") = denoted_number 10 digits % 2 ^ 32 := by
  have htake : ((cstr "&#" ++ digits ++ cstr ";").take
      ((cstr "&#" ++ digits ++ cstr ";").length - 1)).drop 2 = digits := by
    have hl : (cstr "&#" ++ digits ++ cstr ";").length - 1 = (cstr "&#" ++ digits).length := by
      simp [cstr]
    rw [hl, List.take_left']
    · simp [cstr]
    · rfl
  unfold entity_dec_codepoint
  rw [htake]
  have hv : ∀ d ∈ digits, to_unsigned (char_val d - 0x30) = digit_value d := by
    intro d hd
    exact (dec_digit_value d (List.all_eq_true.mp h d hd)).1
  have := foldl_digits_mod 10 (fun ch => to_unsigned (char_val ch - 0x30)) digits hv 0
  simp only [Nat.zero_mod] at this
  rw [this, foldl_digits]
  simp

theorem entity_hex_codepoint_eq (marker : MD_CHAR) (digits : List MD_CHAR)
    (h : digits.all is_hex_digit = true) :
    entity_hex_codepoint (cstr "&#" ++ [marker] ++ digits ++ cstr ";")
      = denoted_number 16 digits % 2 ^ 32 := by
  have htake : ((cstr "&#" ++ [marker] ++ digits ++ cstr ";").take
      ((cstr "&#" ++ [marker] ++ digits ++ cstr ";").length - 1)).drop 3 = digits := by
    have hl : (cstr "&#" ++ [marker] ++ digits ++ cstr ";").length - 1
        = (cstr "&#" ++ [marker] ++ digits).length := by
      simp [cstr]
    rw [hl, List.take_left']
    · simp [cstr]
    · rfl
  unfold entity_hex_codepoint
  rw [htake]
  have hv : ∀ d ∈ digits, hex_val d = digit_value d := by
    intro d hd
    exact (hex_digit_value d (List.all_eq_true.mp h d hd)).1
  have := foldl_digits_mod 16 hex_val digits hv 0
  simp only [Nat.zero_mod] at this
  rw [this, foldl_digits]
  simp

/-- What `render_entity` does with a well-formed numeric entity token: it
encodes the number the digits denote, reduced modulo `2 ^ 32`. -/
theorem render_entity_numeric (entity_lookup : EntityLookup) (r : MD_HTML)
    (fn_append : AppendFn) (tok : NumericEntity)
    (hflag : r.flags &&& MD_HTML_FLAG_VERBATIM_ENTITIES = 0)
    (hwf : tok.well_formed = true) :
    render_entity entity_lookup r tok.text fn_append
      = render_utf8_codepoint r (tok.number % 2 ^ 32) fn_append := by
  cases tok with
  | dec digits =>
    simp only [NumericEntity.well_formed, Bool.and_eq_true, Bool.not_eq_true',
      List.isEmpty_eq_false] at hwf
    obtain ⟨hne, hall⟩ := hwf
    obtain ⟨d, ds, rfl⟩ := List.exists_cons_of_ne_nil hne
    have hd := dec_digit_value d (List.all_eq_true.mp hall d (List.mem_cons_self _ _))
    have hcp := entity_dec_codepoint_eq (d :: ds) hall
    simp only [NumericEntity.text] at hcp ⊢
    have h1 : (cstr "&#" ++ d :: ds ++ cstr ";").length > 3 := by simp [cstr]
    have h2 : (cstr "&#" ++ d :: ds ++ cstr ";").getD 1 0 = 0x23 := by simp [cstr]
    have h3 : (cstr "&#" ++ d :: ds ++ cstr ";").getD 2 0 = d := by simp [cstr]
    simp only [render_entity, hflag, ne_eq, not_true_eq_false, if_false, h1, h2, h3, and_self,
      if_true, hd.2.2.1, hd.2.2.2, or_self, hcp, MD_HTML_TRY_id, NumericEntity.number]
  | hex marker digits =>
    simp only [NumericEntity.well_formed, Bool.and_eq_true, Bool.not_eq_true',
      List.isEmpty_eq_false, Bool.or_eq_true, beq_iff_eq] at hwf
    obtain ⟨⟨hm, hne⟩, hall⟩ := hwf
    obtain ⟨d, ds, rfl⟩ := List.exists_cons_of_ne_nil hne
    have hcp := entity_hex_codepoint_eq marker (d :: ds) hall
    simp only [NumericEntity.text] at hcp ⊢
    have h1 : (cstr "&#" ++ [marker] ++ d :: ds ++ cstr ";").length > 3 := by simp [cstr]
    have h2 : (cstr "&#" ++ [marker] ++ d :: ds ++ cstr ";").getD 1 0 = 0x23 := by
      simp [cstr]
    have h3 : (cstr "&#" ++ [marker] ++ d :: ds ++ cstr ";").getD 2 0 = marker := by
      simp [cstr]
    simp only [render_entity, hflag, ne_eq, not_true_eq_false, if_false, h1, h2, h3, and_self,
      if_true, hm, hcp, MD_HTML_TRY_id, NumericEntity.number]

theorem numeric_entity_short_lt (tok : NumericEntity) (hwf : tok.well_formed = true)
    (hshort : tok.short = true) : tok.number < 2 ^ 32 := by
  cases tok with
  | dec digits =>
    simp only [NumericEntity.well_formed, Bool.and_eq_true] at hwf
    simp only [NumericEntity.short, decide_eq_true_eq] at hshort
    have hlt : denoted_number 10 digits < 10 ^ (digits.reverse.map digit_value).length := by
      apply Nat.ofDigits_lt_base_pow_length (by decide)
      intro x hx
      obtain ⟨d, hd, rfl⟩ := List.mem_map.mp hx
      exact (dec_digit_value d (List.all_eq_true.mp hwf.2 d (List.mem_reverse.mp hd))).2.1
    simp only [List.length_map, List.length_reverse] at hlt
    have : 10 ^ digits.length ≤ 10 ^ 7 := Nat.pow_le_pow_right (by decide) hshort
    simp only [NumericEntity.number]
    omega
  | hex marker digits =>
    simp only [NumericEntity.well_formed, Bool.and_eq_true] at hwf
    simp only [NumericEntity.short, decide_eq_true_eq] at hshort
    have hlt : denoted_number 16 digits < 16 ^ (digits.reverse.map digit_value).length := by
      apply Nat.ofDigits_lt_base_pow_length (by decide)
      intro x hx
      obtain ⟨d, hd, rfl⟩ := List.mem_map.mp hx
      exact (hex_digit_value d (List.all_eq_true.mp hwf.2 d (List.mem_reverse.mp hd))).2
    simp only [List.length_map, List.length_reverse] at hlt
    have : 16 ^ digits.length ≤ 16 ^ 6 := Nat.pow_le_pow_right (by decide) hshort
    simp only [NumericEntity.number]
    omega

set_option maxRecDepth 1000000 in
/-- The bytes `render_html_escaped` writes for one input byte under the escape
map of `md_html`: the entity for `&`, `<`, `>`, `"`, nothing for the byte 0,
and the byte itself otherwise. -/
theorem html_byte_output_md_html (r : MD_HTML) (hmap : r.escape_map = md_html_escape_map) :
    ∀ b : MD_CHAR, html_byte_output r b =
      if b = 0x26 then cstr "&amp;" else if b = 0x3C then cstr "&lt;"
      else if b = 0x3E then cstr "&gt;" else if b = 0x22 then cstr "&quot;"
      else if b = 0 then [] else [b] := by
  unfold html_byte_output NEED_HTML_ESC
  rw [hmap, md_html_escape_map_eq]
  decide!

set_option maxRecDepth 1000000 in
theorem alnum_html_byte_output (r : MD_HTML) (hmap : r.escape_map = md_html_escape_map) :
    ∀ b : MD_CHAR, ISALNUM b.val = true → NEED_HTML_ESC r b = false ∧ b ≠ 0x23 := by
  unfold NEED_HTML_ESC
  rw [hmap, md_html_escape_map_eq]
  decide!

set_option maxRecDepth 1000000 in
/-- The bytes `render_url_escaped` writes for one input byte under the escape
map of `md_html`: the byte itself for a letter, a digit, a byte of the safe
set and the byte 0; `&amp;` for `&`; otherwise `%` and the two uppercase
hexadecimal digits of the byte, high nibble first. -/
theorem url_byte_output_md_html (r : MD_HTML) (hmap : r.escape_map = md_html_escape_map) :
    ∀ b : MD_CHAR, url_byte_output r b =
      if ISALNUM b.val = true ∨ b ∈ cstr "~-_.+!*(),%#@?=;:/,+$" ∨ b = 0 then [b]
      else if b = 0x26 then cstr "&amp;"
      else [0x25, upper_hex_digit (b.val / 16), upper_hex_digit (b.val % 16)] := by
  unfold url_byte_output NEED_URL_ESC
  rw [hmap, md_html_escape_map_eq]
  decide!

/-- On a string of fewer than `2 ^ 32 - 3` bytes with none of the bytes `&`,
`<`, `>`, `"` and no byte 0, `render_html_escaped` with the escape map of
`md_html` returns 0 and the chunks it sends to the sink spell the input. -/
theorem render_html_escaped_safe (r : MD_HTML) (hmap : r.escape_map = md_html_escape_map)
    (data : List MD_CHAR) (hfit : data.length + 3 < 2 ^ 32)
    (hsafe : ∀ b ∈ data, b ∉ cstr "&<>\"") (hnul : ∀ b ∈ data, b ≠ 0) :
    ∃ chunks, render_html_escaped r data = some (0, emit r chunks) ∧
      chunks.flatten = data := by
  obtain ⟨chunks, hrun, hflat⟩ := render_html_escaped_spec r data hfit
  refine ⟨chunks, hrun, ?_⟩
  rw [hflat]
  apply html_flatMap_unflagged
  intro b hb
  have h := (escape_map_html_flag b).not.mpr (by
    intro hc
    rcases hc with h0 | h4
    · exact hnul b hb h0
    · exact hsafe b hb h4)
  simpa [NEED_HTML_ESC, hmap] using h

/-! ## `render_attribute` as a walk over the sub-spans -/

theorem well_formed_iff (attr : MD_ATTRIBUTE) :
    attr.well_formed = true ↔
      ((attr.text.getD []).length = attr.size ∧
        attr.substr_offsets.length = attr.substr_types.length + 1 ∧
        attr.substr_offsets.getD 0 0 = 0 ∧
        (∀ i, i < attr.substr_types.length →
          attr.substr_offsets.getD i 0 ≤ attr.substr_offsets.getD (i + 1) 0) ∧
        attr.substr_offsets.getD attr.substr_types.length 0 = attr.size) := by
  simp only [MD_ATTRIBUTE.well_formed, decide_eq_true_eq]

theorem offsets_mono (attr : MD_ATTRIBUTE) (h : attr.well_formed = true) :
    ∀ j i, i ≤ j → j ≤ attr.substr_types.length →
      attr.substr_offsets.getD i 0 ≤ attr.substr_offsets.getD j 0 := by
  have hw := (well_formed_iff attr).mp h
  intro j
  induction j with
  | zero => intro i hi _; have : i = 0 := by omega
            rw [this]
  | succ k ih =>
    intro i hi hk
    by_cases hik : i = k + 1
    · rw [hik]
    · exact le_trans (ih i (by omega) (by omega)) (hw.2.2.2.1 k (by omega))

theorem render_substrs_cons (entity_lookup : EntityLookup) (fn_append : AppendFn)
    (s : MD_TEXTTYPE × List MD_CHAR) (rest : List (MD_TEXTTYPE × List MD_CHAR)) (r : MD_HTML) :
    render_substrs entity_lookup fn_append (s :: rest) r
      = MD_HTML_TRY (render_substr entity_lookup fn_append r s)
          (render_substrs entity_lookup fn_append rest) := by
  simp only [render_substrs, MD_HTML_TRY]

theorem render_attribute_loop_eq (entity_lookup : EntityLookup) (attr : MD_ATTRIBUTE)
    (fn_append : AppendFn) (h : attr.well_formed = true) :
    ∀ (fuel i : Nat) (r : MD_HTML), i ≤ attr.substr_types.length →
      attr.substr_types.length - i < fuel →
      render_attribute_loop entity_lookup attr fn_append fuel i r
        = render_substrs entity_lookup fn_append
            (((List.range' i (attr.substr_types.length - i)).filter
              (fun j => attr.substr_offsets.getD j 0 < attr.size)).map attr.substr) r := by
  have hw := (well_formed_iff attr).mp h
  intro fuel
  induction fuel with
  | zero => intro i r h1 h2; omega
  | succ n ih =>
    intro i r h1 h2
    have hi : i < attr.substr_offsets.length := by omega
    have hoff : attr.substr_offsets[i]? = some (attr.substr_offsets.getD i 0) := by
      rw [List.getD_eq_getElem _ _ hi, List.getElem?_eq_getElem hi]
    unfold render_attribute_loop
    simp only [hoff]
    by_cases hlt : attr.substr_offsets.getD i 0 < attr.size
    · have hin : i < attr.substr_types.length := by
        by_contra hcon
        have : i = attr.substr_types.length := by omega
        rw [this, hw.2.2.2.2] at hlt
        omega
      have hty : attr.substr_types[i]? = some (attr.substr_types.getD i .MD_TEXT_NORMAL) := by
        rw [List.getD_eq_getElem _ _ hin, List.getElem?_eq_getElem hin]
      have hi1 : i + 1 < attr.substr_offsets.length := by omega
      have hnext : attr.substr_offsets[i + 1]? = some (attr.substr_offsets.getD (i + 1) 0) := by
        rw [List.getD_eq_getElem _ _ hi1, List.getElem?_eq_getElem hi1]
      have hrange : List.range' i (attr.substr_types.length - i)
          = i :: List.range' (i + 1) (attr.substr_types.length - (i + 1)) := by
        have : attr.substr_types.length - i = (attr.substr_types.length - (i + 1)) + 1 := by
          omega
        rw [this, List.range'_succ]
      simp only [hlt, if_true, hty, hnext]
      rw [hrange, List.filter_cons_of_pos (by simpa using hlt), List.map_cons,
        render_substrs_cons]
      have hcont : (fun r => render_attribute_loop entity_lookup attr fn_append n (i + 1) r)
          = render_substrs entity_lookup fn_append
              (((List.range' (i + 1) (attr.substr_types.length - (i + 1))).filter
                (fun j => attr.substr_offsets.getD j 0 < attr.size)).map attr.substr) := by
        funext r1
        exact ih (i + 1) r1 (by omega) (by omega)
      rw [hcont]
      congr 1
    · simp only [hlt, if_false]
      have hempty : (List.range' i (attr.substr_types.length - i)).filter
          (fun j => attr.substr_offsets.getD j 0 < attr.size) = [] := by
        rw [List.filter_eq_nil_iff]
        intro j hj
        rw [List.mem_range'_1] at hj
        have := offsets_mono attr h j i hj.1 (by omega)
        simp only [decide_eq_true_eq]
        omega
      rw [hempty]
      rfl

/-- On a well-formed attribute `render_attribute` is the walk over the
sub-spans that start before the end of the text: its loop does not run out of
fuel and reads no entry outside the arrays. -/
theorem render_attribute_eq (entity_lookup : EntityLookup) (r : MD_HTML) (attr : MD_ATTRIBUTE)
    (fn_append : AppendFn) (h : attr.well_formed = true) :
    render_attribute entity_lookup r attr fn_append
      = render_substrs entity_lookup fn_append attr.processed_substrs r := by
  have hw := (well_formed_iff attr).mp h
  have := render_attribute_loop_eq entity_lookup attr fn_append h
    (attr.substr_offsets.length + 1) 0 r (Nat.zero_le _) (by omega)
  rw [render_attribute, this, MD_ATTRIBUTE.processed_substrs, List.range_eq_range']
  rfl

/-! ## What the renderers write when no hook is involved -/

theorem Wrote.refl (r : MD_HTML) : Wrote r r [] := by
  simp [Wrote]

theorem Wrote.trans {r r1 r2 : MD_HTML} {a b : List MD_CHAR}
    (h1 : Wrote r r1 a) (h2 : Wrote r1 r2 b) : Wrote r r2 (a ++ b) := by
  obtain ⟨f1, e1, c1, l1, o1⟩ := h1
  obtain ⟨f2, e2, c2, l2, o2⟩ := h2
  exact ⟨f2.trans f1, e2.trans e1, c2.trans c1, l2.trans l1, by
    rw [o2, o1, List.append_assoc]⟩

theorem wrote_emit (r : MD_HTML) (chunks : List (List MD_CHAR)) :
    Wrote r (emit r chunks) chunks.flatten := by
  simp [Wrote, emit]

theorem RENDER_VERBATIM_eq (r : MD_HTML) (s : String) :
    RENDER_VERBATIM r s = some (0, emit r [cstr s]) := rfl

theorem wrote_verbatim (r : MD_HTML) (text : List MD_CHAR) :
    Wrote r (emit r [text]) text := by
  simpa using wrote_emit r [text]

theorem MD_HTML_TRY_zero (r1 : MD_HTML) (rest : MD_HTML → Option (Int × MD_HTML)) :
    MD_HTML_TRY (some (0, r1)) rest = rest r1 := by
  simp [MD_HTML_TRY]

theorem IGNORE_RET_some (ret : Int) (r1 : MD_HTML) (rest : MD_HTML → Option (Int × MD_HTML)) :
    IGNORE_RET (some (ret, r1)) rest = rest r1 := rfl

theorem html_byte_output_congr (r r0 : MD_HTML) (h : r.escape_map = r0.escape_map) :
    html_byte_output r = html_byte_output r0 := by
  funext ch
  simp only [html_byte_output, NEED_HTML_ESC, h]

theorem url_byte_output_congr (r r0 : MD_HTML) (h : r.escape_map = r0.escape_map) :
    url_byte_output r = url_byte_output r0 := by
  funext ch
  simp only [url_byte_output, NEED_URL_ESC, h]

theorem emits_render_verbatim (r0 : MD_HTML) : Emits render_verbatim r0 id := by
  intro r data _ _
  exact ⟨emit r [data], rfl, wrote_verbatim r data⟩

theorem emits_on_of_emits (dom : List MD_CHAR → Prop) (fn_append : AppendFn) (r0 : MD_HTML)
    (esc : List MD_CHAR → List MD_CHAR) (h : Emits fn_append r0 esc) :
    EmitsOn dom fn_append r0 esc :=
  fun r data _ hf hm => h r data hf hm

theorem emits_of_emits_on (fn_append : AppendFn) (r0 : MD_HTML)
    (esc : List MD_CHAR → List MD_CHAR) (h : EmitsOn (fun _ => True) fn_append r0 esc) :
    Emits fn_append r0 esc :=
  fun r data hf hm => h r data trivial hf hm

/-- On buffers of fewer than `2 ^ 32 - 3` bytes `render_html_escaped` returns 0
and writes `html_escaped`. -/
theorem emits_render_html_escaped (r0 : MD_HTML) :
    EmitsOn (fun data => short_buffer data = true) render_html_escaped r0 (html_escaped r0) := by
  intro r data hfit _ hmap
  simp only [short_buffer, decide_eq_true_eq] at hfit
  obtain ⟨chunks, hrun, hflat⟩ := render_html_escaped_spec r data hfit
  refine ⟨emit r chunks, hrun, ?_⟩
  have := wrote_emit r chunks
  rwa [hflat, html_byte_output_congr r r0 hmap] at this

theorem emits_render_url_escaped (r0 : MD_HTML) :
    Emits render_url_escaped r0 (url_escaped r0) := by
  intro r data _ hmap
  obtain ⟨chunks, hrun, hflat⟩ := render_url_escaped_spec r data
  refine ⟨emit r chunks, hrun, ?_⟩
  have := wrote_emit r chunks
  rwa [hflat, url_byte_output_congr r r0 hmap] at this

theorem render_utf8_codepoint_eq (r : MD_HTML) (codepoint : Nat) (fn_append : AppendFn) :
    render_utf8_codepoint r codepoint fn_append = fn_append r (codepoint_bytes codepoint) := by
  unfold render_utf8_codepoint codepoint_bytes
  split <;> simp only [MD_HTML_TRY_id]

theorem codepoint_bytes_length (codepoint : Nat) : (codepoint_bytes codepoint).length ≤ 4 := by
  unfold codepoint_bytes
  split
  · rw [utf8_bytes_length]
    split_ifs <;> omega
  · decide

theorem short_codepoint_bytes (codepoint : Nat) :
    short_buffer (codepoint_bytes codepoint) = true := by
  have := codepoint_bytes_length codepoint
  simp only [short_buffer, decide_eq_true_eq]
  omega

theorem render_entity_wrote_on (dom : List MD_CHAR → Prop) (entity_lookup : EntityLookup)
    (fn_append : AppendFn) (r0 : MD_HTML) (esc : List MD_CHAR → List MD_CHAR)
    (hfn : EmitsOn dom fn_append r0 esc) (hcp : ∀ c, dom (codepoint_bytes c))
    (r : MD_HTML) (text : List MD_CHAR) (htext : dom text) (hf : r.flags = r0.flags)
    (hm : r.escape_map = r0.escape_map) :
    ∃ r1, render_entity entity_lookup r text fn_append = some (0, r1) ∧
      Wrote r r1 (entity_output entity_lookup r0.flags esc text) := by
  unfold render_entity entity_output
  rw [hf]
  simp only [MD_HTML_TRY_id, render_utf8_codepoint_eq]
  split
  · exact ⟨emit r [text], rfl, wrote_verbatim r text⟩
  split
  · exact hfn r _ (hcp _) hf hm
  · cases hl : entity_lookup text with
    | none => exact hfn r _ htext hf hm
    | some ent =>
      obtain ⟨r1, h1, w1⟩ := hfn r (codepoint_bytes ent.1) (hcp _) hf hm
      show ∃ r2, (MD_HTML_TRY (fn_append r (codepoint_bytes ent.1)) fun r =>
            if ent.2 ≠ 0 then fn_append r (codepoint_bytes ent.2) else some (0, r))
          = some (0, r2) ∧
        Wrote r r2 (esc (codepoint_bytes ent.1) ++
          if ent.2 ≠ 0 then esc (codepoint_bytes ent.2) else [])
      rw [h1, MD_HTML_TRY_zero]
      by_cases h2 : ent.2 ≠ 0
      · rw [if_pos h2, if_pos h2]
        obtain ⟨r2, h2', w2⟩ :=
          hfn r1 (codepoint_bytes ent.2) (hcp _) (w1.1.trans hf) (w1.2.1.trans hm)
        exact ⟨r2, h2', w1.trans w2⟩
      · rw [if_neg h2, if_neg h2]
        exact ⟨r1, rfl, by simpa using w1⟩

theorem render_substr_wrote_on (dom : List MD_CHAR → Prop) (entity_lookup : EntityLookup)
    (fn_append : AppendFn) (r0 : MD_HTML) (esc : List MD_CHAR → List MD_CHAR)
    (hfn : EmitsOn dom fn_append r0 esc) (hcp : ∀ c, dom (codepoint_bytes c))
    (r : MD_HTML) (s : MD_TEXTTYPE × List MD_CHAR) (hs : dom s.2) (hf : r.flags = r0.flags)
    (hm : r.escape_map = r0.escape_map) :
    ∃ r1, render_substr entity_lookup fn_append r s = some (0, r1) ∧
      Wrote r r1 (substr_output entity_lookup r0.flags esc s) := by
  unfold render_substr substr_output
  cases s.1
  case MD_TEXT_NULLCHAR => exact ⟨_, rfl, wrote_verbatim r _⟩
  case MD_TEXT_ENTITY =>
    exact render_entity_wrote_on dom entity_lookup fn_append r0 esc hfn hcp r s.2 hs hf hm
  all_goals exact hfn r s.2 hs hf hm

theorem render_substrs_wrote_on (dom : List MD_CHAR → Prop) (entity_lookup : EntityLookup)
    (fn_append : AppendFn) (r0 : MD_HTML) (esc : List MD_CHAR → List MD_CHAR)
    (hfn : EmitsOn dom fn_append r0 esc) (hcp : ∀ c, dom (codepoint_bytes c))
    (l : List (MD_TEXTTYPE × List MD_CHAR)) (hl : ∀ s ∈ l, dom s.2) :
    ∀ (r : MD_HTML), r.flags = r0.flags → r.escape_map = r0.escape_map →
      ∃ r1, render_substrs entity_lookup fn_append l r = some (0, r1) ∧
        Wrote r r1 (l.flatMap (substr_output entity_lookup r0.flags esc)) := by
  induction l with
  | nil => intro r _ _; exact ⟨r, rfl, Wrote.refl r⟩
  | cons s rest ih =>
    intro r hf hm
    obtain ⟨r1, h1, w1⟩ := render_substr_wrote_on dom entity_lookup fn_append r0 esc hfn hcp
      r s (hl s (List.mem_cons_self _ _)) hf hm
    obtain ⟨r2, h2, w2⟩ := ih (fun t ht => hl t (List.mem_cons_of_mem _ ht)) r1
      (w1.1.trans hf) (w1.2.1.trans hm)
    refine ⟨r2, ?_, by simpa [List.flatMap_cons] using w1.trans w2⟩
    rw [render_substrs_cons, h1, MD_HTML_TRY_zero, h2]

theorem render_attribute_wrote_on (dom : List MD_CHAR → Prop) (entity_lookup : EntityLookup)
    (fn_append : AppendFn) (r0 : MD_HTML) (esc : List MD_CHAR → List MD_CHAR)
    (hfn : EmitsOn dom fn_append r0 esc) (hcp : ∀ c, dom (codepoint_bytes c))
    (attr : MD_ATTRIBUTE) (hwf : attr.well_formed = true)
    (hl : ∀ s ∈ attr.processed_substrs, dom s.2)
    (r : MD_HTML) (hf : r.flags = r0.flags) (hm : r.escape_map = r0.escape_map) :
    ∃ r1, render_attribute entity_lookup r attr fn_append = some (0, r1) ∧
      Wrote r r1 (attribute_output entity_lookup r0.flags esc attr) := by
  rw [render_attribute_eq entity_lookup r attr fn_append hwf]
  exact render_substrs_wrote_on dom entity_lookup fn_append r0 esc hfn hcp _ hl r hf hm

theorem render_entity_wrote (entity_lookup : EntityLookup) (fn_append : AppendFn)
    (r0 : MD_HTML) (esc : List MD_CHAR → List MD_CHAR) (hfn : Emits fn_append r0 esc)
    (r : MD_HTML) (text : List MD_CHAR) (hf : r.flags = r0.flags)
    (hm : r.escape_map = r0.escape_map) :
    ∃ r1, render_entity entity_lookup r text fn_append = some (0, r1) ∧
      Wrote r r1 (entity_output entity_lookup r0.flags esc text) :=
  render_entity_wrote_on (fun _ => True) entity_lookup fn_append r0 esc
    (emits_on_of_emits _ _ _ _ hfn) (fun _ => trivial) r text trivial hf hm

theorem render_substr_wrote (entity_lookup : EntityLookup) (fn_append : AppendFn)
    (r0 : MD_HTML) (esc : List MD_CHAR → List MD_CHAR) (hfn : Emits fn_append r0 esc)
    (r : MD_HTML) (s : MD_TEXTTYPE × List MD_CHAR) (hf : r.flags = r0.flags)
    (hm : r.escape_map = r0.escape_map) :
    ∃ r1, render_substr entity_lookup fn_append r s = some (0, r1) ∧
      Wrote r r1 (substr_output entity_lookup r0.flags esc s) :=
  render_substr_wrote_on (fun _ => True) entity_lookup fn_append r0 esc
    (emits_on_of_emits _ _ _ _ hfn) (fun _ => trivial) r s trivial hf hm

theorem render_substrs_wrote (entity_lookup : EntityLookup) (fn_append : AppendFn)
    (r0 : MD_HTML) (esc : List MD_CHAR → List MD_CHAR) (hfn : Emits fn_append r0 esc)
    (l : List (MD_TEXTTYPE × List MD_CHAR)) :
    ∀ (r : MD_HTML), r.flags = r0.flags → r.escape_map = r0.escape_map →
      ∃ r1, render_substrs entity_lookup fn_append l r = some (0, r1) ∧
        Wrote r r1 (l.flatMap (substr_output entity_lookup r0.flags esc)) :=
  render_substrs_wrote_on (fun _ => True) entity_lookup fn_append r0 esc
    (emits_on_of_emits _ _ _ _ hfn) (fun _ => trivial) l (fun _ _ => trivial)

/-- On a well-formed attribute, with an append strategy that returns 0 and
writes `esc data` for `data`, `render_attribute` returns 0 and writes
`attribute_output`. -/
theorem render_attribute_wrote (entity_lookup : EntityLookup) (fn_append : AppendFn)
    (r0 : MD_HTML) (esc : List MD_CHAR → List MD_CHAR) (hfn : Emits fn_append r0 esc)
    (attr : MD_ATTRIBUTE) (hwf : attr.well_formed = true)
    (r : MD_HTML) (hf : r.flags = r0.flags) (hm : r.escape_map = r0.escape_map) :
    ∃ r1, render_attribute entity_lookup r attr fn_append = some (0, r1) ∧
      Wrote r r1 (attribute_output entity_lookup r0.flags esc attr) :=
  render_attribute_wrote_on (fun _ => True) entity_lookup fn_append r0 esc
    (emits_on_of_emits _ _ _ _ hfn) (fun _ => trivial) attr hwf (fun _ _ => trivial) r hf hm

theorem slice_length_le (data : List MD_CHAR) (beg off : Nat) :
    (slice data beg off).length ≤ data.length := by
  unfold slice
  rw [List.length_take, List.length_drop]
  omega

/-- The sub-spans of a well-formed attribute of fewer than `2 ^ 32 - 3` bytes
have fewer than `2 ^ 32 - 3` bytes. -/
theorem processed_substrs_short (attr : MD_ATTRIBUTE) (hwf : attr.well_formed = true)
    (hfit : attr.html_fits = true) :
    ∀ s ∈ attr.processed_substrs, short_buffer s.2 = true := by
  have hw := (well_formed_iff attr).mp hwf
  have hsize : attr.size + 3 < 2 ^ 32 := by
    simp only [MD_ATTRIBUTE.html_fits, Bool.or_eq_true, Option.isNone_iff_eq_none,
      decide_eq_true_eq] at hfit
    rcases hfit with h | h
    · have h0 := hw.1
      rw [h] at h0
      simp only [Option.getD_none, List.length_nil] at h0
      rw [← h0]; decide
    · exact h
  intro s hs
  simp only [MD_ATTRIBUTE.processed_substrs, List.mem_map, List.mem_filter, List.mem_range]
    at hs
  obtain ⟨i, _, rfl⟩ := hs
  have hle := slice_length_le (attr.text.getD []) (attr.substr_offsets.getD i 0)
    (attr.substr_offsets.getD (i + 1) 0)
  simp only [MD_ATTRIBUTE.substr, short_buffer, decide_eq_true_eq]
  omega

/-- On a well-formed attribute of fewer than `2 ^ 32 - 3` bytes,
`render_attribute` with `render_html_escaped` returns 0 and writes
`attribute_output` with the HTML-escaped texts. -/
theorem render_attribute_html_wrote (entity_lookup : EntityLookup) (r0 : MD_HTML)
    (attr : MD_ATTRIBUTE) (hwf : attr.well_formed = true) (hfit : attr.html_fits = true)
    (r : MD_HTML) (hf : r.flags = r0.flags) (hm : r.escape_map = r0.escape_map) :
    ∃ r1, render_attribute entity_lookup r attr render_html_escaped = some (0, r1) ∧
      Wrote r r1 (attribute_output entity_lookup r0.flags (html_escaped r0) attr) :=
  render_attribute_wrote_on (fun data => short_buffer data = true) entity_lookup
    render_html_escaped r0 (html_escaped r0) (emits_render_html_escaped r0)
    short_codepoint_bytes attr hwf (processed_substrs_short attr hwf hfit) r hf hm

/-! ## Without hooks every handler returns 0 -/

theorem good_verbatim (r0 r : MD_HTML) (s : String)
    (hf : r.flags = r0.flags) (hm : r.escape_map = r0.escape_map) :
    Good r0 (RENDER_VERBATIM r s) :=
  ⟨_, RENDER_VERBATIM_eq r s, hf, hm⟩

theorem good_ignore_good (r0 : MD_HTML) (x : Option (Int × MD_HTML))
    (g : MD_HTML → Option (Int × MD_HTML)) (hx : Good r0 x)
    (hg : ∀ r1, r1.flags = r0.flags → r1.escape_map = r0.escape_map → Good r0 (g r1)) :
    Good r0 (IGNORE_RET x g) := by
  obtain ⟨r1, h1, hf, hm⟩ := hx
  rw [h1, IGNORE_RET_some]
  exact hg r1 hf hm

theorem render_codelink_url_escaped_none (cb : MD_HTML_CALLBACKS)
    (h : cb.render_code_link = none) : render_codelink_url_escaped cb = render_url_escaped := by
  funext r data
  obtain ⟨chunks, hrun, _⟩ := render_url_escaped_spec r data
  simp only [render_codelink_url_escaped, h, hrun, IGNORE_RET_some]

theorem render_self_url_escaped_none (cb : MD_HTML_CALLBACKS)
    (h : cb.render_self_link = none) : render_self_url_escaped cb = render_url_escaped := by
  funext r data
  obtain ⟨chunks, hrun, _⟩ := render_url_escaped_spec r data
  simp only [render_self_url_escaped, h, hrun, IGNORE_RET_some]

theorem emits_record_self_url_none (cb : MD_HTML_CALLBACKS) (h : cb.record_self_link = none)
    (r0 : MD_HTML) : Emits (record_self_url cb) r0 (fun _ => []) := by
  intro r data _ _
  exact ⟨r, by simp only [record_self_url, h], Wrote.refl r⟩

theorem render_optional_attribute_wrote (entity_lookup : EntityLookup) (r0 : MD_HTML)
    (attr : MD_ATTRIBUTE) (hwf : attr.optional_well_formed = true)
    (hfit : attr.html_fits = true) (opening : String)
    (r : MD_HTML) (hf : r.flags = r0.flags) (hm : r.escape_map = r0.escape_map) :
    ∃ r1, render_optional_attribute entity_lookup r attr opening none = some (0, r1) ∧
      Wrote r r1 (optional_attribute_output entity_lookup r0 attr opening) := by
  unfold render_optional_attribute optional_attribute_output
  split
  · rename_i hne
    have hw : attr.well_formed = true := by
      simp only [MD_ATTRIBUTE.optional_well_formed, Bool.or_eq_true, Option.isNone_iff_eq_none]
        at hwf
      rcases hwf with h | h
      · exact absurd h hne
      · exact h
    rw [RENDER_VERBATIM_eq, IGNORE_RET_some]
    have w0 := wrote_verbatim r (cstr opening)
    obtain ⟨r1, h1, w1⟩ := render_attribute_html_wrote entity_lookup r0 attr hw hfit
      (emit r [cstr opening]) hf hm
    rw [h1, MD_HTML_TRY_zero]
    exact ⟨r1, rfl, w0.trans w1⟩
  · exact ⟨r, rfl, Wrote.refl r⟩

theorem run_events_append (cb : MD_HTML_CALLBACKS) (entity_lookup : EntityLookup)
    (a b : List MD_EVENT) (r : MD_HTML) :
    run_events cb entity_lookup (a ++ b) r
      = MD_HTML_TRY (run_events cb entity_lookup a r) (run_events cb entity_lookup b) := by
  induction a generalizing r with
  | nil => simp [run_events, MD_HTML_TRY]
  | cons e rest ih =>
    simp only [List.cons_append, run_events]
    cases handle_event cb entity_lookup e r with
    | none => rfl
    | some p =>
      obtain ⟨ret, r1⟩ := p
      by_cases hret : ret = 0
      · subst hret
        simp only [MD_HTML_TRY_zero, List.append_eq, ih]
      · simp [MD_HTML_TRY, hret]

theorem enter_img_wrote (cb : MD_HTML_CALLBACKS) (entity_lookup : EntityLookup) (r : MD_HTML)
    (det : MD_SPAN_IMG_DETAIL) (hlevel : r.image_nesting_level = 0)
    (hwf : det.src.well_formed = true) :
    ∃ r1, enter_span_callback cb entity_lookup (.MD_SPAN_IMG det) r
        = some (0, { r1 with image_nesting_level := 1 }) ∧
      Wrote r r1 (cstr "<img src=\"" ++
        attribute_output entity_lookup r.flags (url_escaped r) det.src ++ cstr "\" alt=\"") := by
  have hl : ¬ r.image_nesting_level > 0 := by omega
  simp only [enter_span_callback, hl, if_false, render_open_img_span, RENDER_VERBATIM_eq,
    IGNORE_RET_some]
  have w0 := wrote_verbatim r (cstr "<img src=\"")
  obtain ⟨r1, h1, w1⟩ := render_attribute_wrote entity_lookup render_url_escaped r _
    (emits_render_url_escaped r) det.src hwf (emit r [cstr "<img src=\""]) rfl rfl
  rw [h1, MD_HTML_TRY_zero]
  have w2 := wrote_verbatim r1 (cstr "\" alt=\"")
  have w := (w0.trans w1).trans w2
  refine ⟨emit r1 [cstr "\" alt=\""], ?_, w⟩
  have hlv : (emit r1 [cstr "\" alt=\""]).image_nesting_level = 0 := by
    rw [w.2.2.2.1, hlevel]
  rw [hlv]
  rfl

theorem leave_img_wrote (entity_lookup : EntityLookup) (r0 r : MD_HTML)
    (det : MD_SPAN_IMG_DETAIL) (hlevel : r.image_nesting_level = 1)
    (hf : r.flags = r0.flags) (hm : r.escape_map = r0.escape_map)
    (hwf : det.title.optional_well_formed = true) (hfit : det.title.html_fits = true) :
    ∃ r1, leave_span_callback entity_lookup (.MD_SPAN_IMG det) r
        = some (0, { r1 with image_nesting_level := 0 }) ∧
      Wrote r r1 (optional_attribute_output entity_lookup r0 det.title "\" title=\"" ++
        (if r0.flags &&& MD_HTML_FLAG_XHTML ≠ 0 then cstr "\" />" else cstr "\">")) := by
  have hl : r.image_nesting_level > 0 := by omega
  unfold leave_span_callback
  rw [if_pos hl]
  simp only [hlevel, if_true, MD_HTML_TRY_id, render_close_img_span]
  obtain ⟨r1, h1, w1⟩ := render_optional_attribute_wrote entity_lookup r0 det.title hwf hfit
    "\" title=\"" r hf hm
  rw [h1, MD_HTML_TRY_zero, RENDER_VERBATIM_eq, IGNORE_RET_some]
  have hf1 : r1.flags = r0.flags := w1.1.trans hf
  have hbytes : cstr (if r1.flags &&& MD_HTML_FLAG_XHTML ≠ 0 then "\" />" else "\">")
      = (if r0.flags &&& MD_HTML_FLAG_XHTML ≠ 0 then cstr "\" />" else cstr "\">") := by
    rw [hf1]; split <;> rfl
  rw [hbytes]
  have w2 := wrote_verbatim r1
    (if r0.flags &&& MD_HTML_FLAG_XHTML ≠ 0 then cstr "\" />" else cstr "\">")
  have w := w1.trans w2
  refine ⟨_, ?_, w⟩
  have hlv : (emit r1 [if r0.flags &&& MD_HTML_FLAG_XHTML ≠ 0 then cstr "\" />"
      else cstr "\">"]).image_nesting_level = 1 := by
    rw [w.2.2.2.1, hlevel]
  rw [hlv]
  rfl

theorem plain_inline_wrote (cb : MD_HTML_CALLBACKS) (entity_lookup : EntityLookup)
    (r0 : MD_HTML) (inner : List MD_EVENT)
    (hplain : ∀ e ∈ inner, e.is_plain_inline = true)
    (hshort : ∀ e ∈ inner, short_buffer e.text_bytes = true) :
    ∀ (r : MD_HTML), r.image_nesting_level > 0 → r.flags = r0.flags →
      r.escape_map = r0.escape_map →
      ∃ r1, run_events cb entity_lookup inner r = some (0, r1) ∧
        Wrote r r1 (inner.flatMap (fun e => html_escaped r0 e.text_bytes)) := by
  induction inner with
  | nil => intro r _ _ _; exact ⟨r, rfl, Wrote.refl r⟩
  | cons e rest ih =>
    intro r hl hf hm
    have he := hplain e (List.mem_cons_self _ _)
    have hs := hshort e (List.mem_cons_self _ _)
    have hrest := ih (fun x hx => hplain x (List.mem_cons_of_mem _ hx))
      (fun x hx => hshort x (List.mem_cons_of_mem _ hx))
    have hstep : ∃ r1, handle_event cb entity_lookup e r = some (0, r1) ∧
        Wrote r r1 (html_escaped r0 e.text_bytes) := by
      cases e with
      | enter_span span =>
        exact ⟨r, by simp only [handle_event, enter_span_callback, hl, if_true],
          by simpa [MD_EVENT.text_bytes, html_escaped] using Wrote.refl r⟩
      | leave_span span =>
        refine ⟨r, ?_, by simpa [MD_EVENT.text_bytes, html_escaped] using Wrote.refl r⟩
        simp only [MD_EVENT.is_plain_inline, Bool.not_eq_true'] at he
        cases span <;> first
          | (simp only [handle_event, leave_span_callback, hl, if_true]; done)
          | (exfalso; simp [MD_SPAN.is_image] at he)
      | text type text =>
        cases type <;> first
          | exact emits_render_html_escaped r0 r text hs hf hm
          | (exfalso; simp [MD_EVENT.is_plain_inline] at he)
      | enter_block b => simp [MD_EVENT.is_plain_inline] at he
      | leave_block b => simp [MD_EVENT.is_plain_inline] at he
    obtain ⟨r1, h1, w1⟩ := hstep
    obtain ⟨r2, h2, w2⟩ := hrest r1 (by rw [w1.2.2.2.1]; exact hl) (w1.1.trans hf)
      (w1.2.1.trans hm)
    refine ⟨r2, ?_, by simpa [List.flatMap_cons] using w1.trans w2⟩
    simp only [run_events, h1, MD_HTML_TRY_zero, h2]

/-! ## The trace of the hook calls -/

theorem traced_quiet (r r1 : MD_HTML) (x : Option (Int × MD_HTML))
    (hx : x = some (0, r1)) (hc : r1.hook_calls = r.hook_calls) : Traced r x :=
  ⟨0, r1, [], hx, by simp [hc], fun i call h => by simp at h⟩

theorem traced_of_wrote (r : MD_HTML) (x : Option (Int × MD_HTML)) (bytes : List MD_CHAR)
    (h : ∃ r1, x = some (0, r1) ∧ Wrote r r1 bytes) : Traced r x := by
  obtain ⟨r1, h1, w⟩ := h
  exact traced_quiet r r1 x h1 w.2.2.1

theorem traced_shift (r r0 : MD_HTML) (x : Option (Int × MD_HTML))
    (hc : r.hook_calls = r0.hook_calls) (h : Traced r x) : Traced r0 x := by
  obtain ⟨ret, r1, new, h1, h2, h3⟩ := h
  exact ⟨ret, r1, new, h1, by rw [h2, hc], h3⟩

theorem traced_try (r : MD_HTML) (x : Option (Int × MD_HTML))
    (g : MD_HTML → Option (Int × MD_HTML)) (hx : Traced r x)
    (hg : ∀ r1, Traced r1 (g r1)) : Traced r (MD_HTML_TRY x g) := by
  obtain ⟨ret, r1, new1, h1, hc1, hl1⟩ := hx
  by_cases hret : ret = 0
  · subst hret
    obtain ⟨ret2, r2, new2, h2, hc2, hl2⟩ := hg r1
    refine ⟨ret2, r2, new1 ++ new2, ?_, ?_, ?_⟩
    · rw [h1, MD_HTML_TRY_zero, h2]
    · rw [hc2, hc1, List.append_assoc]
    · intro i call hi hne
      by_cases hlt : i < new1.length
      · rw [List.getElem?_append_left hlt] at hi
        exact absurd (hl1 i call hi hne).2.1.symm hne
      · rw [List.getElem?_append_right (by omega)] at hi
        obtain ⟨a, b, c⟩ := hl2 (i - new1.length) call hi hne
        exact ⟨by rw [List.length_append]; omega, b, c⟩
  · refine ⟨ret, r1, new1, ?_, hc1, hl1⟩
    rw [h1]
    simp [MD_HTML_TRY, hret]

theorem traced_ignore (r : MD_HTML) (s : String) (g : MD_HTML → Option (Int × MD_HTML))
    (hg : ∀ r1, Traced r1 (g r1)) : Traced r (IGNORE_RET (RENDER_VERBATIM r s) g) := by
  rw [RENDER_VERBATIM_eq, IGNORE_RET_some]
  exact traced_shift _ r _ rfl (hg _)

theorem traced_pure (r : MD_HTML) : Traced r (some (0, r)) :=
  traced_quiet r r _ rfl rfl

theorem hook_renders_spec (l : List (List MD_CHAR)) :
    ∀ r : MD_HTML, ∃ r1, hook_renders l r = some r1 ∧ r1.hook_calls = r.hook_calls := by
  induction l with
  | nil => intro r; exact ⟨r, rfl, rfl⟩
  | cons d rest ih =>
    intro r
    obtain ⟨chunks, hrun, _⟩ := render_url_escaped_spec r d
    obtain ⟨r1, h1, hc1⟩ := ih (emit r chunks)
    exact ⟨r1, by simp only [hook_renders, hrun, h1], hc1⟩

theorem traced_call_render_hook (kind : HookKind)
    (hook : MD_HTML → List MD_CHAR → HookResult) (r : MD_HTML) (data : List MD_CHAR) :
    Traced r (call_render_hook kind hook r data) := by
  obtain ⟨r1, h1, hc1⟩ := hook_renders_spec (hook r data).rendered r
  have hrun : call_render_hook kind hook r data
      = some ((hook r data).ret,
          { r1 with hook_calls := r1.hook_calls ++
              [{ hook := kind, data := data, ret := (hook r data).ret,
                 written := r1.output.length }] }) := by
    simp only [call_render_hook, h1]
  refine ⟨(hook r data).ret, _,
    [{ hook := kind, data := data, ret := (hook r data).ret, written := r1.output.length }],
    hrun, by simp only [hc1], ?_⟩
  intro i call hi hne
  have h0 : i = 0 := by
    by_contra hcon
    rw [List.getElem?_eq_none (by simp; omega)] at hi
    exact absurd hi (by simp)
  subst h0
  simp only [List.getElem?_cons_zero, Option.some.injEq] at hi
  subst hi
  exact ⟨rfl, rfl, rfl⟩

theorem traced_render_url_escaped (r : MD_HTML) (data : List MD_CHAR) :
    Traced r (render_url_escaped r data) :=
  traced_of_wrote r _ _ (emits_render_url_escaped r r data rfl rfl)

theorem traced_render_self_url_escaped (cb : MD_HTML_CALLBACKS) (r : MD_HTML)
    (data : List MD_CHAR) : Traced r (render_self_url_escaped cb r data) := by
  unfold render_self_url_escaped
  cases cb.render_self_link with
  | some hook => exact traced_call_render_hook _ hook r data
  | none =>
    obtain ⟨chunks, hrun, _⟩ := render_url_escaped_spec r data
    simp only [hrun, IGNORE_RET_some]
    exact traced_quiet r _ _ rfl rfl

theorem traced_render_codelink_url_escaped (cb : MD_HTML_CALLBACKS) (r : MD_HTML)
    (data : List MD_CHAR) : Traced r (render_codelink_url_escaped cb r data) := by
  unfold render_codelink_url_escaped
  cases cb.render_code_link with
  | some hook => exact traced_call_render_hook _ hook r data
  | none =>
    obtain ⟨chunks, hrun, _⟩ := render_url_escaped_spec r data
    simp only [hrun, IGNORE_RET_some]
    exact traced_quiet r _ _ rfl rfl

theorem traced_record_self_url (cb : MD_HTML_CALLBACKS) (r : MD_HTML)
    (data : List MD_CHAR) : Traced r (record_self_url cb r data) := by
  unfold record_self_url
  cases cb.record_self_link with
  | none => exact traced_pure r
  | some hook =>
    refine ⟨hook r data, _, [_], rfl, rfl, ?_⟩
    intro i call hi hne
    have h0 : i = 0 := by
      by_contra hcon
      rw [List.getElem?_eq_none (by simp; omega)] at hi
      exact absurd hi (by simp)
    subst h0
    simp only [List.getElem?_cons_zero, Option.some.injEq] at hi
    subst hi
    exact ⟨rfl, rfl, rfl⟩

theorem traced_render_entity (entity_lookup : EntityLookup) (fn_append : AppendFn)
    (hfn : ∀ r data, Traced r (fn_append r data)) (r : MD_HTML) (text : List MD_CHAR) :
    Traced r (render_entity entity_lookup r text fn_append) := by
  unfold render_entity
  simp only [MD_HTML_TRY_id, render_utf8_codepoint_eq]
  split
  · exact traced_quiet r _ _ rfl rfl
  split
  · exact hfn r _
  · cases entity_lookup text with
    | none => exact hfn r _
    | some ent =>
      show Traced r (MD_HTML_TRY (fn_append r (codepoint_bytes ent.1)) fun r =>
        if ent.2 ≠ 0 then fn_append r (codepoint_bytes ent.2) else some (0, r))
      apply traced_try r _ _ (hfn r _)
      intro r1
      split
      · exact hfn r1 _
      · exact traced_pure r1

theorem traced_render_substrs (entity_lookup : EntityLookup) (fn_append : AppendFn)
    (hfn : ∀ r data, Traced r (fn_append r data)) (l : List (MD_TEXTTYPE × List MD_CHAR)) :
    ∀ r : MD_HTML, Traced r (render_substrs entity_lookup fn_append l r) := by
  induction l with
  | nil => intro r; exact traced_pure r
  | cons s rest ih =>
    intro r
    rw [render_substrs_cons]
    apply traced_try r _ _ _ ih
    unfold render_substr
    cases s.1
    case MD_TEXT_NULLCHAR => exact traced_quiet r _ _ rfl rfl
    case MD_TEXT_ENTITY => exact traced_render_entity entity_lookup fn_append hfn r s.2
    all_goals exact hfn r s.2

theorem traced_render_attribute (entity_lookup : EntityLookup) (fn_append : AppendFn)
    (hfn : ∀ r data, Traced r (fn_append r data)) (attr : MD_ATTRIBUTE)
    (hwf : attr.well_formed = true) (r : MD_HTML) :
    Traced r (render_attribute entity_lookup r attr fn_append) := by
  rw [render_attribute_eq entity_lookup r attr fn_append hwf]
  exact traced_render_substrs entity_lookup fn_append hfn _ r

theorem traced_a_tail (entity_lookup : EntityLookup) (title : MD_ATTRIBUTE)
    (hwf : title.optional_well_formed = true) (hfit : title.html_fits = true) (r : MD_HTML) :
    Traced r (MD_HTML_TRY (render_optional_attribute entity_lookup r title "\" title=\"" none)
      fun r => IGNORE_RET (RENDER_VERBATIM r "\">") fun r => some (0, r)) := by
  apply traced_try
  · exact traced_of_wrote r _ _
      (render_optional_attribute_wrote entity_lookup r title hwf hfit _ r rfl rfl)
  · intro r1
    exact traced_ignore r1 _ _ traced_pure

/-- For every span event with well-formed attributes and whatever the hooks,
`enter_span_callback` returns, and a hook call that returned a nonzero code is
the last hook call, gives the code returned, and is followed by no output. -/
theorem traced_enter_span (cb : MD_HTML_CALLBACKS) (entity_lookup : EntityLookup)
    (span : MD_SPAN) (r : MD_HTML) (hwf : span.well_formed = true)
    (hfit : (MD_EVENT.enter_span span).html_fits = true) :
    Traced r (enter_span_callback cb entity_lookup span r) := by
  unfold enter_span_callback
  split
  · exact traced_pure r
  cases span with
  | MD_SPAN_A_CODELINK det =>
    simp only [MD_SPAN.well_formed, Bool.and_eq_true] at hwf
    simp only [render_open_a_codelink_span]
    apply traced_ignore
    intro r1
    apply traced_try
    · exact traced_render_attribute entity_lookup _
        (traced_render_codelink_url_escaped cb) det.href hwf.1 r1
    · intro r2
      exact traced_a_tail entity_lookup det.title hwf.2 hfit r2
  | MD_SPAN_A_SELF det =>
    simp only [MD_SPAN.well_formed, Bool.and_eq_true] at hwf
    simp only [render_open_a_self_span]
    apply traced_ignore
    intro r1
    apply traced_try
    · exact traced_render_attribute entity_lookup _
        (traced_render_self_url_escaped cb) det.href hwf.1 r1
    · intro r2
      apply traced_ignore
      intro r3
      apply traced_try
      · exact traced_render_attribute entity_lookup _
          (traced_render_self_url_escaped cb) det.href hwf.1 r3
      · intro r4
        apply traced_try
        · exact traced_render_attribute entity_lookup _
            (traced_record_self_url cb) det.href hwf.1 r4
        · intro r5
          exact traced_a_tail entity_lookup det.title hwf.2 hfit r5
  | MD_SPAN_IMG det =>
    simp only [MD_SPAN.well_formed, Bool.and_eq_true] at hwf
    simp only [render_open_img_span]
    apply traced_ignore
    intro r1
    apply traced_try
    · exact traced_render_attribute entity_lookup _ traced_render_url_escaped det.src hwf.1 r1
    · intro r2
      apply traced_ignore
      intro r3
      exact traced_quiet _ _ _ rfl rfl
  | MD_SPAN_A det =>
    simp only [MD_SPAN.well_formed, Bool.and_eq_true] at hwf
    simp only [render_open_a_span]
    apply traced_ignore
    intro r1
    apply traced_try
    · exact traced_render_attribute entity_lookup _ traced_render_url_escaped det.href hwf.1 r1
    · intro r2
      exact traced_a_tail entity_lookup det.title hwf.2 hfit r2
  | MD_SPAN_WIKILINK det =>
    simp only [MD_SPAN.well_formed] at hwf
    simp only [render_open_wikilink_span]
    apply traced_ignore
    intro r1
    apply traced_try
    · exact traced_of_wrote r1 _ _
        (render_attribute_html_wrote entity_lookup r1 det.target hwf hfit r1 rfl rfl)
    · intro r2
      exact traced_ignore r2 _ _ traced_pure
  | _ => exact traced_quiet r _ _ rfl rfl

/-! ## The conversion `%u` -/

theorem format_unsigned_loop_eq :
    ∀ (fuel n : Nat) (acc : List MD_CHAR), 0 < n → n < fuel →
      format_unsigned_loop fuel n acc
        = (Nat.digits 10 n).reverse.map (fun d => to_byte (0x30 + d)) ++ acc := by
  intro fuel
  induction fuel with
  | zero => intro n acc _ h; omega
  | succ k ih =>
    intro n acc hpos hlt
    rw [Nat.digits_def' (by decide) hpos]
    unfold format_unsigned_loop
    split
    · rename_i h0
      rw [h0]
      simp
    · rename_i h0
      rw [ih (n / 10) _ (by omega) (by omega)]
      simp

theorem format_unsigned_pos (n : Nat) (h : 0 < n) :
    format_unsigned n = (Nat.digits 10 n).reverse.map (fun d => to_byte (0x30 + d)) := by
  rw [format_unsigned, format_unsigned_loop_eq (n + 1) n [] h (by omega), List.append_nil]

theorem digit_char_facts : ∀ d, d < 10 →
    is_dec_digit (to_byte (0x30 + d)) = true ∧ digit_value (to_byte (0x30 + d)) = d ∧
      to_byte (0x30 + d) ≠ 0 ∧ (d ≠ 0 → to_byte (0x30 + d) ≠ 0x30) := by
  decide

set_option maxRecDepth 100000 in
/-- The digits written by `%u` are decimal digits that denote the number, with
no leading zero, and at most 10 of them for a 32-bit number. -/
theorem format_unsigned_spec (n : Nat) :
    (format_unsigned n).all is_dec_digit = true ∧
      denoted_number 10 (format_unsigned n) = n ∧
      format_unsigned n ≠ [] ∧
      (n ≠ 0 → (format_unsigned n).head? ≠ some 0x30) ∧
      (∀ ch ∈ format_unsigned n, ch ≠ 0) ∧
      (n < 2 ^ 32 → (format_unsigned n).length ≤ 10) := by
  by_cases h0 : n = 0
  · subst h0
    decide!
  have hpos : 0 < n := by omega
  have hd : ∀ d ∈ Nat.digits 10 n, d < 10 := fun d hd => Nat.digits_lt_base (by decide) hd
  rw [format_unsigned_pos n hpos]
  refine ⟨?_, ?_, ?_, ?_, ?_, ?_⟩
  · rw [List.all_eq_true]
    intro ch hch
    obtain ⟨d, hdm, rfl⟩ := List.mem_map.mp hch
    exact (digit_char_facts d (hd d (List.mem_reverse.mp hdm))).1
  · have hmap : (Nat.digits 10 n).map (fun d => digit_value (to_byte (0x30 + d)))
        = Nat.digits 10 n := by
      conv_rhs => rw [← List.map_id (Nat.digits 10 n)]
      apply List.map_congr_left
      intro d hdm
      exact (digit_char_facts d (hd d hdm)).2.1
    simp only [denoted_number, ← List.map_reverse, List.reverse_reverse, List.map_map,
      Function.comp_def]
    rw [hmap, Nat.ofDigits_digits]
  · simp [Nat.digits_ne_nil_iff_ne_zero.mpr h0]
  · intro _
    have hne : Nat.digits 10 n ≠ [] := Nat.digits_ne_nil_iff_ne_zero.mpr h0
    have hlast := Nat.getLast_digit_ne_zero 10 h0
    have hlt := hd _ (List.getLast_mem hne)
    rw [List.head?_map, List.head?_reverse, List.getLast?_eq_getLast _ hne]
    simp only [Option.map_some', ne_eq, Option.some.injEq]
    exact (digit_char_facts _ hlt).2.2.2 hlast
  · intro ch hch
    obtain ⟨d, hdm, rfl⟩ := List.mem_map.mp hch
    exact (digit_char_facts d (hd d (List.mem_reverse.mp hdm))).2.2.1
  · intro hlt
    have h1 := Nat.base_pow_length_digits_le 10 n (by decide) h0
    simp only [List.length_map, List.length_reverse]
    by_contra hcon
    have h2 : 10 ^ 11 ≤ 10 ^ (Nat.digits 10 n).length :=
      Nat.pow_le_pow_right (by decide) (by omega)
    have h3 : (10 : Nat) ^ 11 = 100000000000 := by norm_num
    have h4 : (2 : Nat) ^ 32 = 4294967296 := by norm_num
    omega

theorem c_string_of_no_nul (l : List MD_CHAR) (h : ∀ ch ∈ l, ch ≠ 0) : c_string l = l := by
  unfold c_string
  rw [List.takeWhile_eq_self_iff]
  intro ch hch
  simpa using h ch hch

set_option maxRecDepth 100000 in
/-- For a 32-bit start number other than 1, `render_open_ol_block` writes one
chunk: the opening of the tag, the digits of `%u`, and the closing. -/
theorem render_open_ol_block_eq (r : MD_HTML) (start : Nat) (h32 : start < 2 ^ 32)
    (h1 : start ≠ 1) :
    render_open_ol_block r { start := start }
      = some (0, emit r [cstr "<ol start=\"" ++ format_unsigned start ++ cstr "\">\n"]) := by
  obtain ⟨hdig, _, _, _, hnul, hlen⟩ := format_unsigned_spec start
  have hfit : snprintf_ol_start 64 start
      = cstr "<ol start=\"" ++ format_unsigned start ++ cstr "\">\n" := by
    unfold snprintf_ol_start
    apply List.take_of_length_le
    have := hlen h32
    simp only [List.length_append]
    have e1 : (cstr "<ol start=\"").length = 11 := by decide
    have e2 : (cstr "\">\n").length = 3 := by decide
    omega
  have hstr : c_string (cstr "<ol start=\"" ++ format_unsigned start ++ cstr "\">\n")
      = cstr "<ol start=\"" ++ format_unsigned start ++ cstr "\">\n" := by
    apply c_string_of_no_nul
    intro ch hch
    simp only [List.mem_append] at hch
    rcases hch with (h | h) | h
    · revert ch; decide!
    · exact hnul ch h
    · revert ch; decide!
  simp only [render_open_ol_block, h1, if_false, hfit, hstr, render_verbatim_eq, IGNORE_RET_some]

/-! ## Coverage of the attribute text, and the first failure -/

theorem render_substrs_append (entity_lookup : EntityLookup) (fn_append : AppendFn)
    (a b : List (MD_TEXTTYPE × List MD_CHAR)) (r : MD_HTML) :
    render_substrs entity_lookup fn_append (a ++ b) r
      = MD_HTML_TRY (render_substrs entity_lookup fn_append a r)
          (render_substrs entity_lookup fn_append b) := by
  induction a generalizing r with
  | nil => simp [render_substrs, MD_HTML_TRY]
  | cons s rest ih =>
    rw [List.cons_append, render_substrs_cons, render_substrs_cons]
    cases render_substr entity_lookup fn_append r s with
    | none => rfl
    | some p =>
      obtain ⟨ret, r1⟩ := p
      by_cases hret : ret = 0
      · subst hret
        simp only [MD_HTML_TRY_zero, ih]
      · simp [MD_HTML_TRY, hret]

theorem render_substrs_first_failure (entity_lookup : EntityLookup) (fn_append : AppendFn)
    (pre post : List (MD_TEXTTYPE × List MD_CHAR)) (s : MD_TEXTTYPE × List MD_CHAR)
    (r r1 r2 : MD_HTML) (c : Int)
    (hpre : render_substrs entity_lookup fn_append pre r = some (0, r1))
    (hs : render_substr entity_lookup fn_append r1 s = some (c, r2)) (hc : c ≠ 0) :
    render_substrs entity_lookup fn_append (pre ++ s :: post) r = some (c, r2) := by
  rw [render_substrs_append, hpre, MD_HTML_TRY_zero, render_substrs_cons, hs]
  simp [MD_HTML_TRY, hc]

theorem processed_cover_from (attr : MD_ATTRIBUTE) (h : attr.well_formed = true) :
    ∀ (m i : Nat), i + m = attr.substr_types.length →
      ((((List.range' i m).filter
          (fun j => attr.substr_offsets.getD j 0 < attr.size)).map attr.substr).map
            Prod.snd).flatten
        = (attr.text.getD []).drop (attr.substr_offsets.getD i 0) := by
  have hw := (well_formed_iff attr).mp h
  intro m
  induction m with
  | zero =>
    intro i hi
    have : i = attr.substr_types.length := by omega
    rw [this, hw.2.2.2.2, ← hw.1]
    simp
  | succ k ih =>
    intro i hi
    rw [List.range'_succ]
    have hstep := hw.2.2.2.1 i (by omega)
    have hrest := ih (i + 1) (by omega)
    by_cases hlt : attr.substr_offsets.getD i 0 < attr.size
    · rw [List.filter_cons_of_pos (by simpa using hlt)]
      simp only [List.map_cons, List.flatten_cons]
      rw [hrest]
      exact (drop_eq_slice_append _ _ _ hstep).symm
    · rw [List.filter_cons_of_neg (by simpa using hlt), hrest]
      rw [List.drop_eq_nil_of_le (by rw [hw.1]; omega),
        List.drop_eq_nil_of_le (by rw [hw.1]; omega)]

theorem processed_substrs_cover (attr : MD_ATTRIBUTE) (h : attr.well_formed = true) :
    (attr.processed_substrs.map Prod.snd).flatten = attr.text.getD [] := by
  have hw := (well_formed_iff attr).mp h
  have := processed_cover_from attr h attr.substr_types.length 0 (by omega)
  rw [hw.2.2.1, List.drop_zero] at this
  rw [MD_ATTRIBUTE.processed_substrs, List.range_eq_range']
  exact this

/-! ## The naive HTML escaper -/

theorem keeps_pure (r : MD_HTML) (ret : Int) : KeepsLevel r (some (ret, r)) :=
  ⟨ret, r, rfl, rfl⟩

theorem keeps_shift (r r0 : MD_HTML) (x : Option (Int × MD_HTML))
    (hl : r.image_nesting_level = r0.image_nesting_level) (h : KeepsLevel r x) :
    KeepsLevel r0 x := by
  obtain ⟨ret, r1, h1, h2⟩ := h
  exact ⟨ret, r1, h1, h2.trans hl⟩

theorem keeps_of_wrote (r : MD_HTML) (x : Option (Int × MD_HTML)) (bytes : List MD_CHAR)
    (h : ∃ r1, x = some (0, r1) ∧ Wrote r r1 bytes) : KeepsLevel r x := by
  obtain ⟨r1, h1, w⟩ := h
  exact ⟨0, r1, h1, w.2.2.2.1⟩

theorem keeps_try (r : MD_HTML) (x : Option (Int × MD_HTML))
    (g : MD_HTML → Option (Int × MD_HTML)) (hx : KeepsLevel r x)
    (hg : ∀ r1, KeepsLevel r1 (g r1)) : KeepsLevel r (MD_HTML_TRY x g) := by
  obtain ⟨ret, r1, h1, hl1⟩ := hx
  by_cases hret : ret = 0
  · subst hret
    rw [h1, MD_HTML_TRY_zero]
    exact keeps_shift r1 r _ hl1 (hg r1)
  · refine ⟨ret, r1, ?_, hl1⟩
    rw [h1]
    simp [MD_HTML_TRY, hret]

theorem keeps_ignore (r : MD_HTML) (s : String) (g : MD_HTML → Option (Int × MD_HTML))
    (hg : ∀ r1, KeepsLevel r1 (g r1)) : KeepsLevel r (IGNORE_RET (RENDER_VERBATIM r s) g) := by
  rw [RENDER_VERBATIM_eq, IGNORE_RET_some]
  exact keeps_shift _ r _ rfl (hg _)

theorem keeps_verbatim (r : MD_HTML) (s : String) :
    KeepsLevel r (IGNORE_RET (RENDER_VERBATIM r s) fun r => some (0, r)) :=
  keeps_ignore r s _ fun r1 => keeps_pure r1 0

theorem hook_renders_level (l : List (List MD_CHAR)) :
    ∀ r : MD_HTML, ∃ r1, hook_renders l r = some r1 ∧
      r1.image_nesting_level = r.image_nesting_level := by
  induction l with
  | nil => intro r; exact ⟨r, rfl, rfl⟩
  | cons d rest ih =>
    intro r
    obtain ⟨chunks, hrun, _⟩ := render_url_escaped_spec r d
    obtain ⟨r1, h1, hl1⟩ := ih (emit r chunks)
    exact ⟨r1, by simp only [hook_renders, hrun, h1], hl1⟩

theorem keeps_call_render_hook (kind : HookKind)
    (hook : MD_HTML → List MD_CHAR → HookResult) (r : MD_HTML) (data : List MD_CHAR) :
    KeepsLevel r (call_render_hook kind hook r data) := by
  obtain ⟨r1, h1, hl1⟩ := hook_renders_level (hook r data).rendered r
  exact ⟨(hook r data).ret,
    { r1 with hook_calls := r1.hook_calls ++
        [{ hook := kind, data := data, ret := (hook r data).ret,
           written := r1.output.length }] },
    by simp only [call_render_hook, h1], hl1⟩

theorem keeps_render_url_escaped (r : MD_HTML) (data : List MD_CHAR) :
    KeepsLevel r (render_url_escaped r data) :=
  keeps_of_wrote r _ _ (emits_render_url_escaped r r data rfl rfl)

theorem keeps_render_html_escaped (r : MD_HTML) (data : List MD_CHAR)
    (hfit : short_buffer data = true) : KeepsLevel r (render_html_escaped r data) :=
  keeps_of_wrote r _ _ (emits_render_html_escaped r r data hfit rfl rfl)

theorem keeps_render_self_url_escaped (cb : MD_HTML_CALLBACKS) (r : MD_HTML)
    (data : List MD_CHAR) : KeepsLevel r (render_self_url_escaped cb r data) := by
  unfold render_self_url_escaped
  cases cb.render_self_link with
  | some hook => exact keeps_call_render_hook _ hook r data
  | none =>
    obtain ⟨chunks, hrun, _⟩ := render_url_escaped_spec r data
    simp only [hrun, IGNORE_RET_some]
    exact ⟨0, _, rfl, rfl⟩

theorem keeps_render_codelink_url_escaped (cb : MD_HTML_CALLBACKS) (r : MD_HTML)
    (data : List MD_CHAR) : KeepsLevel r (render_codelink_url_escaped cb r data) := by
  unfold render_codelink_url_escaped
  cases cb.render_code_link with
  | some hook => exact keeps_call_render_hook _ hook r data
  | none =>
    obtain ⟨chunks, hrun, _⟩ := render_url_escaped_spec r data
    simp only [hrun, IGNORE_RET_some]
    exact ⟨0, _, rfl, rfl⟩

theorem keeps_record_self_url (cb : MD_HTML_CALLBACKS) (r : MD_HTML)
    (data : List MD_CHAR) : KeepsLevel r (record_self_url cb r data) := by
  unfold record_self_url
  cases cb.record_self_link with
  | none => exact keeps_pure r 0
  | some hook => exact ⟨hook r data, _, rfl, rfl⟩

theorem keeps_render_entity (entity_lookup : EntityLookup) (fn_append : AppendFn)
    (hfn : ∀ r data, KeepsLevel r (fn_append r data)) (r : MD_HTML) (text : List MD_CHAR) :
    KeepsLevel r (render_entity entity_lookup r text fn_append) := by
  unfold render_entity
  simp only [MD_HTML_TRY_id, render_utf8_codepoint_eq]
  split
  · exact ⟨0, _, rfl, rfl⟩
  split
  · exact hfn r _
  · cases entity_lookup text with
    | none => exact hfn r _
    | some ent =>
      show KeepsLevel r (MD_HTML_TRY (fn_append r (codepoint_bytes ent.1)) fun r =>
        if ent.2 ≠ 0 then fn_append r (codepoint_bytes ent.2) else some (0, r))
      apply keeps_try r _ _ (hfn r _)
      intro r1
      split
      · exact hfn r1 _
      · exact keeps_pure r1 0

theorem keeps_render_substrs (entity_lookup : EntityLookup) (fn_append : AppendFn)
    (hfn : ∀ r data, KeepsLevel r (fn_append r data))
    (l : List (MD_TEXTTYPE × List MD_CHAR)) :
    ∀ r : MD_HTML, KeepsLevel r (render_substrs entity_lookup fn_append l r) := by
  induction l with
  | nil => intro r; exact keeps_pure r 0
  | cons s rest ih =>
    intro r
    rw [render_substrs_cons]
    apply keeps_try r _ _ _ ih
    unfold render_substr
    cases s.1
    case MD_TEXT_NULLCHAR => exact ⟨0, _, rfl, rfl⟩
    case MD_TEXT_ENTITY => exact keeps_render_entity entity_lookup fn_append hfn r s.2
    all_goals exact hfn r s.2

theorem keeps_render_attribute (entity_lookup : EntityLookup) (fn_append : AppendFn)
    (hfn : ∀ r data, KeepsLevel r (fn_append r data)) (attr : MD_ATTRIBUTE)
    (hwf : attr.well_formed = true) (r : MD_HTML) :
    KeepsLevel r (render_attribute entity_lookup r attr fn_append) := by
  rw [render_attribute_eq entity_lookup r attr fn_append hwf]
  exact keeps_render_substrs entity_lookup fn_append hfn _ r

theorem keeps_render_optional_attribute (entity_lookup : EntityLookup)
    (attr : MD_ATTRIBUTE) (hwf : attr.optional_well_formed = true)
    (hfit : attr.html_fits = true) (opening : String) (closing : Option String) (r : MD_HTML) :
    KeepsLevel r (render_optional_attribute entity_lookup r attr opening closing) := by
  unfold render_optional_attribute
  split
  · rename_i hne
    have hw : attr.well_formed = true := by
      simp only [MD_ATTRIBUTE.optional_well_formed, Bool.or_eq_true, Option.isNone_iff_eq_none]
        at hwf
      rcases hwf with h | h
      · exact absurd h hne
      · exact h
    apply keeps_ignore
    intro r1
    apply keeps_try
    · exact keeps_of_wrote r1 _ _
        (render_attribute_html_wrote entity_lookup r1 attr hw hfit r1 rfl rfl)
    · intro r2
      cases closing with
      | none => exact keeps_pure r2 0
      | some s => exact keeps_verbatim r2 s
  · exact keeps_pure r 0

theorem keeps_a_tail (entity_lookup : EntityLookup) (title : MD_ATTRIBUTE)
    (hwf : title.optional_well_formed = true) (hfit : title.html_fits = true) (r : MD_HTML) :
    KeepsLevel r
      (MD_HTML_TRY (render_optional_attribute entity_lookup r title "\" title=\"" none)
        fun r => IGNORE_RET (RENDER_VERBATIM r "\">") fun r => some (0, r)) := by
  apply keeps_try
  · exact keeps_render_optional_attribute entity_lookup title hwf hfit _ _ r
  · intro r1
    exact keeps_verbatim r1 _

theorem keeps_enter_block (entity_lookup : EntityLookup) (block : MD_BLOCK) (r : MD_HTML)
    (hwf : block.well_formed = true) (hfit : block.html_fits = true) :
    KeepsLevel r (enter_block_callback entity_lookup block r) := by
  cases block with
  | MD_BLOCK_OL det =>
    simp only [enter_block_callback, render_open_ol_block]
    split
    · exact ⟨_, _, rfl, rfl⟩
    · exact ⟨_, _, rfl, rfl⟩
  | MD_BLOCK_LI det =>
    simp only [enter_block_callback, render_open_li_block]
    split
    · split
      · exact ⟨_, _, rfl, rfl⟩
      · exact ⟨_, _, rfl, rfl⟩
    · exact ⟨_, _, rfl, rfl⟩
  | MD_BLOCK_H det =>
    simp only [MD_BLOCK.well_formed, decide_eq_true_eq] at hwf
    have hl : det.level = 1 ∨ det.level = 2 ∨ det.level = 3 ∨ det.level = 4 ∨ det.level = 5
        ∨ det.level = 6 := by omega
    simp only [enter_block_callback, render_head]
    rcases hl with h | h | h | h | h | h <;> rw [h] <;> exact ⟨_, _, rfl, rfl⟩
  | MD_BLOCK_CODE det =>
    simp only [MD_BLOCK.well_formed] at hwf
    simp only [enter_block_callback, render_open_code_block]
    apply keeps_ignore
    intro r1
    apply keeps_try
    · exact keeps_render_optional_attribute entity_lookup det.lang hwf hfit _ _ r1
    · intro r2
      exact keeps_verbatim r2 _
  | MD_BLOCK_TH det =>
    simp only [enter_block_callback, render_open_td_block]
    cases det.align <;> exact ⟨_, _, rfl, rfl⟩
  | MD_BLOCK_TD det =>
    simp only [enter_block_callback, render_open_td_block]
    cases det.align <;> exact ⟨_, _, rfl, rfl⟩
  | MD_BLOCK_HR =>
    simp only [enter_block_callback]
    split <;> exact ⟨_, _, rfl, rfl⟩
  | _ => exact ⟨_, _, rfl, rfl⟩

theorem keeps_leave_block (block : MD_BLOCK) (r : MD_HTML)
    (hwf : block.well_formed = true) :
    KeepsLevel r (leave_block_callback block r) := by
  cases block with
  | MD_BLOCK_H det =>
    simp only [MD_BLOCK.well_formed, decide_eq_true_eq] at hwf
    have hl : det.level = 1 ∨ det.level = 2 ∨ det.level = 3 ∨ det.level = 4 ∨ det.level = 5
        ∨ det.level = 6 := by omega
    simp only [leave_block_callback, render_head]
    rcases hl with h | h | h | h | h | h <;> rw [h] <;> exact ⟨_, _, rfl, rfl⟩
  | _ => exact ⟨_, _, rfl, rfl⟩

theorem keeps_text (entity_lookup : EntityLookup) (type : MD_TEXTTYPE) (text : List MD_CHAR)
    (r : MD_HTML) (hfit : (MD_EVENT.text type text).html_fits = true) :
    KeepsLevel r (text_callback entity_lookup type text r) := by
  cases type
  case MD_TEXT_NULLCHAR => exact ⟨_, _, rfl, rfl⟩
  case MD_TEXT_BR => exact ⟨_, _, rfl, rfl⟩
  case MD_TEXT_SOFTBR => exact ⟨_, _, rfl, rfl⟩
  case MD_TEXT_HTML => exact ⟨_, _, rfl, rfl⟩
  case MD_TEXT_ENTITY =>
    exact keeps_of_wrote r _ _
      (render_entity_wrote_on _ entity_lookup _ r _ (emits_render_html_escaped r)
        short_codepoint_bytes r text hfit rfl rfl)
  all_goals exact keeps_render_html_escaped r text hfit

/-- A span enter other than an image enter at level 0 or below keeps the image
nesting level, whatever the hooks. -/
theorem keeps_enter_span (cb : MD_HTML_CALLBACKS) (entity_lookup : EntityLookup)
    (span : MD_SPAN) (r : MD_HTML) (hwf : span.well_formed = true)
    (hfit : (MD_EVENT.enter_span span).html_fits = true)
    (hno : span.is_image = false ∨ r.image_nesting_level > 0) :
    KeepsLevel r (enter_span_callback cb entity_lookup span r) := by
  unfold enter_span_callback
  split
  · exact keeps_pure r 0
  rename_i hlev
  cases span with
  | MD_SPAN_A_CODELINK det =>
    simp only [MD_SPAN.well_formed, Bool.and_eq_true] at hwf
    simp only [render_open_a_codelink_span]
    apply keeps_ignore
    intro r1
    apply keeps_try
    · exact keeps_render_attribute entity_lookup _
        (keeps_render_codelink_url_escaped cb) det.href hwf.1 r1
    · intro r2
      exact keeps_a_tail entity_lookup det.title hwf.2 hfit r2
  | MD_SPAN_A_SELF det =>
    simp only [MD_SPAN.well_formed, Bool.and_eq_true] at hwf
    simp only [render_open_a_self_span]
    apply keeps_ignore
    intro r1
    apply keeps_try
    · exact keeps_render_attribute entity_lookup _
        (keeps_render_self_url_escaped cb) det.href hwf.1 r1
    · intro r2
      apply keeps_ignore
      intro r3
      apply keeps_try
      · exact keeps_render_attribute entity_lookup _
          (keeps_render_self_url_escaped cb) det.href hwf.1 r3
      · intro r4
        apply keeps_try
        · exact keeps_render_attribute entity_lookup _
            (keeps_record_self_url cb) det.href hwf.1 r4
        · intro r5
          exact keeps_a_tail entity_lookup det.title hwf.2 hfit r5
  | MD_SPAN_IMG det =>
    rcases hno with h | h
    · simp [MD_SPAN.is_image] at h
    · exact absurd h hlev
  | MD_SPAN_A det =>
    simp only [MD_SPAN.well_formed, Bool.and_eq_true] at hwf
    simp only [render_open_a_span]
    apply keeps_ignore
    intro r1
    apply keeps_try
    · exact keeps_render_attribute entity_lookup _ keeps_render_url_escaped det.href hwf.1 r1
    · intro r2
      exact keeps_a_tail entity_lookup det.title hwf.2 hfit r2
  | MD_SPAN_WIKILINK det =>
    simp only [MD_SPAN.well_formed] at hwf
    simp only [render_open_wikilink_span]
    apply keeps_ignore
    intro r1
    apply keeps_try
    · exact keeps_of_wrote r1 _ _
        (render_attribute_html_wrote entity_lookup r1 det.target hwf hfit r1 rfl rfl)
    · intro r2
      exact keeps_verbatim r2 _
  | _ => exact ⟨_, _, rfl, rfl⟩

/-- A span leave other than an image leave at level 1 keeps the image nesting
level. -/
theorem keeps_leave_span (entity_lookup : EntityLookup) (span : MD_SPAN) (r : MD_HTML)
    (hno : span.is_image = false ∨ r.image_nesting_level ≠ 1) :
    KeepsLevel r (leave_span_callback entity_lookup span r) := by
  unfold leave_span_callback
  split
  · cases span with
    | MD_SPAN_IMG det =>
      simp only []
      split
      · rename_i h1
        rcases hno with h | h
        · simp [MD_SPAN.is_image] at h
        · exact absurd h1 h
      · exact keeps_pure r 0
    | _ => exact keeps_pure r 0
  · cases span <;> exact ⟨_, _, rfl, rfl⟩

/-- The step of the image nesting level: every handler returns on a well-formed
event whose texts have fewer than `2 ^ 32 - 3` bytes, and from a level that is
0 or 1 the level afterwards is the one `MD_EVENT.level_after` describes, again
0 or 1. -/
theorem level_step (cb : MD_HTML_CALLBACKS) (entity_lookup : EntityLookup)
    (event : MD_EVENT) (r : MD_HTML) (hwf : event.well_formed = true)
    (hfit : event.html_fits = true)
    (hlevel : r.image_nesting_level = 0 ∨ r.image_nesting_level = 1) :
    ∃ ret r1, handle_event cb entity_lookup event r = some (ret, r1) ∧
      r1.image_nesting_level = event.level_after r.image_nesting_level ∧
      (r1.image_nesting_level = 0 ∨ r1.image_nesting_level = 1) := by
  have hkeep : ∀ x, KeepsLevel r x → event.level_after r.image_nesting_level
      = r.image_nesting_level →
      ∃ ret r1, x = some (ret, r1) ∧
        r1.image_nesting_level = event.level_after r.image_nesting_level ∧
        (r1.image_nesting_level = 0 ∨ r1.image_nesting_level = 1) := by
    intro x hx he
    obtain ⟨ret, r1, h1, hl1⟩ := hx
    exact ⟨ret, r1, h1, by rw [he, hl1], by rw [hl1]; exact hlevel⟩
  cases event with
  | enter_block block =>
    exact hkeep _ (keeps_enter_block entity_lookup block r hwf hfit) rfl
  | leave_block block =>
    exact hkeep _ (keeps_leave_block block r hwf) rfl
  | text type text =>
    exact hkeep _ (keeps_text entity_lookup type text r hfit) rfl
  | enter_span span =>
    have hs : span.well_formed = true := hwf
    by_cases himg : span.is_image = true
    · cases span with
      | MD_SPAN_IMG det =>
        simp only [MD_EVENT.well_formed, MD_SPAN.well_formed, Bool.and_eq_true] at hwf
        rcases hlevel with h0 | h1
        · obtain ⟨r1, hrun, _⟩ := enter_img_wrote cb entity_lookup r det h0 hwf.1
          refine ⟨0, _, hrun, ?_, Or.inr rfl⟩
          simp [MD_EVENT.level_after, h0]
        · exact hkeep (handle_event cb entity_lookup (.enter_span (.MD_SPAN_IMG det)) r)
            (keeps_enter_span cb entity_lookup (.MD_SPAN_IMG det) r hs hfit
              (Or.inr (by rw [h1]; decide)))
            (by simp [MD_EVENT.level_after, h1])
      | _ => simp [MD_SPAN.is_image] at himg
    · have hf : span.is_image = false := by simpa using himg
      refine hkeep (handle_event cb entity_lookup (.enter_span span) r)
        (keeps_enter_span cb entity_lookup span r hs hfit (Or.inl hf)) ?_
      cases span <;> first | rfl | simp [MD_SPAN.is_image] at hf
  | leave_span span =>
    by_cases himg : span.is_image = true
    · cases span with
      | MD_SPAN_IMG det =>
        simp only [MD_EVENT.well_formed, MD_SPAN.well_formed, Bool.and_eq_true] at hwf
        rcases hlevel with h0 | h1
        · exact hkeep (handle_event cb entity_lookup (.leave_span (.MD_SPAN_IMG det)) r)
            (keeps_leave_span entity_lookup (.MD_SPAN_IMG det) r (Or.inr (by rw [h0]; decide)))
            (by simp [MD_EVENT.level_after, h0])
        · obtain ⟨r1, hrun, _⟩ :=
            leave_img_wrote entity_lookup r r det h1 rfl rfl hwf.2 hfit
          refine ⟨0, _, hrun, ?_, Or.inl rfl⟩
          simp [MD_EVENT.level_after, h1]
      | _ => simp [MD_SPAN.is_image] at himg
    · have hf : span.is_image = false := by simpa using himg
      refine hkeep (handle_event cb entity_lookup (.leave_span span) r)
        (keeps_leave_span entity_lookup span r (Or.inl hf)) ?_
      cases span <;> first | rfl | simp [MD_SPAN.is_image] at hf

/-- From level 0 or 1, a run over well-formed events whose texts have fewer
than `2 ^ 32 - 3` bytes returns, at level 0 or 1. -/
theorem run_events_level (cb : MD_HTML_CALLBACKS) (entity_lookup : EntityLookup)
    (events : List MD_EVENT) (hwf : ∀ e ∈ events, e.well_formed = true)
    (hfit : ∀ e ∈ events, e.html_fits = true) :
    ∀ r : MD_HTML, (r.image_nesting_level = 0 ∨ r.image_nesting_level = 1) →
      ∃ ret r1, run_events cb entity_lookup events r = some (ret, r1) ∧
        (r1.image_nesting_level = 0 ∨ r1.image_nesting_level = 1) := by
  induction events with
  | nil => intro r hl; exact ⟨0, r, rfl, hl⟩
  | cons e rest ih =>
    intro r hl
    obtain ⟨ret, r1, h1, _, hl1⟩ :=
      level_step cb entity_lookup e r (hwf e (List.mem_cons_self _ _))
        (hfit e (List.mem_cons_self _ _)) hl
    by_cases hret : ret = 0
    · subst hret
      obtain ⟨ret2, r2, h2, hl2⟩ := ih (fun e he => hwf e (List.mem_cons_of_mem _ he))
        (fun e he => hfit e (List.mem_cons_of_mem _ he)) r1 hl1
      exact ⟨ret2, r2, by simp only [run_events, h1, MD_HTML_TRY_zero, h2], hl2⟩
    · exact ⟨ret, r1, by simp [run_events, h1, MD_HTML_TRY, hret], hl1⟩

/-! ## The image nesting level of a handler that returns -/

theorem kept_of_keeps (r : MD_HTML) (x : Option (Int × MD_HTML)) (h : KeepsLevel r x) :
    LevelKept r x := by
  obtain ⟨ret, r1, h1, hl⟩ := h
  intro ret2 r2 h2
  rw [h1] at h2
  cases h2
  exact hl

theorem kept_none (r : MD_HTML) : LevelKept r none := by
  intro ret r1 h; cases h

theorem kept_pure (r : MD_HTML) (ret : Int) : LevelKept r (some (ret, r)) :=
  kept_of_keeps r _ (keeps_pure r ret)

theorem kept_shift (r r0 : MD_HTML) (x : Option (Int × MD_HTML))
    (hl : r.image_nesting_level = r0.image_nesting_level) (h : LevelKept r x) :
    LevelKept r0 x :=
  fun ret r1 h1 => (h ret r1 h1).trans hl

theorem kept_try (r : MD_HTML) (x : Option (Int × MD_HTML))
    (g : MD_HTML → Option (Int × MD_HTML)) (hx : LevelKept r x)
    (hg : ∀ r1, LevelKept r1 (g r1)) : LevelKept r (MD_HTML_TRY x g) := by
  cases x with
  | none => exact kept_none r
  | some p =>
    obtain ⟨ret, r1⟩ := p
    have hl1 := hx ret r1 rfl
    by_cases hret : ret = 0
    · subst hret
      rw [MD_HTML_TRY_zero]
      exact kept_shift r1 r _ hl1 (hg r1)
    · have : MD_HTML_TRY (some (ret, r1)) g = some (ret, r1) := by simp [MD_HTML_TRY, hret]
      rw [this]
      intro ret2 r2 h2
      cases h2
      exact hl1

theorem kept_ignore (r : MD_HTML) (x : Option (Int × MD_HTML))
    (g : MD_HTML → Option (Int × MD_HTML)) (hx : LevelKept r x)
    (hg : ∀ r1, LevelKept r1 (g r1)) : LevelKept r (IGNORE_RET x g) := by
  cases x with
  | none => exact kept_none r
  | some p =>
    obtain ⟨ret, r1⟩ := p
    rw [IGNORE_RET_some]
    exact kept_shift r1 r _ (hx ret r1 rfl) (hg r1)

theorem kept_render_verbatim (r : MD_HTML) (text : List MD_CHAR) :
    LevelKept r (render_verbatim r text) :=
  kept_of_keeps r _ ⟨0, _, rfl, rfl⟩

theorem kept_RENDER_VERBATIM (r : MD_HTML) (s : String) : LevelKept r (RENDER_VERBATIM r s) :=
  kept_render_verbatim r _

theorem kept_verbatim_then (r : MD_HTML) (s : String) (g : MD_HTML → Option (Int × MD_HTML))
    (hg : ∀ r1, LevelKept r1 (g r1)) : LevelKept r (IGNORE_RET (RENDER_VERBATIM r s) g) :=
  kept_ignore r _ g (kept_RENDER_VERBATIM r s) hg

theorem kept_html_escape_switch (r : MD_HTML) (ch : MD_CHAR) :
    LevelKept r (html_escape_switch r ch) := by
  unfold html_escape_switch
  split_ifs
  · exact kept_RENDER_VERBATIM r _
  · exact kept_RENDER_VERBATIM r _
  · exact kept_RENDER_VERBATIM r _
  · exact kept_RENDER_VERBATIM r _
  · exact kept_pure r 0

/-- Whatever the size of the buffer, a call of `render_html_escaped` that
returns leaves the image nesting level as it was. -/
theorem kept_render_html_escaped_loop (data : List MD_CHAR) :
    ∀ (fuel : Nat) (r : MD_HTML) (beg off : Nat),
      LevelKept r (render_html_escaped_loop data fuel r beg off) := by
  intro fuel
  induction fuel with
  | zero => intro r beg off; exact kept_none r
  | succ n ih =>
    intro r beg off
    unfold render_html_escaped_loop
    split
    · exact kept_none r
    · split
      · exact kept_none r
      · apply kept_try
        · split
          · exact kept_render_verbatim r _
          · exact kept_pure r 0
        · intro r1
          split
          · exact kept_ignore r1 _ _ (kept_html_escape_switch r1 _) (fun r2 => ih r2 _ _)
          · exact kept_pure r1 0

theorem kept_render_html_escaped (r : MD_HTML) (data : List MD_CHAR) :
    LevelKept r (render_html_escaped r data) :=
  kept_render_html_escaped_loop data _ r 0 0

theorem kept_render_entity (entity_lookup : EntityLookup) (fn_append : AppendFn)
    (hfn : ∀ r data, LevelKept r (fn_append r data)) (r : MD_HTML) (text : List MD_CHAR) :
    LevelKept r (render_entity entity_lookup r text fn_append) := by
  unfold render_entity
  simp only [MD_HTML_TRY_id, render_utf8_codepoint_eq]
  split
  · exact kept_render_verbatim r text
  split
  · exact hfn r _
  · cases entity_lookup text with
    | none => exact hfn r _
    | some ent =>
      show LevelKept r (MD_HTML_TRY (fn_append r (codepoint_bytes ent.1)) fun r =>
        if ent.2 ≠ 0 then fn_append r (codepoint_bytes ent.2) else some (0, r))
      apply kept_try r _ _ (hfn r _)
      intro r1
      split
      · exact hfn r1 _
      · exact kept_pure r1 0

theorem kept_render_attribute_loop (entity_lookup : EntityLookup) (attr : MD_ATTRIBUTE)
    (fn_append : AppendFn) (hfn : ∀ r data, LevelKept r (fn_append r data)) :
    ∀ (fuel i : Nat) (r : MD_HTML),
      LevelKept r (render_attribute_loop entity_lookup attr fn_append fuel i r) := by
  intro fuel
  induction fuel with
  | zero => intro i r; exact kept_none r
  | succ n ih =>
    intro i r
    unfold render_attribute_loop
    split
    · exact kept_none r
    · split
      · split
        · rename_i type next _ _
          apply kept_try r _ _ _ (fun r1 => ih (i + 1) r1)
          cases type
          case MD_TEXT_NULLCHAR => exact kept_of_keeps r _ ⟨0, _, rfl, rfl⟩
          case MD_TEXT_ENTITY => exact kept_render_entity entity_lookup fn_append hfn r _
          all_goals exact hfn r _
        · exact kept_none r
      · exact kept_pure r 0

theorem kept_render_attribute (entity_lookup : EntityLookup) (fn_append : AppendFn)
    (hfn : ∀ r data, LevelKept r (fn_append r data)) (attr : MD_ATTRIBUTE) (r : MD_HTML) :
    LevelKept r (render_attribute entity_lookup r attr fn_append) :=
  kept_render_attribute_loop entity_lookup attr fn_append hfn _ 0 r

theorem kept_render_optional_attribute (entity_lookup : EntityLookup) (attr : MD_ATTRIBUTE)
    (opening : String) (closing : Option String) (r : MD_HTML) :
    LevelKept r (render_optional_attribute entity_lookup r attr opening closing) := by
  unfold render_optional_attribute
  split
  · apply kept_verbatim_then
    intro r1
    apply kept_try
    · exact kept_render_attribute entity_lookup _ kept_render_html_escaped attr r1
    · intro r2
      cases closing with
      | none => exact kept_pure r2 0
      | some s => exact kept_verbatim_then r2 s _ (fun r3 => kept_pure r3 0)
  · exact kept_pure r 0

theorem kept_a_tail (entity_lookup : EntityLookup) (title : MD_ATTRIBUTE) (r : MD_HTML) :
    LevelKept r
      (MD_HTML_TRY (render_optional_attribute entity_lookup r title "\" title=\"" none)
        fun r => IGNORE_RET (RENDER_VERBATIM r "\">") fun r => some (0, r)) := by
  apply kept_try
  · exact kept_render_optional_attribute entity_lookup title _ _ r
  · intro r1
    exact kept_verbatim_then r1 _ _ (fun r2 => kept_pure r2 0)

theorem kept_render_head (r : MD_HTML) (head : List String) (level : Nat) :
    LevelKept r (render_head r head level) := by
  unfold render_head
  split
  · exact kept_none r
  · cases head[level - 1]? with
    | none => exact kept_none r
    | some s => exact kept_RENDER_VERBATIM r s

theorem kept_enter_block (entity_lookup : EntityLookup) (block : MD_BLOCK) (r : MD_HTML) :
    LevelKept r (enter_block_callback entity_lookup block r) := by
  cases block with
  | MD_BLOCK_H det =>
    exact kept_ignore r _ _ (kept_render_head r _ _) (fun r1 => kept_pure r1 0)
  | MD_BLOCK_CODE det =>
    simp only [enter_block_callback, render_open_code_block]
    apply kept_verbatim_then
    intro r1
    apply kept_try
    · exact kept_render_optional_attribute entity_lookup det.lang _ _ r1
    · intro r2
      exact kept_verbatim_then r2 _ _ (fun r3 => kept_pure r3 0)
  | MD_BLOCK_OL det =>
    exact kept_of_keeps r _ (keeps_enter_block entity_lookup (.MD_BLOCK_OL det) r rfl rfl)
  | MD_BLOCK_LI det =>
    exact kept_of_keeps r _ (keeps_enter_block entity_lookup (.MD_BLOCK_LI det) r rfl rfl)
  | MD_BLOCK_TH det =>
    exact kept_of_keeps r _ (keeps_enter_block entity_lookup (.MD_BLOCK_TH det) r rfl rfl)
  | MD_BLOCK_TD det =>
    exact kept_of_keeps r _ (keeps_enter_block entity_lookup (.MD_BLOCK_TD det) r rfl rfl)
  | _ => exact kept_of_keeps r _ (keeps_enter_block entity_lookup _ r rfl rfl)

theorem kept_leave_block (block : MD_BLOCK) (r : MD_HTML) :
    LevelKept r (leave_block_callback block r) := by
  cases block with
  | MD_BLOCK_H det =>
    exact kept_ignore r _ _ (kept_render_head r _ _) (fun r1 => kept_pure r1 0)
  | _ => exact kept_of_keeps r _ ⟨_, _, rfl, rfl⟩

theorem kept_text (entity_lookup : EntityLookup) (type : MD_TEXTTYPE) (text : List MD_CHAR)
    (r : MD_HTML) : LevelKept r (text_callback entity_lookup type text r) := by
  cases type
  case MD_TEXT_NULLCHAR => exact kept_of_keeps r _ ⟨_, _, rfl, rfl⟩
  case MD_TEXT_BR => exact kept_of_keeps r _ ⟨_, _, rfl, rfl⟩
  case MD_TEXT_SOFTBR => exact kept_of_keeps r _ ⟨_, _, rfl, rfl⟩
  case MD_TEXT_HTML => exact kept_of_keeps r _ ⟨_, _, rfl, rfl⟩
  case MD_TEXT_ENTITY =>
    exact kept_render_entity entity_lookup _ kept_render_html_escaped r text
  all_goals exact kept_render_html_escaped r text

/-- A span enter that returns has kept the image nesting level, or it is an
image enter at a level that is not above 0 and has incremented it or kept
it. -/
theorem enter_span_level (cb : MD_HTML_CALLBACKS) (entity_lookup : EntityLookup)
    (span : MD_SPAN) (r : MD_HTML) (ret : Int) (r1 : MD_HTML)
    (h : enter_span_callback cb entity_lookup span r = some (ret, r1)) :
    r1.image_nesting_level = r.image_nesting_level ∨
      (span.is_image = true ∧ ¬ r.image_nesting_level > 0 ∧
        r1.image_nesting_level = r.image_nesting_level + 1) := by
  unfold enter_span_callback at h
  split at h
  · cases h; exact Or.inl rfl
  rename_i hlev
  have hk : ∀ x, LevelKept r x → x = some (ret, r1) →
      r1.image_nesting_level = r.image_nesting_level ∨
        (span.is_image = true ∧ ¬ r.image_nesting_level > 0 ∧
          r1.image_nesting_level = r.image_nesting_level + 1) :=
    fun x hx hx1 => Or.inl (hx ret r1 hx1)
  cases span with
  | MD_SPAN_A det =>
    refine hk _ ?_ h
    apply kept_verbatim_then
    intro r2
    apply kept_try
    · exact kept_render_attribute entity_lookup _
        (fun r d => kept_of_keeps r _ (keeps_render_url_escaped r d)) det.href r2
    · intro r3
      exact kept_a_tail entity_lookup det.title r3
  | MD_SPAN_A_CODELINK det =>
    refine hk _ ?_ h
    apply kept_verbatim_then
    intro r2
    apply kept_try
    · exact kept_render_attribute entity_lookup _
        (fun r d => kept_of_keeps r _ (keeps_render_codelink_url_escaped cb r d)) det.href r2
    · intro r3
      exact kept_a_tail entity_lookup det.title r3
  | MD_SPAN_A_SELF det =>
    refine hk _ ?_ h
    apply kept_verbatim_then
    intro r2
    apply kept_try
    · exact kept_render_attribute entity_lookup _
        (fun r d => kept_of_keeps r _ (keeps_render_self_url_escaped cb r d)) det.href r2
    · intro r3
      apply kept_verbatim_then
      intro r4
      apply kept_try
      · exact kept_render_attribute entity_lookup _
          (fun r d => kept_of_keeps r _ (keeps_render_self_url_escaped cb r d)) det.href r4
      · intro r5
        apply kept_try
        · exact kept_render_attribute entity_lookup _
            (fun r d => kept_of_keeps r _ (keeps_record_self_url cb r d)) det.href r5
        · intro r6
          exact kept_a_tail entity_lookup det.title r6
  | MD_SPAN_WIKILINK det =>
    refine hk _ ?_ h
    apply kept_verbatim_then
    intro r2
    apply kept_try
    · exact kept_render_attribute entity_lookup _ kept_render_html_escaped det.target r2
    · intro r3
      exact kept_verbatim_then r3 _ _ (fun r4 => kept_pure r4 0)
  | MD_SPAN_IMG det =>
    simp only [render_open_img_span, RENDER_VERBATIM_eq, IGNORE_RET_some] at h
    have hsrc := kept_render_attribute entity_lookup _
      (fun r d => kept_of_keeps r _ (keeps_render_url_escaped r d)) det.src
      (emit r [cstr "<img src=\""])
    cases hx : render_attribute entity_lookup (emit r [cstr "<img src=\""]) det.src
        render_url_escaped with
    | none => rw [hx] at h; cases h
    | some p =>
      obtain ⟨ret2, r2⟩ := p
      have hl2 : r2.image_nesting_level = r.image_nesting_level := hsrc ret2 r2 hx
      rw [hx] at h
      by_cases hret : ret2 = 0
      · subst hret
        rw [MD_HTML_TRY_zero] at h
        cases h
        exact Or.inr ⟨rfl, hlev, by show r2.image_nesting_level + 1 = _; rw [hl2]⟩
      · have : MD_HTML_TRY (some (ret2, r2)) (fun r =>
            some (0, { emit r [cstr "\" alt=\""] with
              image_nesting_level := (emit r [cstr "\" alt=\""]).image_nesting_level + 1 }))
            = some (ret2, r2) := by simp [MD_HTML_TRY, hret]
        rw [this] at h
        cases h
        exact Or.inl hl2
  | _ =>
    refine hk _ ?_ h
    exact kept_of_keeps r _ ⟨_, _, rfl, rfl⟩

/-- A span leave that returns has kept the image nesting level, or it is an
image leave at level 1 and has decremented it or kept it. -/
theorem leave_span_level (entity_lookup : EntityLookup) (span : MD_SPAN) (r : MD_HTML)
    (ret : Int) (r1 : MD_HTML)
    (h : leave_span_callback entity_lookup span r = some (ret, r1)) :
    r1.image_nesting_level = r.image_nesting_level ∨
      (span.is_image = true ∧ r.image_nesting_level = 1 ∧
        r1.image_nesting_level = r.image_nesting_level - 1) := by
  unfold leave_span_callback at h
  split at h
  · cases span with
    | MD_SPAN_IMG det =>
      simp only [] at h
      split at h
      · rename_i h1
        rw [MD_HTML_TRY_id] at h
        unfold render_close_img_span at h
        have htitle := kept_render_optional_attribute entity_lookup det.title
          "\" title=\"" none r
        cases hx : render_optional_attribute entity_lookup r det.title "\" title=\"" none with
        | none => rw [hx] at h; cases h
        | some p =>
          obtain ⟨ret2, r2⟩ := p
          have hl2 : r2.image_nesting_level = r.image_nesting_level := htitle ret2 r2 hx
          rw [hx] at h
          by_cases hret : ret2 = 0
          · subst hret
            rw [MD_HTML_TRY_zero, RENDER_VERBATIM_eq, IGNORE_RET_some] at h
            cases h
            exact Or.inr ⟨rfl, h1, by show r2.image_nesting_level - 1 = _; rw [hl2]⟩
          · have : ∀ g, MD_HTML_TRY (some (ret2, r2)) g = some (ret2, r2) := by
              intro g; simp [MD_HTML_TRY, hret]
            rw [this] at h
            cases h
            exact Or.inl hl2
      · cases h; exact Or.inl rfl
    | _ => cases h; exact Or.inl rfl
  · left
    have hk : LevelKept r (leave_span_callback entity_lookup span r) := by
      apply kept_of_keeps
      apply keeps_leave_span
      rename_i hlev
      right
      intro h1
      rw [h1] at hlev
      exact hlev (by decide)
    apply hk ret r1
    unfold leave_span_callback
    rename_i hlev
    rw [if_neg hlev]
    exact h

/-- Whatever the event (well formed or not, of any size) and whatever the
hooks: a handler that returns from a level that is 0 or 1 has left the level
at 0 or 1. -/
theorem level_step_safe (cb : MD_HTML_CALLBACKS) (entity_lookup : EntityLookup)
    (event : MD_EVENT) (r : MD_HTML) (ret : Int) (r1 : MD_HTML)
    (hlevel : r.image_nesting_level = 0 ∨ r.image_nesting_level = 1)
    (h : handle_event cb entity_lookup event r = some (ret, r1)) :
    r1.image_nesting_level = 0 ∨ r1.image_nesting_level = 1 := by
  cases event with
  | enter_block block =>
    rw [kept_enter_block entity_lookup block r ret r1 h]; exact hlevel
  | leave_block block =>
    rw [kept_leave_block block r ret r1 h]; exact hlevel
  | text type text =>
    rw [kept_text entity_lookup type text r ret r1 h]; exact hlevel
  | enter_span span =>
    rcases enter_span_level cb entity_lookup span r ret r1 h with hk | ⟨_, hlev, hinc⟩
    · rw [hk]; exact hlevel
    · rcases hlevel with h0 | h1
      · right; rw [hinc, h0]; rfl
      · exact absurd (by rw [h1]; decide) hlev
  | leave_span span =>
    rcases leave_span_level entity_lookup span r ret r1 h with hk | ⟨_, h1, hdec⟩
    · rw [hk]; exact hlevel
    · left; rw [hdec, h1]; rfl

/-- Whatever the events and the hooks: a run that returns from a level that is
0 or 1 has left the level at 0 or 1. -/
theorem run_events_level_safe (cb : MD_HTML_CALLBACKS) (entity_lookup : EntityLookup)
    (events : List MD_EVENT) :
    ∀ (r : MD_HTML) (ret : Int) (r1 : MD_HTML),
      (r.image_nesting_level = 0 ∨ r.image_nesting_level = 1) →
      run_events cb entity_lookup events r = some (ret, r1) →
      (r1.image_nesting_level = 0 ∨ r1.image_nesting_level = 1) := by
  induction events with
  | nil =>
    intro r ret r1 hl h
    simp only [run_events, Option.some.injEq, Prod.mk.injEq] at h
    rw [← h.2]; exact hl
  | cons e rest ih =>
    intro r ret r1 hl h
    simp only [run_events] at h
    cases hx : handle_event cb entity_lookup e r with
    | none => rw [hx] at h; cases h
    | some p =>
      obtain ⟨ret2, r2⟩ := p
      have hl2 := level_step_safe cb entity_lookup e r ret2 r2 hl hx
      rw [hx] at h
      by_cases hret : ret2 = 0
      · subst hret
        rw [MD_HTML_TRY_zero] at h
        exact ih r2 ret r1 hl2 h
      · have : MD_HTML_TRY (some (ret2, r2)) (run_events cb entity_lookup rest)
            = some (ret2, r2) := by simp [MD_HTML_TRY, hret]
        rw [this] at h
        cases h
        exact hl2

/-! ## The conversion `%u` and the decimal representation -/

theorem digit_char_byte : ∀ d, d < 10 →
    (⟨(Nat.digitChar d).toNat % 256, Nat.mod_lt _ (by decide)⟩ : MD_CHAR)
      = to_byte (0x30 + d) := by
  decide

theorem format_unsigned_loop_toDigits :
    ∀ (fuel n : Nat) (acc : List Char),
      format_unsigned_loop fuel n
          (acc.map (fun c => (⟨c.toNat % 256, Nat.mod_lt _ (by decide)⟩ : MD_CHAR)))
        = (Nat.toDigitsCore 10 fuel n acc).map
            (fun c => (⟨c.toNat % 256, Nat.mod_lt _ (by decide)⟩ : MD_CHAR)) := by
  intro fuel
  induction fuel with
  | zero => intro n acc; rfl
  | succ k ih =>
    intro n acc
    have hd := digit_char_byte (n % 10) (Nat.mod_lt _ (by decide))
    unfold format_unsigned_loop Nat.toDigitsCore
    by_cases h0 : n / 10 = 0
    · simp only [h0, if_true, List.map_cons, hd]
    · simp only [h0, if_false]
      rw [← hd]
      exact ih (n / 10) ((n % 10).digitChar :: acc)

/-- The digits written by `%u` are the decimal representation of the number,
as `Nat.repr` gives it. -/
theorem format_unsigned_eq_repr (n : Nat) : format_unsigned n = cstr (Nat.repr n) := by
  have h := format_unsigned_loop_toDigits (n + 1) n []
  simp only [List.map_nil] at h
  unfold format_unsigned
  rw [h]
  rfl

/-! ## The wrap of `off + 3` -/

theorem amp_starts_entity (ents : List (List MD_CHAR))
    (hents : ∀ e ∈ ents, ∃ tail, e = 0x26 :: tail ∧ ∀ b ∈ tail, b ≠ 0x26)
    (pieces : List (List MD_CHAR))
    (hp : ∀ p ∈ pieces, p ∈ ents ∨ ∀ b ∈ p, b ≠ 0x26) :
    ∀ i, pieces.flatten[i]? = some 0x26 → ∃ e ∈ ents, e <+: pieces.flatten.drop i := by
  induction pieces with
  | nil => intro i hi; simp at hi
  | cons p rest ih =>
    intro i hi
    rw [List.flatten_cons] at hi ⊢
    by_cases hlt : i < p.length
    · rw [List.getElem?_append_left hlt] at hi
      rcases hp p (List.mem_cons_self _ _) with he | hno
      · obtain ⟨tail, hpe, htail⟩ := hents p he
        cases i with
        | zero =>
          refine ⟨p, he, ?_⟩
          rw [List.drop_zero]
          exact List.prefix_append _ _
        | succ k =>
          rw [hpe, List.getElem?_cons_succ] at hi
          exact absurd rfl (htail _ (List.getElem?_mem hi))
      · exact absurd rfl (hno _ (List.getElem?_mem hi))
    · rw [List.getElem?_append_right (by omega)] at hi
      obtain ⟨e, he, hpre⟩ := ih (fun q hq => hp q (List.mem_cons_of_mem _ hq)) _ hi
      refine ⟨e, he, ?_⟩
      rw [List.drop_append_eq_append_drop, List.drop_eq_nil_of_le (by omega), List.nil_append]
      exact hpre

set_option maxRecDepth 100000 in
theorem html_entities_inert :
    ∀ e ∈ [cstr "&amp;", cstr "&lt;", cstr "&gt;", cstr "&quot;"],
      ∀ c ∈ e, c ≠ (0x3C : MD_CHAR) ∧ c ≠ 0x3E ∧ c ≠ 0x22 ∧ c ≠ 0x20 ∧ c ≠ 0x27 := by
  decide!

set_option maxRecDepth 1000000 in
theorem url_unescaped_inert :
    ∀ b : MD_CHAR, (ISALNUM b.val = true ∨ b ∈ cstr "~-_.+!*(),%#@?=;:/,+$" ∨ b = 0) →
      b ≠ 0x26 ∧ b ≠ 0x22 ∧ b ≠ 0x3C ∧ b ≠ 0x3E ∧ b ≠ 0x20 ∧ b ≠ 0x27 := by
  decide!

set_option maxRecDepth 100000 in
theorem upper_hex_digit_inert :
    ∀ n, n < 16 → upper_hex_digit n ≠ 0x26 ∧ upper_hex_digit n ≠ 0x22 ∧
      upper_hex_digit n ≠ 0x3C ∧ upper_hex_digit n ≠ 0x3E ∧ upper_hex_digit n ≠ 0x20 ∧
      upper_hex_digit n ≠ 0x27 := by
  decide!

/-- Under the escape map of `md_html`, what `render_url_escaped` writes for one
input byte is `&amp;` or has no `&`, and it has none of the bytes `"`, `<`,
`>`, space, apostrophe. -/
theorem url_byte_output_inert (r : MD_HTML) (hmap : r.escape_map = md_html_escape_map) :
    ∀ b : MD_CHAR,
      (url_byte_output r b ∈ [cstr "&amp;"] ∨ ∀ c ∈ url_byte_output r b, c ≠ 0x26) ∧
      ∀ c ∈ url_byte_output r b,
        c ≠ 0x22 ∧ c ≠ 0x3C ∧ c ≠ 0x3E ∧ c ≠ 0x20 ∧ c ≠ 0x27 := by
  intro b
  rw [url_byte_output_md_html r hmap b]
  split_ifs with h1 h2
  · obtain ⟨a1, a2, a3, a4, a5, a6⟩ := url_unescaped_inert b h1
    refine ⟨Or.inr ?_, ?_⟩
    · intro c hc
      rw [List.mem_singleton] at hc
      rw [hc]; exact a1
    · intro c hc
      rw [List.mem_singleton] at hc
      rw [hc]; exact ⟨a2, a3, a4, a5, a6⟩
  · refine ⟨Or.inl (by simp), fun c hc => ?_⟩
    obtain ⟨h1, h2, h3, h4, h5⟩ := html_entities_inert (cstr "&amp;") (by simp) c hc
    exact ⟨h3, h1, h2, h4, h5⟩
  · have hhi := upper_hex_digit_inert (b.val / 16) (by omega)
    have hlo := upper_hex_digit_inert (b.val % 16) (by omega)
    refine ⟨Or.inr ?_, ?_⟩
    · intro c hc
      simp only [List.mem_cons, List.mem_singleton, List.not_mem_nil, or_false] at hc
      rcases hc with h | h | h <;> rw [h]
      · decide
      · exact hhi.1
      · exact hlo.1
    · intro c hc
      simp only [List.mem_cons, List.mem_singleton, List.not_mem_nil, or_false] at hc
      rcases hc with h | h | h <;> rw [h]
      · decide
      · exact hhi.2
      · exact hlo.2

set_option maxRecDepth 100000 in
theorem url_entities_start_with_amp :
    ∀ e ∈ [cstr "&amp;"],
      ∃ tail, e = (0x26 : MD_CHAR) :: tail ∧ ∀ b ∈ tail, b ≠ 0x26 := by
  intro e he
  simp only [List.mem_singleton] at he
  subst he
  exact ⟨cstr "amp;", rfl, by decide!⟩

theorem flatMap_eq_flatten_map (f : MD_CHAR → List MD_CHAR) (data : List MD_CHAR) :
    data.flatMap f = (data.map f).flatten := by
  induction data with
  | nil => rfl
  | cons b rest ih => simp [List.flatMap_cons, ih]

/-! ## The escapers and concatenation -/

/-- Without hooks, what the span-enter of a self-link writes at image nesting
level 0: after the second rendering of the href come the bytes of the record
pass, which are what `render_attribute` writes by itself: the three bytes of
U+FFFD for every null-character sub-span of the href and, with the
verbatim-entities flag, the token of every entity sub-span. -/
theorem self_link_wrote (entity_lookup : EntityLookup) (r : MD_HTML)
    (det : MD_SPAN_A_DETAIL) (hlevel : r.image_nesting_level = 0)
    (hwf : det.href.well_formed = true) (htitle : det.title.optional_well_formed = true)
    (hfit : det.title.html_fits = true) :
    ∃ r1, enter_span_callback {} entity_lookup (.MD_SPAN_A_SELF det) r = some (0, r1) ∧
      Wrote r r1 (cstr "<a name=\"" ++
        attribute_output entity_lookup r.flags (url_escaped r) det.href ++
        cstr "\" href=\"#" ++
        attribute_output entity_lookup r.flags (url_escaped r) det.href ++
        attribute_output entity_lookup r.flags (fun _ => []) det.href ++
        optional_attribute_output entity_lookup r det.title "\" title=\"" ++
        cstr "\">") := by
  have hl : ¬ r.image_nesting_level > 0 := by omega
  simp only [enter_span_callback, hl, if_false, render_open_a_self_span,
    render_self_url_escaped_none {} rfl, RENDER_VERBATIM_eq, IGNORE_RET_some]
  have w0 := wrote_verbatim r (cstr "<a name=\"")
  obtain ⟨r1, h1, w1⟩ := render_attribute_wrote entity_lookup render_url_escaped r _
    (emits_render_url_escaped r) det.href hwf (emit r [cstr "<a name=\""]) rfl rfl
  rw [h1, MD_HTML_TRY_zero]
  have w01 := w0.trans w1
  have w2 := wrote_verbatim r1 (cstr "\" href=\"#")
  have w02 := w01.trans w2
  obtain ⟨r3, h3, w3⟩ := render_attribute_wrote entity_lookup render_url_escaped r _
    (emits_render_url_escaped r) det.href hwf (emit r1 [cstr "\" href=\"#"]) w02.1 w02.2.1
  rw [h3, MD_HTML_TRY_zero]
  have w03 := w02.trans w3
  obtain ⟨r4, h4, w4⟩ := render_attribute_wrote entity_lookup (record_self_url {}) r _
    (emits_record_self_url_none {} rfl r) det.href hwf r3 w03.1 w03.2.1
  rw [h4, MD_HTML_TRY_zero]
  have w04 := w03.trans w4
  obtain ⟨r5, h5, w5⟩ := render_optional_attribute_wrote entity_lookup r det.title htitle
    hfit "\" title=\"" r4 w04.1 w04.2.1
  rw [h5, MD_HTML_TRY_zero]
  have w05 := w04.trans w5
  exact ⟨_, rfl, w05.trans (wrote_verbatim r5 (cstr "\">"))⟩

/-! ## Claims -/

set_option maxRecDepth 1000000 in
/-- C1 (defect at the byte 0): in the escape map built by `md_html` the entry
of the byte 0 has the HTML flag set, although 0 is none of `&`, `<`, `>`, `"`,
and has the URL flag clear, although 0 is neither a letter or digit nor a byte
of the safe set: `strchr` finds the terminating NUL of both string literals. -/
theorem escape_map_at_nul :
    (md_html_escape_map.getD 0 0 &&& NEED_HTML_ESC_FLAG ≠ 0 ∧
      (0 : MD_CHAR) ∉ cstr "&<>\"") ∧
    (md_html_escape_map.getD 0 0 &&& NEED_URL_ESC_FLAG = 0 ∧
      ISALNUM 0 = false ∧ (0 : MD_CHAR) ∉ cstr "~-_.+!*(),%#@?=;:/,+$") := by
  rw [md_html_escape_map_eq]
  decide!

set_option maxRecDepth 1000000 in
/-- C2 (defect at the byte 0): on the three bytes `a`, NUL, `b`, none of which
is `&`, `<`, `>` or `"`, `render_html_escaped` with the escape map of `md_html`
returns 0 after sending the two chunks `a` and `b` to the sink: the NUL byte is
dropped, so the output is not the input. -/
theorem render_html_escaped_drops_nul :
    (∀ b ∈ ([0x61, 0x00, 0x62] : List MD_CHAR), b ∉ cstr "&<>\"") ∧
    render_html_escaped (md_html_render 0) [0x61, 0x00, 0x62]
      = some (0, emit (md_html_render 0) [[0x61], [0x62]]) ∧
    ([[0x61], [0x62]] : List (List MD_CHAR)).flatten ≠ [0x61, 0x00, 0x62] := by
  simp only [md_html_render, md_html_escape_map_eq]
  decide!

set_option maxRecDepth 1000000 in
/-- C3 (defect at the byte 0): the byte 0 is no letter or digit, is not in the
safe set and is not `&`, yet `render_url_escaped` with the escape map of
`md_html` sends it to the sink unchanged, not as the three bytes `%00`. -/
theorem render_url_escaped_keeps_nul :
    (ISALNUM 0 = false ∧ (0 : MD_CHAR) ∉ cstr "~-_.+!*(),%#@?=;:/,+$" ∧ (0 : MD_CHAR) ≠ 0x26) ∧
    render_url_escaped (md_html_render 0) [0x00]
      = some (0, emit (md_html_render 0) [[0x00]]) ∧
    ([[0x00]] : List (List MD_CHAR)).flatten ≠ cstr "%00" := by
  simp only [md_html_render, md_html_escape_map_eq]
  decide!

/-- C4: for a scalar value from 1 to 0x10FFFF outside the surrogate range,
`render_utf8_codepoint` is one call of the append function, on bytes whose
number is 1, 2, 3 or 4 by the thresholds 0x7F, 0x7FF, 0xFFFF, and which the
reference UTF-8 decoder decodes to the scalar value again. -/
theorem render_utf8_codepoint_encodes (r : MD_HTML) (codepoint : Nat) (fn_append : AppendFn)
    (h1 : 1 ≤ codepoint) (h2 : codepoint ≤ 0x10ffff)
    (h3 : ¬ (0xD800 ≤ codepoint ∧ codepoint ≤ 0xDFFF)) :
    ∃ bytes, render_utf8_codepoint r codepoint fn_append = fn_append r bytes ∧
      bytes.length = (if codepoint ≤ 0x7f then 1 else if codepoint ≤ 0x7ff then 2
        else if codepoint ≤ 0xffff then 3 else 4) ∧
      reference_utf8_decode bytes = some codepoint := by
  refine ⟨utf8_bytes codepoint, ?_, utf8_bytes_length codepoint,
    utf8_bytes_decode codepoint h1 h2 h3⟩
  have hc : 0 < codepoint ∧ codepoint ≤ 0x10ffff := ⟨h1, h2⟩
  simp only [render_utf8_codepoint, hc, and_self, if_true, MD_HTML_TRY_id]

/-- Witness of C4 at U+20AC, the euro sign. -/
theorem render_utf8_codepoint_encodes_witness :
    (1 ≤ 0x20AC ∧ 0x20AC ≤ 0x10ffff ∧ ¬ (0xD800 ≤ 0x20AC ∧ 0x20AC ≤ 0xDFFF)) ∧
    ∃ bytes, render_utf8_codepoint (md_html_render 0) 0x20AC render_verbatim
        = render_verbatim (md_html_render 0) bytes ∧
      bytes.length = (if 0x20AC ≤ 0x7f then 1 else if 0x20AC ≤ 0x7ff then 2
        else if 0x20AC ≤ 0xffff then 3 else 4) ∧
      reference_utf8_decode bytes = some 0x20AC :=
  ⟨by decide, render_utf8_codepoint_encodes _ 0x20AC _ (by decide) (by decide) (by decide)⟩

/-- C5: for the code point 0 and for every code point above 0x10FFFF,
`render_utf8_codepoint` makes exactly one call of the append function, on the
three bytes EF BF BD, and its result (code and renderer) is that call's. -/
theorem render_utf8_codepoint_replacement (r : MD_HTML) (codepoint : Nat)
    (fn_append : AppendFn) (h : codepoint = 0 ∨ 0x10ffff < codepoint) :
    render_utf8_codepoint r codepoint fn_append = fn_append r [0xef, 0xbf, 0xbd] := by
  have hc : ¬ (0 < codepoint ∧ codepoint ≤ 0x10ffff) := by omega
  simp only [render_utf8_codepoint, hc, if_false, MD_HTML_TRY_id, utf8_replacement_char]

/-- Witness of C5 at the code point 0x110000. -/
theorem render_utf8_codepoint_replacement_witness :
    ((0x110000 : Nat) = 0 ∨ 0x10ffff < 0x110000) ∧
    render_utf8_codepoint (md_html_render 0) 0x110000 render_verbatim
      = render_verbatim (md_html_render 0) [0xef, 0xbf, 0xbd] :=
  ⟨by decide, render_utf8_codepoint_replacement _ _ _ (by decide)⟩

/-- C6: with the verbatim-entities flag clear, for a well-formed numeric entity
token with at most 7 decimal or at most 6 hexadecimal digits, `render_entity`
is `render_utf8_codepoint` on the number the digits denote, with the same
append function.  Hence two such tokens that denote the same number, whatever
their base, give the same result. -/
theorem render_entity_numeric_short (entity_lookup : EntityLookup) (r : MD_HTML)
    (fn_append : AppendFn) (tok : NumericEntity)
    (hflag : r.flags &&& MD_HTML_FLAG_VERBATIM_ENTITIES = 0)
    (hwf : tok.well_formed = true) (hshort : tok.short = true) :
    render_entity entity_lookup r tok.text fn_append
      = render_utf8_codepoint r tok.number fn_append := by
  rw [render_entity_numeric entity_lookup r fn_append tok hflag hwf,
    Nat.mod_eq_of_lt (numeric_entity_short_lt tok hwf hshort)]

set_option maxRecDepth 1000000 in
/-- Witness of C6: the tokens `&#65;` and `&#x41;` both give the single byte `A`. -/
theorem render_entity_numeric_short_witness :
    ((md_html_render 0).flags &&& MD_HTML_FLAG_VERBATIM_ENTITIES = 0 ∧
      (NumericEntity.dec (cstr "65")).well_formed = true ∧
      (NumericEntity.dec (cstr "65")).short = true ∧
      (NumericEntity.hex 0x78 (cstr "41")).well_formed = true ∧
      (NumericEntity.hex 0x78 (cstr "41")).short = true) ∧
    render_entity (fun _ => none) (md_html_render 0) (cstr "&#65;") render_verbatim
      = some (0, emit (md_html_render 0) [cstr "A"]) ∧
    render_entity (fun _ => none) (md_html_render 0) (cstr "&#x41;") render_verbatim
      = some (0, emit (md_html_render 0) [cstr "A"]) :=
  ⟨by decide,
    (render_entity_numeric_short (fun _ => none) (md_html_render 0) render_verbatim
      (.dec (cstr "65")) (by decide) (by decide) (by decide)).trans (by rfl),
    (render_entity_numeric_short (fun _ => none) (md_html_render 0) render_verbatim
      (.hex 0x78 (cstr "41")) (by decide) (by decide) (by decide)).trans (by rfl)⟩

set_option maxRecDepth 1000000 in
/-- C7, counterexample: the digits of the well-formed token `&#4294967361;`
denote 2^32 + 65, a number above 0x10FFFF, and `render_entity` passes the
single byte `A` to the append function, not the three bytes EF BF BD. -/
theorem render_entity_wraps_around :
    (NumericEntity.dec (cstr "4294967361")).well_formed = true ∧
    (NumericEntity.dec (cstr "4294967361")).text = cstr "&#4294967361;" ∧
    (NumericEntity.dec (cstr "4294967361")).number = 2 ^ 32 + 65 ∧
    0x10ffff < (NumericEntity.dec (cstr "4294967361")).number ∧
    render_entity (fun _ => none) (md_html_render 0) (cstr "&#4294967361;") render_verbatim
      = render_verbatim (md_html_render 0) (cstr "A") ∧
    cstr "A" ≠ [0xef, 0xbf, 0xbd] := by
  refine ⟨by decide, by decide, by decide!, by decide!, ?_, by decide⟩
  rfl

/-- C7, amended: with the verbatim-entities flag clear, for a well-formed
numeric entity token with any number of digits whose digits denote a number
above 0x10FFFF, and whose residue modulo 2^32 is 0 or above 0x10FFFF (so for
every number from 0x110000 to 2^32 - 1), `render_entity` is one call of the
append function on the three bytes EF BF BD. -/
theorem render_entity_out_of_range (entity_lookup : EntityLookup) (r : MD_HTML)
    (fn_append : AppendFn) (tok : NumericEntity)
    (hflag : r.flags &&& MD_HTML_FLAG_VERBATIM_ENTITIES = 0)
    (hwf : tok.well_formed = true)
    (hrange : 0x10ffff < tok.number ∧
      (tok.number % 2 ^ 32 = 0 ∨ 0x10ffff < tok.number % 2 ^ 32)) :
    render_entity entity_lookup r tok.text fn_append = fn_append r [0xef, 0xbf, 0xbd] := by
  have hres := hrange.2
  have hc : ¬ (0 < tok.number % 2 ^ 32 ∧ tok.number % 2 ^ 32 ≤ 0x10ffff) := by omega
  rw [render_entity_numeric entity_lookup r fn_append tok hflag hwf]
  simp only [render_utf8_codepoint, hc, if_false, MD_HTML_TRY_id, utf8_replacement_char]

set_option maxRecDepth 1000000 in
/-- Witness of C7 (amended) at the token `&#x110000;`. -/
theorem render_entity_out_of_range_witness :
    ((md_html_render 0).flags &&& MD_HTML_FLAG_VERBATIM_ENTITIES = 0 ∧
      (NumericEntity.hex 0x78 (cstr "110000")).well_formed = true ∧
      0x10ffff < (NumericEntity.hex 0x78 (cstr "110000")).number ∧
      ((NumericEntity.hex 0x78 (cstr "110000")).number % 2 ^ 32 = 0 ∨
        0x10ffff < (NumericEntity.hex 0x78 (cstr "110000")).number % 2 ^ 32)) ∧
    render_entity (fun _ => none) (md_html_render 0)
        (NumericEntity.hex 0x78 (cstr "110000")).text render_verbatim
      = render_verbatim (md_html_render 0) [0xef, 0xbf, 0xbd] :=
  ⟨by decide!,
    render_entity_out_of_range (fun _ => none) (md_html_render 0) render_verbatim
      (.hex 0x78 (cstr "110000")) (by decide) (by decide) (by decide!)⟩

/-- C8: with the verbatim-entities flag clear, on a token whose second byte is
not `#` and for which the lookup finds nothing, `render_entity` is exactly one
call of the append function on the token: same bytes, same result code, same
renderer afterwards. -/
theorem render_entity_unknown_name (entity_lookup : EntityLookup) (r : MD_HTML)
    (text : List MD_CHAR) (fn_append : AppendFn)
    (hflag : r.flags &&& MD_HTML_FLAG_VERBATIM_ENTITIES = 0)
    (hname : text.getD 1 0 ≠ 0x23)
    (hlookup : entity_lookup text = none) :
    render_entity entity_lookup r text fn_append = fn_append r text := by
  simp only [render_entity, hflag, ne_eq, not_true_eq_false, if_false, hname, and_false,
    hlookup, MD_HTML_TRY_id]

/-- Witness of C8 at the token `&notarealentity;`, with a lookup that knows no
name and the HTML escaper as the append function. -/
theorem render_entity_unknown_name_witness :
    (md_html_render 0).flags &&& MD_HTML_FLAG_VERBATIM_ENTITIES = 0 ∧
    (cstr "&notarealentity;").getD 1 0 ≠ 0x23 ∧
    (fun _ => none : EntityLookup) (cstr "&notarealentity;") = none ∧
    render_entity (fun _ => none) (md_html_render 0) (cstr "&notarealentity;")
        render_html_escaped
      = render_html_escaped (md_html_render 0) (cstr "&notarealentity;") :=
  ⟨by decide, by decide, rfl,
    render_entity_unknown_name _ _ _ _ (by decide) (by decide) rfl⟩

set_option maxRecDepth 1000000 in
/-- C9, counterexample: for the entity text unit `&notarealentity;`, with the
verbatim-entities flag clear and whatever lookup finds no entity of that name,
`text_callback` sends the chunks `&amp;` and `notarealentity;` to the sink:
the output is not the token. -/
theorem text_callback_unknown_entity_escaped :
    (∀ entity_lookup : EntityLookup, entity_lookup (cstr "&notarealentity;") = none →
      text_callback entity_lookup .MD_TEXT_ENTITY (cstr "&notarealentity;") (md_html_render 0)
        = some (0, emit (md_html_render 0) [cstr "&amp;", cstr "notarealentity;"])) ∧
    ([cstr "&amp;", cstr "notarealentity;"] : List (List MD_CHAR)).flatten
      ≠ cstr "&notarealentity;" := by
  refine ⟨?_, by decide⟩
  intro entity_lookup hlookup
  have hflag : (md_html_render 0).flags &&& MD_HTML_FLAG_VERBATIM_ENTITIES = 0 := by decide
  have hname : (cstr "&notarealentity;").getD 1 0 ≠ 0x23 := by decide
  simp only [text_callback, render_entity, hflag, ne_eq, not_true_eq_false, if_false, hname,
    and_false, hlookup, MD_HTML_TRY_id]
  simp only [md_html_render, md_html_escape_map_eq]
  decide!

/-- C9, amended: with the verbatim-entities flag clear and the escape map of
`md_html`, for an entity text unit `&name;` whose name consists of letters and
digits and is not found by the lookup, `text_callback` returns 0 and the bytes
that reach the sink are the token with its `&` written as `&amp;`, that is
`&amp;name;`.  The token has fewer than `2 ^ 32 - 3` bytes, so that the sum
`off + 3` of `render_html_escaped` does not wrap. -/
theorem text_callback_unknown_entity (entity_lookup : EntityLookup) (r : MD_HTML)
    (name : List MD_CHAR)
    (hfit : name.length + 5 < 2 ^ 32)
    (hmap : r.escape_map = md_html_escape_map)
    (hflag : r.flags &&& MD_HTML_FLAG_VERBATIM_ENTITIES = 0)
    (hname : ∀ b ∈ name, ISALNUM b.val = true)
    (hlookup : entity_lookup (cstr "&" ++ name ++ cstr ";") = none) :
    ∃ chunks, text_callback entity_lookup .MD_TEXT_ENTITY (cstr "&" ++ name ++ cstr ";") r
        = some (0, emit r chunks) ∧
      chunks.flatten = cstr "&amp;" ++ name ++ cstr ";" := by
  have hsecond : (cstr "&" ++ name ++ cstr ";").getD 1 0 ≠ 0x23 := by
    cases name with
    | nil => decide
    | cons d ds =>
      have := (alnum_html_byte_output r hmap d (hname d (List.mem_cons_self _ _))).2
      simpa [cstr] using this
  have hlen : (cstr "&" ++ name ++ cstr ";").length + 3 < 2 ^ 32 := by
    have e1 : (cstr "&").length = 1 := by decide
    have e2 : (cstr ";").length = 1 := by decide
    simp only [List.length_append, e1, e2]
    omega
  obtain ⟨chunks, hrun, hflat⟩ :=
    render_html_escaped_spec r (cstr "&" ++ name ++ cstr ";") hlen
  refine ⟨chunks, ?_, ?_⟩
  · simp only [text_callback, render_entity, hflag, ne_eq, not_true_eq_false, if_false,
      hsecond, and_false, hlookup, MD_HTML_TRY_id, hrun]
  · rw [hflat, List.flatMap_append, List.flatMap_append]
    have hmid : name.flatMap (html_byte_output r) = name :=
      html_flatMap_unflagged r name
        (fun b hb => (alnum_html_byte_output r hmap b (hname b hb)).1)
    have hamp : (cstr "&").flatMap (html_byte_output r) = cstr "&amp;" := by
      have h1 : cstr "&" = [0x26] := by decide
      rw [h1, List.flatMap_cons, List.flatMap_nil, html_byte_output_md_html r hmap]
      decide
    have hsemi : (cstr ";").flatMap (html_byte_output r) = cstr ";" := by
      have h1 : cstr ";" = [0x3B] := by decide
      rw [h1, List.flatMap_cons, List.flatMap_nil, html_byte_output_md_html r hmap]
      decide
    rw [hmid, hamp, hsemi]

set_option maxRecDepth 1000000 in
/-- Witness of C9 (amended) at the token `&notarealentity;`. -/
theorem text_callback_unknown_entity_witness :
    ((cstr "notarealentity").length + 5 < 2 ^ 32 ∧
      (md_html_render 0).escape_map = md_html_escape_map ∧
      (md_html_render 0).flags &&& MD_HTML_FLAG_VERBATIM_ENTITIES = 0 ∧
      (∀ b ∈ cstr "notarealentity", ISALNUM b.val = true) ∧
      (fun _ => none : EntityLookup) (cstr "&" ++ cstr "notarealentity" ++ cstr ";") = none) ∧
    ∃ chunks, text_callback (fun _ => none) .MD_TEXT_ENTITY
          (cstr "&" ++ cstr "notarealentity" ++ cstr ";") (md_html_render 0)
        = some (0, emit (md_html_render 0) chunks) ∧
      chunks.flatten = cstr "&amp;" ++ cstr "notarealentity" ++ cstr ";" :=
  ⟨⟨by decide, rfl, by decide, by decide, rfl⟩,
    text_callback_unknown_entity (fun _ => none) (md_html_render 0) (cstr "notarealentity")
      (by decide) rfl (by decide) (by decide) rfl⟩

/-- C10: with the verbatim-entities flag set, whatever the token, the lookup
and the append function, `render_entity` returns 0 after handing the token, as
one chunk, to the sink; nothing else of the renderer changes. -/
theorem render_entity_verbatim (entity_lookup : EntityLookup) (r : MD_HTML)
    (text : List MD_CHAR) (fn_append : AppendFn)
    (hflag : r.flags &&& MD_HTML_FLAG_VERBATIM_ENTITIES ≠ 0) :
    render_entity entity_lookup r text fn_append = some (0, emit r [text]) := by
  simp only [render_entity, hflag, ne_eq, not_false_eq_true, if_true, MD_HTML_TRY_id,
    render_verbatim_eq]

/-- Witness of C10 at the token `&#65;`, with an append function that always
fails: it is not called. -/
theorem render_entity_verbatim_witness :
    (md_html_render MD_HTML_FLAG_VERBATIM_ENTITIES).flags &&& MD_HTML_FLAG_VERBATIM_ENTITIES ≠ 0 ∧
    render_entity (fun _ => some (0x41, 0)) (md_html_render MD_HTML_FLAG_VERBATIM_ENTITIES)
        (cstr "&#65;") (fun r _ => some (-1, r))
      = some (0, emit (md_html_render MD_HTML_FLAG_VERBATIM_ENTITIES) [cstr "&#65;"]) :=
  ⟨by decide, render_entity_verbatim _ _ _ _ (by decide)⟩

set_option maxRecDepth 1000000 in
/-- C11 (defect): a self-link whose href `R&#38;D` has three sub-spans (normal,
entity, normal), entered at image nesting level 0 with a render hook that
passes its text on and returns 0 and a record hook that returns 0.  The
handler returns 0, but the render hook is invoked six times and the record
hook three times: once for every sub-span in every pass over the href, not
twice and once. -/
theorem self_link_hook_calls_per_substr :
    (md_html_render 0).image_nesting_level = 0 ∧
    (MD_ATTRIBUTE.mk (some (cstr "R&#38;D")) 7
      [.MD_TEXT_NORMAL, .MD_TEXT_ENTITY, .MD_TEXT_NORMAL] [0, 1, 6, 7]).well_formed = true ∧
    (enter_span_callback
        { render_self_link := some (fun _ data => { rendered := [data], ret := 0 }),
          record_self_link := some (fun _ _ => 0) }
        (fun _ => none)
        (.MD_SPAN_A_SELF
          { href := MD_ATTRIBUTE.mk (some (cstr "R&#38;D")) 7
              [.MD_TEXT_NORMAL, .MD_TEXT_ENTITY, .MD_TEXT_NORMAL] [0, 1, 6, 7],
            title := MD_ATTRIBUTE.mk none 0 [] [0] })
        (md_html_render 0)).map
      (fun p => (p.1, p.2.hook_calls.map (fun call => (call.hook, call.data))))
      = some (0,
          [(.render_self_link, cstr "R"), (.render_self_link, cstr "&"),
           (.render_self_link, cstr "D"),
           (.render_self_link, cstr "R"), (.render_self_link, cstr "&"),
           (.render_self_link, cstr "D"),
           (.record_self_link, cstr "R"), (.record_self_link, cstr "&"),
           (.record_self_link, cstr "D")]) := by
  simp only [md_html_render, md_html_escape_map_eq]
  decide!

/-- C12: for every ordered-list block-enter event whose start number `start`
is a 32-bit unsigned value, the handler returns 0 and writes one chunk: `<ol>`
and a newline when `start = 1`, and otherwise `<ol start="`, the decimal
representation of `start` and `">` with a newline.  The decimal representation
is the one `Nat.repr` gives: decimal digits that denote `start`, without a
leading zero except for the single digit `0` of `start = 0`. -/
theorem enter_ol_block_output (entity_lookup : EntityLookup) (r : MD_HTML) (start : Nat)
    (h32 : start < 2 ^ 32) :
    ∃ digits : List MD_CHAR,
      (digits.all is_dec_digit = true ∧ digits ≠ [] ∧ denoted_number 10 digits = start ∧
        (start ≠ 0 → digits.head? ≠ some 0x30)) ∧
      digits = cstr (Nat.repr start) ∧
      (start = 0 → digits = [0x30]) ∧
      enter_block_callback entity_lookup (.MD_BLOCK_OL { start := start }) r
        = some (0, emit r
            [if start = 1 then cstr "<ol>\n"
             else cstr "<ol start=\"" ++ digits ++ cstr "\">\n"]) := by
  obtain ⟨hdig, hden, hne, hhead, _, _⟩ := format_unsigned_spec start
  refine ⟨format_unsigned start, ⟨hdig, hne, hden, hhead⟩, format_unsigned_eq_repr start,
    ?_, ?_⟩
  · intro h0
    rw [h0]
    rfl
  by_cases h1 : start = 1
  · subst h1
    rfl
  · simp only [enter_block_callback, h1, if_false]
    exact render_open_ol_block_eq r start h32 h1

/-- Witness of C12 at the start number 5, which gives `<ol start="5">`. -/
theorem enter_ol_block_output_witness :
    ((5 : Nat) < 2 ^ 32 ∧
      enter_block_callback (fun _ => none) (.MD_BLOCK_OL { start := 5 }) (md_html_render 0)
        = some (0, emit (md_html_render 0) [cstr "<ol start=\"5\">\n"]) ∧
      enter_block_callback (fun _ => none) (.MD_BLOCK_OL { start := 0 }) (md_html_render 0)
        = some (0, emit (md_html_render 0) [cstr "<ol start=\"0\">\n"])) ∧
    ∃ digits : List MD_CHAR,
      (digits.all is_dec_digit = true ∧ digits ≠ [] ∧ denoted_number 10 digits = 5 ∧
        ((5 : Nat) ≠ 0 → digits.head? ≠ some 0x30)) ∧
      digits = cstr (Nat.repr 5) ∧
      ((5 : Nat) = 0 → digits = [0x30]) ∧
      enter_block_callback (fun _ => none) (.MD_BLOCK_OL { start := 5 }) (md_html_render 0)
        = some (0, emit (md_html_render 0)
            [if (5 : Nat) = 1 then cstr "<ol>\n"
             else cstr "<ol start=\"" ++ digits ++ cstr "\">\n"]) :=
  ⟨⟨by decide, by rfl, by rfl⟩,
    enter_ol_block_output (fun _ => none) (md_html_render 0) 5 (by decide)⟩

/-- C13: an image span-enter at image nesting level 0, then any sequence of
enters and leaves of spans other than images and of units of normal text, then
the leave of the image.  The run returns 0, the nesting level is 0 again, and
the bytes written are `<img src="`, the URL-escaped src, `" alt="`, the
HTML-escaped text units in order, the title part if the image has a title, and
`">` (`" />` with the XHTML flag); the span events inside add nothing.  The
title and each text unit have fewer than `2 ^ 32 - 3` bytes, so that the sum
`off + 3` of `render_html_escaped` does not wrap. -/
theorem image_alt_is_flattened (cb : MD_HTML_CALLBACKS) (entity_lookup : EntityLookup)
    (r : MD_HTML) (det : MD_SPAN_IMG_DETAIL) (inner : List MD_EVENT)
    (hlevel : r.image_nesting_level = 0)
    (hsrc : det.src.well_formed = true) (htitle : det.title.optional_well_formed = true)
    (hinner : ∀ e ∈ inner, e.is_plain_inline = true)
    (htitlefit : det.title.html_fits = true)
    (hshort : ∀ e ∈ inner, short_buffer e.text_bytes = true) :
    ∃ r1, run_events cb entity_lookup
          ([.enter_span (.MD_SPAN_IMG det)] ++ inner ++ [.leave_span (.MD_SPAN_IMG det)]) r
        = some (0, r1) ∧
      r1.image_nesting_level = 0 ∧
      r1.output.flatten = r.output.flatten ++
        (cstr "<img src=\"" ++
          attribute_output entity_lookup r.flags (url_escaped r) det.src ++
          cstr "\" alt=\"" ++
          inner.flatMap (fun e => html_escaped r e.text_bytes) ++
          (if det.title.text ≠ none then
            cstr "\" title=\"" ++
              attribute_output entity_lookup r.flags (html_escaped r) det.title
           else []) ++
          (if r.flags &&& MD_HTML_FLAG_XHTML ≠ 0 then cstr "\" />" else cstr "\">")) := by
  obtain ⟨r1, h1, w1⟩ := enter_img_wrote cb entity_lookup r det hlevel hsrc
  obtain ⟨r2, h2, w2⟩ := plain_inline_wrote cb entity_lookup r inner hinner hshort
    { r1 with image_nesting_level := 1 } (by show (1 : Int) > 0; decide) w1.1 w1.2.1
  have hl2 : r2.image_nesting_level = 1 := w2.2.2.2.1
  obtain ⟨r3, h3, w3⟩ := leave_img_wrote entity_lookup r r2 det hl2
    (w2.1.trans w1.1) (w2.2.1.trans w1.2.1) htitle htitlefit
  refine ⟨{ r3 with image_nesting_level := 0 }, ?_, rfl, ?_⟩
  · rw [run_events_append, run_events_append]
    have he : run_events cb entity_lookup [.enter_span (.MD_SPAN_IMG det)] r
        = some (0, { r1 with image_nesting_level := 1 }) := by
      simp only [run_events, handle_event, h1, MD_HTML_TRY_zero]
    have hl : run_events cb entity_lookup [.leave_span (.MD_SPAN_IMG det)] r2
        = some (0, { r3 with image_nesting_level := 0 }) := by
      simp only [run_events, handle_event, h3, MD_HTML_TRY_zero]
    rw [he, MD_HTML_TRY_zero, h2, MD_HTML_TRY_zero, hl]
  · have o1 := w1.2.2.2.2
    have o2 : r2.output.flatten = r1.output.flatten ++ _ := w2.2.2.2.2
    have o3 := w3.2.2.2.2
    show r3.output.flatten = _
    rw [o3, o2, o1]
    simp only [optional_attribute_output, List.append_assoc]

set_option maxRecDepth 1000000 in
/-- Witness of C13: an image with the src `a.png` and no title, whose label is
one emphasis span around the text `x`, gives `alt="x"` and no `<em>` tag. -/
theorem image_alt_is_flattened_witness :
    ((md_html_render 0).image_nesting_level = 0 ∧
      (MD_ATTRIBUTE.mk (some (cstr "a.png")) 5 [.MD_TEXT_NORMAL] [0, 5]).well_formed = true ∧
      (MD_ATTRIBUTE.mk none 0 [] [0]).optional_well_formed = true ∧
      (∀ e ∈ [MD_EVENT.enter_span .MD_SPAN_EM, .text .MD_TEXT_NORMAL (cstr "x"),
          .leave_span .MD_SPAN_EM], e.is_plain_inline = true) ∧
      (MD_ATTRIBUTE.mk none 0 [] [0]).html_fits = true ∧
      (∀ e ∈ [MD_EVENT.enter_span .MD_SPAN_EM, .text .MD_TEXT_NORMAL (cstr "x"),
          .leave_span .MD_SPAN_EM], short_buffer e.text_bytes = true) ∧
      (run_events {} (fun _ => none)
          ([.enter_span (.MD_SPAN_IMG
              { src := MD_ATTRIBUTE.mk (some (cstr "a.png")) 5 [.MD_TEXT_NORMAL] [0, 5],
                title := MD_ATTRIBUTE.mk none 0 [] [0] })] ++
            [.enter_span .MD_SPAN_EM, .text .MD_TEXT_NORMAL (cstr "x"),
              .leave_span .MD_SPAN_EM] ++
            [.leave_span (.MD_SPAN_IMG
              { src := MD_ATTRIBUTE.mk (some (cstr "a.png")) 5 [.MD_TEXT_NORMAL] [0, 5],
                title := MD_ATTRIBUTE.mk none 0 [] [0] })])
          (md_html_render 0)).map (fun p => (p.1, p.2.output.flatten))
        = some (0, cstr "<img src=\"a.png\" alt=\"x\">")) ∧
    ∃ r1, run_events {} (fun _ => none)
          ([.enter_span (.MD_SPAN_IMG
              { src := MD_ATTRIBUTE.mk (some (cstr "a.png")) 5 [.MD_TEXT_NORMAL] [0, 5],
                title := MD_ATTRIBUTE.mk none 0 [] [0] })] ++
            [.enter_span .MD_SPAN_EM, .text .MD_TEXT_NORMAL (cstr "x"),
              .leave_span .MD_SPAN_EM] ++
            [.leave_span (.MD_SPAN_IMG
              { src := MD_ATTRIBUTE.mk (some (cstr "a.png")) 5 [.MD_TEXT_NORMAL] [0, 5],
                title := MD_ATTRIBUTE.mk none 0 [] [0] })])
          (md_html_render 0)
        = some (0, r1) ∧
      r1.image_nesting_level = 0 ∧
      r1.output.flatten = (md_html_render 0).output.flatten ++
        (cstr "<img src=\"" ++
          attribute_output (fun _ => none) (md_html_render 0).flags
            (url_escaped (md_html_render 0))
            (MD_ATTRIBUTE.mk (some (cstr "a.png")) 5 [.MD_TEXT_NORMAL] [0, 5]) ++
          cstr "\" alt=\"" ++
          [MD_EVENT.enter_span .MD_SPAN_EM, .text .MD_TEXT_NORMAL (cstr "x"),
            .leave_span .MD_SPAN_EM].flatMap
              (fun e => html_escaped (md_html_render 0) e.text_bytes) ++
          (if (MD_ATTRIBUTE.mk none 0 [] [0]).text ≠ none then
            cstr "\" title=\"" ++
              attribute_output (fun _ => none) (md_html_render 0).flags
                (html_escaped (md_html_render 0)) (MD_ATTRIBUTE.mk none 0 [] [0])
           else []) ++
          (if (md_html_render 0).flags &&& MD_HTML_FLAG_XHTML ≠ 0 then cstr "\" />"
           else cstr "\">")) :=
  ⟨⟨by decide, by decide, by decide, by decide, by decide, by decide, by
      simp only [md_html_render, md_html_escape_map_eq]
      decide!⟩,
    image_alt_is_flattened {} (fun _ => none) (md_html_render 0)
      { src := MD_ATTRIBUTE.mk (some (cstr "a.png")) 5 [.MD_TEXT_NORMAL] [0, 5],
        title := MD_ATTRIBUTE.mk none 0 [] [0] }
      [.enter_span .MD_SPAN_EM, .text .MD_TEXT_NORMAL (cstr "x"), .leave_span .MD_SPAN_EM]
      (by decide) (by decide) (by decide) (by decide) (by decide) (by decide)⟩

set_option maxRecDepth 1000000 in
/-- C15, counterexample: a self-link whose href has a null-character sub-span
and then the normal sub-span `a`, entered at image nesting level 0 with a
render hook that returns 7.  The hook is invoked once, on `a`, and the handler
returns 7; but before that invocation the handler has written the three bytes
of U+FFFD after the opening `<a name="`. -/
theorem self_link_writes_before_first_hook_call :
    (MD_ATTRIBUTE.mk (some [0x00, 0x61]) 2 [.MD_TEXT_NULLCHAR, .MD_TEXT_NORMAL]
      [0, 1, 2]).well_formed = true ∧
    enter_span_callback
        { render_self_link := some (fun _ _ => { rendered := [], ret := 7 }) }
        (fun _ => none)
        (.MD_SPAN_A_SELF
          { href := MD_ATTRIBUTE.mk (some [0x00, 0x61]) 2
              [.MD_TEXT_NULLCHAR, .MD_TEXT_NORMAL] [0, 1, 2],
            title := MD_ATTRIBUTE.mk none 0 [] [0] })
        (md_html_render 0)
      = some (7,
          { md_html_render 0 with
            output := [cstr "<a name=\"", [0xef, 0xbf, 0xbd]],
            hook_calls :=
              [{ hook := .render_self_link, data := cstr "a", ret := 7, written := 2 }] }) := by
  refine ⟨by decide!, ?_⟩
  rfl

/-- C15, amended: for every span-enter event with well-formed attributes
(the title, or the target of a wiki link, of fewer than `2 ^ 32 - 3` bytes) and
whatever the hooks, `enter_span_callback` returns, and a hook invocation that
returned a nonzero code is the last hook invocation of the handler (so, when it
is the first one, the only one), its code is the code the handler returns, and
the sink has received nothing since it returned. -/
theorem enter_span_stops_at_hook_failure (cb : MD_HTML_CALLBACKS)
    (entity_lookup : EntityLookup) (span : MD_SPAN) (r : MD_HTML)
    (hwf : span.well_formed = true)
    (hfit : (MD_EVENT.enter_span span).html_fits = true) :
    ∃ ret r1 new, enter_span_callback cb entity_lookup span r = some (ret, r1) ∧
      r1.hook_calls = r.hook_calls ++ new ∧
      ∀ (i : Nat) (call : HookCall), new[i]? = some call → call.ret ≠ 0 →
        i + 1 = new.length ∧ ret = call.ret ∧ call.written = r1.output.length :=
  traced_enter_span cb entity_lookup span r hwf hfit

set_option maxRecDepth 1000000 in
/-- Witness of C15 (amended) at a self-link with the href `ab` in two
sub-spans, a `render_self_link` hook that returns 7 and a `record_self_link`
hook: the handler returns 7 after one hook invocation. -/
theorem enter_span_stops_at_hook_failure_witness :
    ((MD_SPAN.MD_SPAN_A_SELF
        { href := MD_ATTRIBUTE.mk (some (cstr "ab")) 2 [.MD_TEXT_NORMAL, .MD_TEXT_NORMAL]
            [0, 1, 2],
          title := MD_ATTRIBUTE.mk (some (cstr "t")) 1 [.MD_TEXT_NORMAL] [0, 1] }).well_formed
        = true ∧
      (MD_EVENT.enter_span (.MD_SPAN_A_SELF
        { href := MD_ATTRIBUTE.mk (some (cstr "ab")) 2 [.MD_TEXT_NORMAL, .MD_TEXT_NORMAL]
            [0, 1, 2],
          title := MD_ATTRIBUTE.mk (some (cstr "t")) 1 [.MD_TEXT_NORMAL] [0, 1] })).html_fits
        = true ∧
      (enter_span_callback
          { render_self_link := some (fun _ _ => { rendered := [], ret := 7 }),
            record_self_link := some (fun _ _ => 0) }
          (fun _ => none)
          (.MD_SPAN_A_SELF
            { href := MD_ATTRIBUTE.mk (some (cstr "ab")) 2
                [.MD_TEXT_NORMAL, .MD_TEXT_NORMAL] [0, 1, 2],
              title := MD_ATTRIBUTE.mk (some (cstr "t")) 1 [.MD_TEXT_NORMAL] [0, 1] })
          (md_html_render 0)).map
        (fun p => (p.1, p.2.output, p.2.hook_calls.map (fun call => (call.hook, call.data))))
        = some (7, [cstr "<a name=\""], [(.render_self_link, cstr "a")])) ∧
    ∃ ret r1 new,
      enter_span_callback
          { render_self_link := some (fun _ _ => { rendered := [], ret := 7 }),
            record_self_link := some (fun _ _ => 0) }
          (fun _ => none)
          (.MD_SPAN_A_SELF
            { href := MD_ATTRIBUTE.mk (some (cstr "ab")) 2
                [.MD_TEXT_NORMAL, .MD_TEXT_NORMAL] [0, 1, 2],
              title := MD_ATTRIBUTE.mk (some (cstr "t")) 1 [.MD_TEXT_NORMAL] [0, 1] })
          (md_html_render 0)
        = some (ret, r1) ∧
      r1.hook_calls = (md_html_render 0).hook_calls ++ new ∧
      ∀ (i : Nat) (call : HookCall), new[i]? = some call → call.ret ≠ 0 →
        i + 1 = new.length ∧ ret = call.ret ∧ call.written = r1.output.length :=
  ⟨⟨by decide!, by decide!, by
      simp only [md_html_render, md_html_escape_map_eq]
      decide!⟩,
    enter_span_stops_at_hook_failure _ (fun _ => none) _ (md_html_render 0)
      (by decide!) (by decide!)⟩

/-- C16: `md_html` hands to the parser the input without its first three bytes
when the skip-BOM flag is set and the input begins with EF BB BF, and the
input unchanged in every other case; of two leading BOMs only the first is
removed. -/
theorem md_html_skips_one_bom
    (md_parse : List MD_CHAR → Nat → MD_HTML_CALLBACKS → MD_HTML → Int)
    (input : List MD_CHAR) (callbacks : MD_HTML_CALLBACKS)
    (parser_flags renderer_flags : Nat) :
    md_html md_parse input callbacks parser_flags renderer_flags
      = md_parse
          (if renderer_flags &&& MD_HTML_FLAG_SKIP_UTF8_BOM ≠ 0 ∧
              [0xef, 0xbb, 0xbf] <+: input then input.drop 3 else input)
          parser_flags callbacks (md_html_render renderer_flags) ∧
    (renderer_flags &&& MD_HTML_FLAG_SKIP_UTF8_BOM ≠ 0 →
      md_html md_parse ([0xef, 0xbb, 0xbf] ++ ([0xef, 0xbb, 0xbf] ++ input)) callbacks
          parser_flags renderer_flags
        = md_parse ([0xef, 0xbb, 0xbf] ++ input) parser_flags callbacks
            (md_html_render renderer_flags)) := by
  have hbom : ∀ l : List MD_CHAR,
      (l.length ≥ bom.length ∧ l.take bom.length = bom) ↔ [0xef, 0xbb, 0xbf] <+: l := by
    intro l
    rw [List.prefix_iff_eq_take]
    constructor
    · intro h; exact h.2.symm
    · intro h
      have hlen : (List.take 3 l).length = 3 := by
        have := congrArg List.length h
        simpa using this.symm
      refine ⟨?_, h.symm⟩
      rw [List.length_take] at hlen
      show 3 ≤ l.length
      omega
  have hmain : ∀ l : List MD_CHAR,
      md_html md_parse l callbacks parser_flags renderer_flags
        = md_parse
            (if renderer_flags &&& MD_HTML_FLAG_SKIP_UTF8_BOM ≠ 0 ∧
                [0xef, 0xbb, 0xbf] <+: l then l.drop 3 else l)
            parser_flags callbacks (md_html_render renderer_flags) := by
    intro l
    unfold md_html
    simp only [hbom l, sizeof_MD_CHAR, and_true]
    by_cases hflag : renderer_flags &&& MD_HTML_FLAG_SKIP_UTF8_BOM ≠ 0
    · by_cases hp : [0xef, 0xbb, 0xbf] <+: l
      · simp [hflag, hp, md_html_render, bom]
      · simp [hflag, hp, md_html_render]
    · simp [hflag, md_html_render]
  refine ⟨hmain input, ?_⟩
  intro hflag
  rw [hmain]
  have hp : ([0xef, 0xbb, 0xbf] : List MD_CHAR) <+: [0xef, 0xbb, 0xbf] ++ ([0xef, 0xbb, 0xbf] ++ input) :=
    List.prefix_append _ _
  rw [if_pos ⟨hflag, hp⟩]
  rfl

/-- C17: when no `render_code_link` hook is registered, the span-enter of a
code link gives, for every detail and every renderer, the same result (code
and output) as the span-enter of a plain link with that detail; when no
`render_self_link` hook is registered, rendering the href of a self-link with
`render_self_url_escaped` is rendering it with `render_url_escaped`; and the
span-enter of a self-link, outside an image, is then: the opening `<a name="`,
the href rendered with `render_url_escaped`, `" href="#`, the href rendered
with `render_url_escaped` once more, the record pass, the title and `">`. -/
theorem absent_hook_is_url_escaping (cb : MD_HTML_CALLBACKS) (entity_lookup : EntityLookup)
    (det : MD_SPAN_A_DETAIL) (r : MD_HTML) :
    (cb.render_code_link = none →
      enter_span_callback cb entity_lookup (.MD_SPAN_A_CODELINK det) r
        = enter_span_callback cb entity_lookup (.MD_SPAN_A det) r) ∧
    (cb.render_self_link = none →
      render_attribute entity_lookup r det.href (render_self_url_escaped cb)
        = render_attribute entity_lookup r det.href render_url_escaped) ∧
    (cb.render_self_link = none → ¬ r.image_nesting_level > 0 →
      enter_span_callback cb entity_lookup (.MD_SPAN_A_SELF det) r
        = MD_HTML_TRY
            (render_attribute entity_lookup (emit r [cstr "<a name=\""]) det.href
              render_url_escaped)
            fun r1 =>
              MD_HTML_TRY
                (render_attribute entity_lookup (emit r1 [cstr "\" href=\"#"]) det.href
                  render_url_escaped)
                fun r2 =>
                  MD_HTML_TRY (render_attribute entity_lookup r2 det.href (record_self_url cb))
                    fun r3 =>
                      MD_HTML_TRY
                        (render_optional_attribute entity_lookup r3 det.title
                          "\" title=\"" none)
                        fun r4 => some (0, emit r4 [cstr "\">"])) := by
  refine ⟨?_, ?_, ?_⟩
  · intro h
    simp only [enter_span_callback, render_open_a_codelink_span, render_open_a_span,
      render_codelink_url_escaped_none cb h]
  · intro h
    rw [render_self_url_escaped_none cb h]
  · intro h hl
    simp only [enter_span_callback, hl, if_false, render_open_a_self_span,
      render_self_url_escaped_none cb h, RENDER_VERBATIM_eq, IGNORE_RET_some]

set_option maxRecDepth 1000000 in
/-- C18, counterexample: the attribute with the text `a` and the two sub-spans
normal `[0,1)` and null character `[1,1)` satisfies the invariant (offsets not
decreasing, last end equal to the size), and no call fails; `render_attribute`
writes `a` only, while the concatenation over its sub-spans is `a` followed by
the three bytes of U+FFFD. -/
theorem render_attribute_skips_empty_last_substr :
    (MD_ATTRIBUTE.mk (some (cstr "a")) 1 [.MD_TEXT_NORMAL, .MD_TEXT_NULLCHAR]
      [0, 1, 1]).well_formed = true ∧
    (MD_ATTRIBUTE.mk (some (cstr "a")) 1 [.MD_TEXT_NORMAL, .MD_TEXT_NULLCHAR]
      [0, 1, 1]).substrs = [(.MD_TEXT_NORMAL, cstr "a"), (.MD_TEXT_NULLCHAR, [])] ∧
    render_attribute (fun _ => none) (md_html_render 0)
        (MD_ATTRIBUTE.mk (some (cstr "a")) 1 [.MD_TEXT_NORMAL, .MD_TEXT_NULLCHAR] [0, 1, 1])
        render_verbatim
      = some (0, emit (md_html_render 0) [cstr "a"]) ∧
    render_substrs (fun _ => none) render_verbatim
        [(.MD_TEXT_NORMAL, cstr "a"), (.MD_TEXT_NULLCHAR, [])] (md_html_render 0)
      = some (0, emit (md_html_render 0) [cstr "a", [0xef, 0xbf, 0xbd]]) ∧
    [cstr "a"] ≠ [cstr "a", [0xef, 0xbf, 0xbd]] := by
  refine ⟨by decide!, by decide!, ?_, ?_, by decide!⟩
  · rfl
  · rfl

/-- C18, amended: for every well-formed attribute and every append strategy,
`render_attribute` is the rendering, one after the other, of the sub-spans
that start before the end of the text (a null-character sub-span as the three
bytes of U+FFFD written verbatim, an entity sub-span by `render_entity` with
the strategy, any other sub-span by the strategy), so it returns whenever the
calls do; the bytes of these sub-spans, in order, are the attribute text; and
when the rendering of a sub-span is the first to return a nonzero code,
`render_attribute` returns that code and the renderer of that moment. -/
theorem render_attribute_walks_substrs (entity_lookup : EntityLookup) (r : MD_HTML)
    (attr : MD_ATTRIBUTE) (fn_append : AppendFn) (hwf : attr.well_formed = true) :
    render_attribute entity_lookup r attr fn_append
      = render_substrs entity_lookup fn_append attr.processed_substrs r ∧
    (attr.processed_substrs.map Prod.snd).flatten = attr.text.getD [] ∧
    ∀ (pre post : List (MD_TEXTTYPE × List MD_CHAR)) (s : MD_TEXTTYPE × List MD_CHAR)
      (r1 r2 : MD_HTML) (c : Int),
      attr.processed_substrs = pre ++ s :: post →
      render_substrs entity_lookup fn_append pre r = some (0, r1) →
      render_substr entity_lookup fn_append r1 s = some (c, r2) → c ≠ 0 →
      render_attribute entity_lookup r attr fn_append = some (c, r2) := by
  refine ⟨render_attribute_eq entity_lookup r attr fn_append hwf,
    processed_substrs_cover attr hwf, ?_⟩
  intro pre post s r1 r2 c hsplit hpre hs hc
  rw [render_attribute_eq entity_lookup r attr fn_append hwf, hsplit]
  exact render_substrs_first_failure entity_lookup fn_append pre post s r r1 r2 c hpre hs hc

set_option maxRecDepth 1000000 in
/-- Witness of C18 (amended) at the attribute `R&#38;D` with its three
sub-spans. -/
theorem render_attribute_walks_substrs_witness :
    (MD_ATTRIBUTE.mk (some (cstr "R&#38;D")) 7
      [.MD_TEXT_NORMAL, .MD_TEXT_ENTITY, .MD_TEXT_NORMAL] [0, 1, 6, 7]).well_formed = true ∧
    (render_attribute (fun _ => none) (md_html_render 0)
        (MD_ATTRIBUTE.mk (some (cstr "R&#38;D")) 7
          [.MD_TEXT_NORMAL, .MD_TEXT_ENTITY, .MD_TEXT_NORMAL] [0, 1, 6, 7]) render_verbatim
      = render_substrs (fun _ => none) render_verbatim
          (MD_ATTRIBUTE.mk (some (cstr "R&#38;D")) 7
            [.MD_TEXT_NORMAL, .MD_TEXT_ENTITY, .MD_TEXT_NORMAL] [0, 1, 6, 7]).processed_substrs
          (md_html_render 0)) :=
  ⟨by decide, (render_attribute_walks_substrs (fun _ => none) (md_html_render 0)
    (MD_ATTRIBUTE.mk (some (cstr "R&#38;D")) 7
      [.MD_TEXT_NORMAL, .MD_TEXT_ENTITY, .MD_TEXT_NORMAL] [0, 1, 6, 7]) render_verbatim
    (by decide)).1⟩

set_option maxRecDepth 1000000 in
/-- C20 (defect): an image with the title `outer` whose label holds the text
`a`, an image with the title `inner` around the text `b`, a hard break and the
text `c`.  The inner image's leave closes the tag, with the title `inner`, and
brings the nesting level back to 0; the hard break after it is written as
`<br>`, and the outer image's leave writes nothing. -/
theorem nested_image_closes_outer_tag :
    (run_events {} (fun _ => none)
        [.enter_span (.MD_SPAN_IMG
            { src := MD_ATTRIBUTE.mk (some (cstr "o.png")) 5 [.MD_TEXT_NORMAL] [0, 5],
              title := MD_ATTRIBUTE.mk (some (cstr "outer")) 5 [.MD_TEXT_NORMAL] [0, 5] }),
         .text .MD_TEXT_NORMAL (cstr "a"),
         .enter_span (.MD_SPAN_IMG
            { src := MD_ATTRIBUTE.mk (some (cstr "i.png")) 5 [.MD_TEXT_NORMAL] [0, 5],
              title := MD_ATTRIBUTE.mk (some (cstr "inner")) 5 [.MD_TEXT_NORMAL] [0, 5] }),
         .text .MD_TEXT_NORMAL (cstr "b"),
         .leave_span (.MD_SPAN_IMG
            { src := MD_ATTRIBUTE.mk (some (cstr "i.png")) 5 [.MD_TEXT_NORMAL] [0, 5],
              title := MD_ATTRIBUTE.mk (some (cstr "inner")) 5 [.MD_TEXT_NORMAL] [0, 5] })]
        (md_html_render 0)).map (fun p => (p.1, p.2.image_nesting_level, p.2.output.flatten))
      = some (0, 0, cstr "<img src=\"o.png\" alt=\"ab\" title=\"inner\">") ∧
    (run_events {} (fun _ => none)
        [.enter_span (.MD_SPAN_IMG
            { src := MD_ATTRIBUTE.mk (some (cstr "o.png")) 5 [.MD_TEXT_NORMAL] [0, 5],
              title := MD_ATTRIBUTE.mk (some (cstr "outer")) 5 [.MD_TEXT_NORMAL] [0, 5] }),
         .text .MD_TEXT_NORMAL (cstr "a"),
         .enter_span (.MD_SPAN_IMG
            { src := MD_ATTRIBUTE.mk (some (cstr "i.png")) 5 [.MD_TEXT_NORMAL] [0, 5],
              title := MD_ATTRIBUTE.mk (some (cstr "inner")) 5 [.MD_TEXT_NORMAL] [0, 5] }),
         .text .MD_TEXT_NORMAL (cstr "b"),
         .leave_span (.MD_SPAN_IMG
            { src := MD_ATTRIBUTE.mk (some (cstr "i.png")) 5 [.MD_TEXT_NORMAL] [0, 5],
              title := MD_ATTRIBUTE.mk (some (cstr "inner")) 5 [.MD_TEXT_NORMAL] [0, 5] }),
         .text .MD_TEXT_BR [],
         .text .MD_TEXT_NORMAL (cstr "c"),
         .leave_span (.MD_SPAN_IMG
            { src := MD_ATTRIBUTE.mk (some (cstr "o.png")) 5 [.MD_TEXT_NORMAL] [0, 5],
              title := MD_ATTRIBUTE.mk (some (cstr "outer")) 5 [.MD_TEXT_NORMAL] [0, 5] })]
        (md_html_render 0)).map (fun p => (p.1, p.2.image_nesting_level, p.2.output.flatten))
      = some (0, 0, cstr "<img src=\"o.png\" alt=\"ab\" title=\"inner\"><br>\nc") := by
  simp only [md_html_render, md_html_escape_map_eq]
  decide!

/-- C21: starting from image nesting level 0, after every prefix of every
sequence of block, span and text events, in any order and whatever the hooks
return: if the run has returned, the image nesting level is 0 or 1 (so never
negative), for well-formed events of any size; when the HTML-escaped texts of
the events have fewer than `2 ^ 32 - 3` bytes, the run does return; and from a
level that is 0 or 1 every handler then returns with the
level that `MD_EVENT.level_after` gives: one more after an image enter at
level 0, one less after an image leave at level 1, unchanged after every other
event. -/
theorem image_nesting_level_is_0_or_1 (cb : MD_HTML_CALLBACKS)
    (entity_lookup : EntityLookup) (events : List MD_EVENT) (r : MD_HTML)
    (hlevel : r.image_nesting_level = 0) (hwf : ∀ e ∈ events, e.well_formed = true)
    (hfit : ∀ e ∈ events, e.html_fits = true) :
    (∀ n, ∃ ret r1, run_events cb entity_lookup (events.take n) r = some (ret, r1) ∧
        (r1.image_nesting_level = 0 ∨ r1.image_nesting_level = 1)) ∧
    (∀ (event : MD_EVENT) (r0 : MD_HTML), event.well_formed = true →
        event.html_fits = true →
        (r0.image_nesting_level = 0 ∨ r0.image_nesting_level = 1) →
        ∃ ret r1, handle_event cb entity_lookup event r0 = some (ret, r1) ∧
          r1.image_nesting_level = event.level_after r0.image_nesting_level ∧
          (r1.image_nesting_level = 0 ∨ r1.image_nesting_level = 1)) ∧
    (∀ (any : List MD_EVENT) (r0 : MD_HTML) (ret : Int) (r1 : MD_HTML),
        (∀ e ∈ any, e.well_formed = true) →
        (r0.image_nesting_level = 0 ∨ r0.image_nesting_level = 1) →
        run_events cb entity_lookup any r0 = some (ret, r1) →
        (r1.image_nesting_level = 0 ∨ r1.image_nesting_level = 1)) :=
  ⟨fun n => run_events_level cb entity_lookup (events.take n)
      (fun e he => hwf e (List.mem_of_mem_take he))
      (fun e he => hfit e (List.mem_of_mem_take he)) r (Or.inl hlevel),
   fun event r0 h1 h2 h3 => level_step cb entity_lookup event r0 h1 h2 h3,
   fun any r0 ret r1 _ hl h => run_events_level_safe cb entity_lookup any r0 ret r1 hl h⟩

set_option maxRecDepth 1000000 in
/-- Witness of C21: an image enter, a second image enter, three span leaves
and the enter of a code link whose hook returns 7. -/
theorem image_nesting_level_is_0_or_1_witness :
    (md_html_render 0).image_nesting_level = 0 ∧
    (∀ e ∈ [MD_EVENT.enter_span (.MD_SPAN_IMG
              { src := MD_ATTRIBUTE.mk (some (cstr "o.png")) 5 [.MD_TEXT_NORMAL] [0, 5],
                title := MD_ATTRIBUTE.mk none 0 [] [0] }),
            .enter_span (.MD_SPAN_IMG
              { src := MD_ATTRIBUTE.mk (some (cstr "i.png")) 5 [.MD_TEXT_NORMAL] [0, 5],
                title := MD_ATTRIBUTE.mk none 0 [] [0] }),
            .leave_span .MD_SPAN_EM,
            .leave_span (.MD_SPAN_IMG
              { src := MD_ATTRIBUTE.mk (some (cstr "i.png")) 5 [.MD_TEXT_NORMAL] [0, 5],
                title := MD_ATTRIBUTE.mk none 0 [] [0] }),
            .leave_span (.MD_SPAN_IMG
              { src := MD_ATTRIBUTE.mk (some (cstr "o.png")) 5 [.MD_TEXT_NORMAL] [0, 5],
                title := MD_ATTRIBUTE.mk none 0 [] [0] }),
            .enter_span (.MD_SPAN_A_CODELINK
              { href := MD_ATTRIBUTE.mk (some (cstr "a")) 1 [.MD_TEXT_NORMAL] [0, 1],
                title := MD_ATTRIBUTE.mk none 0 [] [0] })],
        e.well_formed = true ∧ e.html_fits = true) ∧
    ∃ ret r1,
      run_events { render_code_link := some (fun _ _ => { rendered := [], ret := 7 }) }
          (fun _ => none)
          (List.take 6
            [MD_EVENT.enter_span (.MD_SPAN_IMG
              { src := MD_ATTRIBUTE.mk (some (cstr "o.png")) 5 [.MD_TEXT_NORMAL] [0, 5],
                title := MD_ATTRIBUTE.mk none 0 [] [0] }),
            .enter_span (.MD_SPAN_IMG
              { src := MD_ATTRIBUTE.mk (some (cstr "i.png")) 5 [.MD_TEXT_NORMAL] [0, 5],
                title := MD_ATTRIBUTE.mk none 0 [] [0] }),
            .leave_span .MD_SPAN_EM,
            .leave_span (.MD_SPAN_IMG
              { src := MD_ATTRIBUTE.mk (some (cstr "i.png")) 5 [.MD_TEXT_NORMAL] [0, 5],
                title := MD_ATTRIBUTE.mk none 0 [] [0] }),
            .leave_span (.MD_SPAN_IMG
              { src := MD_ATTRIBUTE.mk (some (cstr "o.png")) 5 [.MD_TEXT_NORMAL] [0, 5],
                title := MD_ATTRIBUTE.mk none 0 [] [0] }),
            .enter_span (.MD_SPAN_A_CODELINK
              { href := MD_ATTRIBUTE.mk (some (cstr "a")) 1 [.MD_TEXT_NORMAL] [0, 1],
                title := MD_ATTRIBUTE.mk none 0 [] [0] })])
          (md_html_render 0)
        = some (ret, r1) ∧
      (r1.image_nesting_level = 0 ∨ r1.image_nesting_level = 1) :=
  ⟨rfl, by decide!,
    (image_nesting_level_is_0_or_1
      { render_code_link := some (fun _ _ => { rendered := [], ret := 7 }) }
      (fun _ => none) _ (md_html_render 0) rfl (by decide!) (by decide!)).1 6⟩

set_option maxRecDepth 1000000 in
/-- C22 (defect): a self-link whose href is one null-character sub-span,
entered at image nesting level 0 with no hooks and no title.  Rendering the
href with `render_url_escaped` writes the three bytes of U+FFFD; the handler
returns 0 and writes them once after `<a name="` and twice after `" href="#`:
the record pass has written to the sink, and the anchor name and the href
value differ. -/
theorem self_link_record_pass_writes :
    (md_html_render 0).image_nesting_level = 0 ∧
    (MD_ATTRIBUTE.mk (some [0x00]) 1 [.MD_TEXT_NULLCHAR] [0, 1]).well_formed = true ∧
    (render_attribute (fun _ => none) (md_html_render 0)
        (MD_ATTRIBUTE.mk (some [0x00]) 1 [.MD_TEXT_NULLCHAR] [0, 1]) render_url_escaped).map
      (fun p => (p.1, p.2.output.flatten))
      = some (0, [0xef, 0xbf, 0xbd]) ∧
    (render_attribute (fun _ => none) (md_html_render 0)
        (MD_ATTRIBUTE.mk (some [0x00]) 1 [.MD_TEXT_NULLCHAR] [0, 1]) (record_self_url {})).map
      (fun p => (p.1, p.2.output.flatten))
      = some (0, [0xef, 0xbf, 0xbd]) ∧
    (enter_span_callback {} (fun _ => none)
        (.MD_SPAN_A_SELF
          { href := MD_ATTRIBUTE.mk (some [0x00]) 1 [.MD_TEXT_NULLCHAR] [0, 1],
            title := MD_ATTRIBUTE.mk none 0 [] [0] })
        (md_html_render 0)).map
      (fun p => (p.1, p.2.output.flatten))
      = some (0, cstr "<a name=\"" ++ [0xef, 0xbf, 0xbd] ++ cstr "\" href=\"#" ++
          [0xef, 0xbf, 0xbd] ++ [0xef, 0xbf, 0xbd] ++ cstr "\">") := by
  simp only [md_html_render, md_html_escape_map_eq]
  decide!

/-- C24: with the escape map of `md_html`, for every byte string
`render_url_escaped` returns 0 and what it hands to the sink has no byte `"`,
`<`, `>`, space or apostrophe; it is a sequence of pieces, one for each input
byte in order, each of which is `&amp;` or has no `&`; so at every position of
the output that holds `&` the sequence `&amp;` starts. -/
theorem render_url_escaped_output_inert (r : MD_HTML)
    (hmap : r.escape_map = md_html_escape_map) (data : List MD_CHAR) :
    ∃ chunks, render_url_escaped r data = some (0, emit r chunks) ∧
      (∀ c ∈ chunks.flatten, c ≠ 0x22 ∧ c ≠ 0x3C ∧ c ≠ 0x3E ∧ c ≠ 0x20 ∧ c ≠ 0x27) ∧
      (∃ pieces : List (List MD_CHAR), pieces.length = data.length ∧
        chunks.flatten = pieces.flatten ∧
        ∀ p ∈ pieces, p ∈ [cstr "&amp;"] ∨ ∀ c ∈ p, c ≠ 0x26) ∧
      (∀ i, chunks.flatten[i]? = some 0x26 →
        ∃ e ∈ [cstr "&amp;"], e <+: chunks.flatten.drop i) := by
  obtain ⟨chunks, hrun, hflat⟩ := render_url_escaped_spec r data
  have hpieces : ∀ p ∈ data.map (url_byte_output r),
      p ∈ [cstr "&amp;"] ∨ ∀ c ∈ p, c ≠ 0x26 := by
    intro p hp
    obtain ⟨b, _, rfl⟩ := List.mem_map.mp hp
    exact (url_byte_output_inert r hmap b).1
  have hflat2 : chunks.flatten = (data.map (url_byte_output r)).flatten := by
    rw [hflat, flatMap_eq_flatten_map]
  refine ⟨chunks, hrun, ?_, ⟨data.map (url_byte_output r), by simp, hflat2, hpieces⟩, ?_⟩
  · intro c hc
    rw [hflat, List.mem_flatMap] at hc
    obtain ⟨b, _, hcb⟩ := hc
    exact (url_byte_output_inert r hmap b).2 c hcb
  · rw [hflat2]
    exact amp_starts_entity _ url_entities_start_with_amp _ hpieces

set_option maxRecDepth 1000000 in
/-- Witness of C24 at the input `a b&"<` with the renderer `md_html` sets
up. -/
theorem render_url_escaped_output_inert_witness :
    (md_html_render 0).escape_map = md_html_escape_map ∧
    ∃ chunks, render_url_escaped (md_html_render 0) (cstr "a b&\"<")
        = some (0, emit (md_html_render 0) chunks) ∧
      (∀ c ∈ chunks.flatten, c ≠ 0x22 ∧ c ≠ 0x3C ∧ c ≠ 0x3E ∧ c ≠ 0x20 ∧ c ≠ 0x27) ∧
      (∃ pieces : List (List MD_CHAR), pieces.length = (cstr "a b&\"<").length ∧
        chunks.flatten = pieces.flatten ∧
        ∀ p ∈ pieces, p ∈ [cstr "&amp;"] ∨ ∀ c ∈ p, c ≠ 0x26) ∧
      (∀ i, chunks.flatten[i]? = some 0x26 →
        ∃ e ∈ [cstr "&amp;"], e <+: chunks.flatten.drop i) :=
  ⟨rfl, render_url_escaped_output_inert (md_html_render 0) rfl (cstr "a b&\"<")⟩

end Md4cHtml
